import Mathlib

/-!
# Stub managers: registry, iterator and trace orchestration

A shallow embedding of the registry part of `src/coreclr/vm/stubmgr.cpp`:
the singly linked list of stub managers (`g_pFirstManager`, `m_pNextManager`),
`StubManagerIterator`, `StubManager::CheckIsStub_Worker`, `StubManager::TraceStub`,
`StubManager::FollowTrace`, `StubManager::AddStubManager` and
`StubManager::UnlinkStubManager`.

Pointers are natural numbers and `0` is `NULL`.  The virtual functions of a stub
manager and the services of the execution manager are fields of `World`; the
linked list lives in `Registry`.  Loops over the linked list take fuel and
answer `none` when the fuel runs out; the theorems give the fuel that is enough.
Every function that calls a virtual function or `TraceStub` also returns the
list of the calls it made, in order.
-/

namespace StubMgr

/-- The type `PCODE` of code addresses; `0` is `NULL`. -/
abbrev PCODE := Nat

/-- A pointer to a `StubManager`; `0` is `NULL`. -/
abbrev Ptr := Nat

/-- The C++ `BOOL`. -/
abbrev BOOL := Bool

/-- The enumeration `TraceType`, with the members that `GetTType` lists. -/
inductive TraceType
  | TRACE_ENTRY_STUB
  | TRACE_STUB
  | TRACE_UNMANAGED
  | TRACE_MANAGED
  | TRACE_FRAME_PUSH
  | TRACE_MGR_PUSH
  | TRACE_OTHER
  | TRACE_UNJITTED_METHOD
  deriving DecidableEq, Repr

/-- Modelled from the spec: the class `TraceDestination` is declared in `stubmgr.h`,
which is not among the sources.  The fields are the ones that
`TraceDestination::InitForUnjittedMethod` assigns (`type`, `pDesc`, `stubManager`)
and the address that `GetAddress` returns; `address` stands for the payload of the
destination (the address, or the method descriptor of an unjitted method). -/
structure TraceDestination where
  type : TraceType
  address : PCODE
  stubManager : Ptr
  deriving DecidableEq, Repr

namespace TraceDestination

/-- Modelled from the spec: `Stub(address)`, the destination that `InitForStub` writes
(declared in `stubmgr.h`); it carries no manager. -/
def InitForStub (addr : PCODE) : TraceDestination :=
  { type := TraceType.TRACE_STUB, address := addr, stubManager := 0 }

/-- Modelled from the spec: `Managed(address)`, the destination that `InitForManaged`
writes (declared in `stubmgr.h`); it carries no manager. -/
def InitForManaged (addr : PCODE) : TraceDestination :=
  { type := TraceType.TRACE_MANAGED, address := addr, stubManager := 0 }

/-- Modelled from the spec: `Other(address)`, the destination that `InitForOther`
writes (declared in `stubmgr.h`); it carries no manager. -/
def InitForOther (addr : PCODE) : TraceDestination :=
  { type := TraceType.TRACE_OTHER, address := addr, stubManager := 0 }

/-- Modelled from the spec: the accessor `GetTraceType` of `stubmgr.h`. -/
def GetTraceType (t : TraceDestination) : TraceType := t.type

/-- Modelled from the spec: the accessor `GetAddress` of `stubmgr.h`. -/
def GetAddress (t : TraceDestination) : PCODE := t.address

end TraceDestination

open TraceDestination

/-- What the registry code calls and does not define: the virtual functions of
the stub managers, the code-range service and the global virtual-call manager. -/
structure World where
  /-- The virtual `CheckIsStub_Internal` of the manager at a pointer; `none` when the
  call faults or throws. -/
  CheckIsStub_Internal : Ptr → PCODE → Option BOOL
  /-- The virtual `DoTraceStub` of the manager at a pointer: from the address and the
  destination the caller holds, the returned `BOOL` and the destination afterwards
  (the one it was given when the manager writes nothing). -/
  DoTraceStub : Ptr → PCODE → TraceDestination → BOOL × TraceDestination
  /-- The service `ExecutionManager::IsManagedCode`. -/
  IsManagedCode : PCODE → BOOL
  /-- The result of `VirtualCallStubManagerManager::GlobalManager()`. -/
  GlobalManager : Ptr

/-- The mutable list of stub managers: the static `g_pFirstManager` and the field
`m_pNextManager` of every manager. -/
structure Registry where
  g_pFirstManager : Ptr
  m_pNextManager : Ptr → Ptr

/-- A call that the registry code makes to a virtual function, to the code-range
service, or (from `FollowTrace`) to `TraceStub`. -/
inductive Call
  | CheckIsStub_Internal (mgr : Ptr) (addr : PCODE)
  | DoTraceStub (mgr : Ptr) (addr : PCODE)
  | IsManagedCode (addr : PCODE)
  | TraceStub (addr : PCODE)
  deriving DecidableEq, Repr

/-! ## StubManagerIterator -/

/-- The enumeration `StubManagerIterator::SMI_State`. -/
inductive SMI_State
  | SMI_START
  | SMI_NORMAL
  | SMI_VIRTUALCALLSTUBMANAGER
  | SMI_END
  deriving DecidableEq, Repr

/-- The fields of `StubManagerIterator`.  `m_lh` is the read-lock holder of the
non-DAC build: `some p` while it holds the lock `m_RWLock` of the manager `p`. -/
structure StubManagerIterator where
  m_state : SMI_State
  m_pCurMgr : Ptr
  m_lh : Option Ptr
  deriving DecidableEq, Repr

namespace StubManagerIterator

/-- The method `StubManagerIterator::Reset`. -/
def Reset (it : StubManagerIterator) : StubManagerIterator :=
  { it with m_pCurMgr := 0, m_state := SMI_State.SMI_START }

/-- The constructor `StubManagerIterator::StubManagerIterator`: an empty lock holder,
then `Reset()`. -/
def new : StubManagerIterator :=
  Reset { m_state := SMI_State.SMI_START, m_pCurMgr := 0, m_lh := none }

/-- The body of the `do ... while` loop of `StubManagerIterator::Next`. -/
def NextBody (W : World) (R : Registry) (it : StubManagerIterator) : StubManagerIterator :=
  match it.m_state with
  | SMI_State.SMI_START =>
      { it with m_state := SMI_State.SMI_NORMAL, m_pCurMgr := R.g_pFirstManager }
  | SMI_State.SMI_NORMAL =>
      if it.m_pCurMgr ≠ 0 then
        { it with m_pCurMgr := R.m_pNextManager it.m_pCurMgr }
      else
        { m_state := SMI_State.SMI_VIRTUALCALLSTUBMANAGER,
          m_pCurMgr := W.GlobalManager,
          m_lh := some W.GlobalManager }
  | SMI_State.SMI_VIRTUALCALLSTUBMANAGER =>
      { m_state := SMI_State.SMI_END, m_pCurMgr := 0, m_lh := none }
  | SMI_State.SMI_END => it

/-- The condition of the `do ... while` loop of `Next`:
`m_state != SMI_END && m_pCurMgr == NULL`. -/
def NextAgain (it : StubManagerIterator) : Bool :=
  it.m_state != SMI_State.SMI_END && it.m_pCurMgr == 0

/-- The `do ... while` loop of `Next`, run for at most `fuel + 1` rounds. -/
def NextLoop (W : World) (R : Registry) : Nat → StubManagerIterator → StubManagerIterator
  | 0, it => NextBody W R it
  | fuel + 1, it =>
      let it1 := NextBody W R it
      if NextAgain it1 then NextLoop W R fuel it1 else it1

/-- The method `StubManagerIterator::Next`: the returned `BOOL` and the iterator
afterwards.  The loop never needs more than three rounds (`NextAgain_Next`). -/
def Next (W : World) (R : Registry) (it : StubManagerIterator) : BOOL × StubManagerIterator :=
  let it1 := NextLoop W R 2 it
  (it1.m_state != SMI_State.SMI_END, it1)

/-- The method `StubManagerIterator::Current`. -/
def Current (it : StubManagerIterator) : Ptr := it.m_pCurMgr

end StubManagerIterator

open StubManagerIterator

/-! ## StubManager -/

/-- The method `StubManager::CheckIsStub_Worker` of the manager at `this`: the returned
`BOOL` and the calls made.  The `EX_TRY`/`EX_CATCH` (or `PAL_TRY`/`PAL_EXCEPT`) block
turns a fault of `CheckIsStub_Internal` into `FALSE` and swallows it. -/
def CheckIsStub_Worker (W : World) (this : Ptr) (stubStartAddress : PCODE) :
    BOOL × List Call :=
  if stubStartAddress = 0 then
    (false, [])
  else
    match W.CheckIsStub_Internal this stubStartAddress with
    | some fIsStub => (fIsStub, [Call.CheckIsStub_Internal this stubStartAddress])
    | none => (false, [Call.CheckIsStub_Internal this stubStartAddress])

/-- The `while (it.Next())` loop of `StubManager::TraceStub` and the code after it.
The debug-only assertion `IsSingleOwner` and the logging are left out. -/
def TraceStubLoop (W : World) (R : Registry) (stubStartAddress : PCODE)
    (trace : TraceDestination) :
    Nat → StubManagerIterator → Option (BOOL × TraceDestination × List Call)
  | 0, _ => none
  | fuel + 1, it =>
      let r := Next W R it
      if r.1 then
        let pCurrent := Current r.2
        let c := CheckIsStub_Worker W pCurrent stubStartAddress
        if c.1 then
          let t := W.DoTraceStub pCurrent stubStartAddress trace
          some (t.1, t.2, c.2 ++ [Call.DoTraceStub pCurrent stubStartAddress])
        else
          match TraceStubLoop W R stubStartAddress trace fuel r.2 with
          | none => none
          | some (fValid, trace1, calls) => some (fValid, trace1, c.2 ++ calls)
      else if W.IsManagedCode stubStartAddress then
        some (true, InitForManaged stubStartAddress, [Call.IsManagedCode stubStartAddress])
      else
        some (false, InitForOther stubStartAddress, [Call.IsManagedCode stubStartAddress])

/-- The function `StubManager::TraceStub`: the returned `BOOL`, the destination
afterwards and the calls made; `none` when `fuel` calls of `Next` were not enough. -/
def TraceStub (W : World) (R : Registry) (fuel : Nat) (stubStartAddress : PCODE)
    (trace : TraceDestination) : Option (BOOL × TraceDestination × List Call) :=
  TraceStubLoop W R stubStartAddress trace fuel StubManagerIterator.new

/-- The function `StubManager::FollowTrace`: the returned `BOOL`, the destination
afterwards and the calls made.  `fuelT` is the fuel of every `TraceStub` call and
`fuel` bounds the number of tests of the `while` condition. -/
def FollowTrace (W : World) (R : Registry) (fuelT : Nat) :
    Nat → TraceDestination → Option (BOOL × TraceDestination × List Call)
  | 0, _ => none
  | fuel + 1, trace =>
      if GetTraceType trace = TraceType.TRACE_STUB then
        match TraceStub W R fuelT (GetAddress trace) trace with
        | none => none
        | some (fValid, trace1, calls1) =>
            let trace2 := if !fValid then InitForOther (GetAddress trace1) else trace1
            match FollowTrace W R fuelT fuel trace2 with
            | none => none
            | some (b, trace3, calls2) =>
                some (b, trace3, Call.TraceStub (GetAddress trace) :: (calls1 ++ calls2))
      else
        some (GetTraceType trace != TraceType.TRACE_OTHER, trace, [])

/-- The function `StubManager::AddStubManager`. -/
def AddStubManager (R : Registry) (mgr : Ptr) : Registry :=
  if R.g_pFirstManager = 0 then
    { R with g_pFirstManager := mgr }
  else
    { g_pFirstManager := mgr,
      m_pNextManager := fun p => if p = mgr then R.g_pFirstManager else R.m_pNextManager p }

/-- The place a `StubManager **` points to in `UnlinkStubManager`: the static
`g_pFirstManager`, or the field `m_pNextManager` of a manager. -/
inductive Slot
  | first
  | next (p : Ptr)
  deriving DecidableEq, Repr

/-- Read through a `StubManager **`. -/
def Registry.read (R : Registry) : Slot → Ptr
  | Slot.first => R.g_pFirstManager
  | Slot.next p => R.m_pNextManager p

/-- Write through a `StubManager **`. -/
def Registry.write (R : Registry) (s : Slot) (v : Ptr) : Registry :=
  match s with
  | Slot.first => { R with g_pFirstManager := v }
  | Slot.next p =>
      { R with m_pNextManager := fun q => if q = p then v else R.m_pNextManager q }

/-- The `while (*m != NULL)` loop of `StubManager::UnlinkStubManager`. -/
def UnlinkLoop (mgr : Ptr) : Nat → Registry → Slot → Option Registry
  | 0, _, _ => none
  | fuel + 1, R, m =>
      if R.read m ≠ 0 then
        if R.read m = mgr then
          some (R.write m (R.m_pNextManager (R.read m)))
        else
          UnlinkLoop mgr fuel R (Slot.next (R.read m))
      else
        some R

/-- The function `StubManager::UnlinkStubManager`: the registry afterwards; `none`
when `fuel` tests of the loop condition were not enough. -/
def UnlinkStubManager (R : Registry) (fuel : Nat) (mgr : Ptr) : Option Registry :=
  UnlinkLoop mgr fuel R Slot.first

/-! ## Well-formed lists and the order of iteration -/

/-- The managers reached from the pointer `p` through `m_pNextManager`, up to the
`NULL` that ends the list, are exactly `L`. -/
def Registry.Chain (R : Registry) : Ptr → List Ptr → Prop
  | p, [] => p = 0
  | p, x :: xs => p = x ∧ x ≠ 0 ∧ Registry.Chain R (R.m_pNextManager x) xs

/-- The ordinary list of the registry, from `g_pFirstManager`, is `L`. -/
def Registry.IsList (R : Registry) (L : List Ptr) : Prop :=
  R.Chain R.g_pFirstManager L

instance Registry.decChain (R : Registry) : (p : Ptr) → (L : List Ptr) → Decidable (R.Chain p L)
  | p, [] => inferInstanceAs (Decidable (p = 0))
  | p, x :: xs =>
      have := Registry.decChain R (R.m_pNextManager x) xs
      inferInstanceAs (Decidable (p = x ∧ x ≠ 0 ∧ R.Chain (R.m_pNextManager x) xs))

instance Registry.decIsList (R : Registry) (L : List Ptr) : Decidable (R.IsList L) :=
  Registry.decChain R R.g_pFirstManager L

/-- The distinguished manager as a list: empty when `GlobalManager()` is `NULL`. -/
def World.distinguished (W : World) : List Ptr :=
  if W.GlobalManager = 0 then [] else [W.GlobalManager]

/-- The managers that `Current()` gives after the successive calls of `Next()` on the
iterator `it`, for at most `n` calls and up to the first call that returns `FALSE`. -/
def visited (W : World) (R : Registry) : Nat → StubManagerIterator → List Ptr
  | 0, _ => []
  | n + 1, it =>
      let r := Next W R it
      if r.1 then Current r.2 :: visited W R n r.2 else []

/-- The iterator after `n` calls of `Next()`. -/
def nextTimes (W : World) (R : Registry) : Nat → StubManagerIterator → StubManagerIterator
  | 0, it => it
  | n + 1, it => nextTimes W R n (Next W R it).2

/-- The addresses and managers of the `DoTraceStub` calls in a list of calls. -/
def doTraceCalls : List Call → List (Ptr × PCODE)
  | [] => []
  | Call.DoTraceStub p a :: cs => (p, a) :: doTraceCalls cs
  | _ :: cs => doTraceCalls cs

/-- The addresses of the `TraceStub` calls in a list of calls. -/
def traceStubCalls : List Call → List PCODE
  | [] => []
  | Call.TraceStub a :: cs => a :: traceStubCalls cs
  | _ :: cs => traceStubCalls cs

/-- The managers and addresses of the `CheckIsStub_Internal` calls in a list of calls. -/
def checkCalls : List Call → List (Ptr × PCODE)
  | [] => []
  | Call.CheckIsStub_Internal p a :: cs => (p, a) :: checkCalls cs
  | _ :: cs => checkCalls cs

/-- The iterator has the managers `rest` of the ordinary list still to visit: it is
fresh and the whole list is `rest`, or it stands on a manager whose successors are
`rest`. -/
def Pending (R : Registry) (it : StubManagerIterator) (rest : List Ptr) : Prop :=
  (it.m_state = SMI_State.SMI_START ∧ R.Chain R.g_pFirstManager rest) ∨
  (it.m_state = SMI_State.SMI_NORMAL ∧ it.m_pCurMgr ≠ 0 ∧
    R.Chain (R.m_pNextManager it.m_pCurMgr) rest)

/-- The loop of `TraceStub` and the code after it, over an explicit list of the
managers that the iterator gives. -/
def TraceStubOn (W : World) (stubStartAddress : PCODE) (trace : TraceDestination) :
    List Ptr → BOOL × TraceDestination × List Call
  | [] =>
      if W.IsManagedCode stubStartAddress then
        (true, InitForManaged stubStartAddress, [Call.IsManagedCode stubStartAddress])
      else
        (false, InitForOther stubStartAddress, [Call.IsManagedCode stubStartAddress])
  | p :: ps =>
      let c := CheckIsStub_Worker W p stubStartAddress
      if c.1 then
        let t := W.DoTraceStub p stubStartAddress trace
        (t.1, t.2, c.2 ++ [Call.DoTraceStub p stubStartAddress])
      else
        let r := TraceStubOn W stubStartAddress trace ps
        (r.1, r.2.1, c.2 ++ r.2.2)

/-- The slot that `m` of `UnlinkStubManager` points to after it has walked over the
managers `l1` from the slot `s`: the `m_pNextManager` field of the last of them. -/
def slotAfter (s : Slot) (l1 : List Ptr) : Slot :=
  match l1.getLast? with
  | none => s
  | some p => Slot.next p

/-- A chain of successful stub hops from the destination `d`: each destination but the
last has tag `TRACE_STUB`, and `TraceStub` on its address returns `TRUE` and writes the
next one. -/
def StubChain (W : World) (R : Registry) (fuelT : Nat) :
    TraceDestination → List TraceDestination → Prop
  | _, [] => True
  | d, d1 :: ds =>
      GetTraceType d = TraceType.TRACE_STUB ∧
      (TraceStub W R fuelT (GetAddress d) d).map (fun r => (r.1, r.2.1)) = some (true, d1) ∧
      StubChain W R fuelT d1 ds

/-! ## Build switches and the services the stub managers consume -/

/-- The preprocessor switches that the modelled functions test. -/
structure Build where
  DACCESS_COMPILE : Bool
  FEATURE_MULTICASTSTUB_AS_IL : Bool
  FEATURE_COMINTEROP : Bool
  TARGET_AMD64 : Bool
  HAS_COMPACT_ENTRYPOINTS : Bool
  HAS_NDIRECT_IMPORT_PRECODE : Bool
  /-- The value of `sizeof(void*)`, in bytes. -/
  PointerSize : Nat

/-- The modulus of address arithmetic of the build. -/
def Build.wordMod (B : Build) : Nat := 2 ^ (8 * B.PointerSize)

/-- The enumeration `PrecodeType` of `precode.h`, with the members that
`PrecodeStubManager::DoTraceStub` names; `PRECODE_INVALID` stands for every other
value. -/
inductive PrecodeType
  | PRECODE_INVALID
  | PRECODE_STUB
  | PRECODE_NDIRECT_IMPORT
  | PRECODE_FIXUP
  | PRECODE_THISPTR_RETBUF
  deriving DecidableEq, Repr

/-- The enumeration `StubCodeBlockKind`, with the members that
`RangeSectionStubManager` names; `STUB_CODE_BLOCK_OTHER` stands for every other
value. -/
inductive StubCodeBlockKind
  | STUB_CODE_BLOCK_UNKNOWN
  | STUB_CODE_BLOCK_JUMPSTUB
  | STUB_CODE_BLOCK_PRECODE
  | STUB_CODE_BLOCK_STUBLINK
  | STUB_CODE_BLOCK_VIRTUAL_METHOD_THUNK
  | STUB_CODE_BLOCK_EXTERNAL_METHOD_THUNK
  | STUB_CODE_BLOCK_METHOD_CALL_THUNK
  | STUB_CODE_BLOCK_OTHER
  deriving DecidableEq, Repr

/-- The functions and constants of other files that the stub managers use.  A
method descriptor, a precode, a stub, a range section and an object are pointers. -/
structure Env where
  /-- The method `MethodDesc::IsWrapperStub`. -/
  IsWrapperStub : Ptr → Bool
  /-- The method `MethodDesc::GetExistingWrappedMethodDesc`; `none` when it throws. -/
  GetExistingWrappedMethodDesc : Ptr → Option Ptr
  /-- The method `MethodDesc::IsIL`. -/
  IsIL : Ptr → Bool
  /-- The method `MethodDesc::IsILStub`. -/
  IsILStub : Ptr → Bool
  /-- The method `MethodDesc::IsNDirect`. -/
  IsNDirect : Ptr → Bool
  /-- The method `NDirectMethodDesc::GetNativeNDirectTarget`. -/
  GetNativeNDirectTarget : Ptr → PCODE
  /-- The method `DynamicMethodDesc::IsMulticastStub`. -/
  IsMulticastStub : Ptr → Bool
  /-- The method `DynamicMethodDesc::IsReverseStub`. -/
  IsReverseStub : Ptr → Bool
  /-- The method `MethodDesc::IsStatic`. -/
  IsStatic : Ptr → Bool
  /-- The test `HasFlags(DynamicMethodDesc::FlagIsDelegate)`. -/
  HasFlagIsDelegate : Ptr → Bool
  /-- The test `HasFlags(DynamicMethodDesc::FlagIsCALLI)`. -/
  HasFlagIsCALLI : Ptr → Bool
  /-- The method `DynamicMethodDesc::IsStepThroughStub`. -/
  IsStepThroughStub : Ptr → Bool
  /-- The method `DynamicMethodDesc::HasMDContextArg`. -/
  HasMDContextArg : Ptr → Bool
  /-- The value of `GetILStubResolver()->GetStubTargetMethodDesc()` of a stub method. -/
  GetStubTargetMethodDesc : Ptr → Ptr
  /-- The function `ExecutionManager::GetCodeMethodDesc`. -/
  GetCodeMethodDesc : PCODE → Ptr
  /-- The function `Entry2MethodDesc` with a null method table. -/
  Entry2MethodDesc : PCODE → Ptr
  /-- The function `ExecutionManager::FindCodeRange` under the scan reader lock. -/
  FindCodeRange : PCODE → Ptr
  /-- The value of `pRS->pjit->GetStubCodeBlockKind(pRS, addr)`. -/
  GetStubCodeBlockKind : Ptr → PCODE → StubCodeBlockKind
  /-- Whether the active native code version of a method `IsNull()`. -/
  NativeCodeVersionIsNull : Ptr → Bool
  /-- The value of `GetNativeCode()` of the active native code version of a method. -/
  GetNativeCode : Ptr → PCODE
  /-- The function `MethodDescChunk::IsCompactEntryPointAtAddress`. -/
  IsCompactEntryPointAtAddress : PCODE → Bool
  /-- The function `MethodDescChunk::GetMethodDescFromCompactEntryPoint`. -/
  GetMethodDescFromCompactEntryPoint : PCODE → Ptr
  /-- The constant `FixupPrecode::FixupCodeOffset`. -/
  FixupCodeOffset : Nat
  /-- The function `Precode::GetPrecodeFromEntryPoint`, from the address and the flag
  `speculative`. -/
  GetPrecodeFromEntryPoint : PCODE → Bool → Ptr
  /-- The method `Precode::GetType`. -/
  PrecodeGetType : Ptr → PrecodeType
  /-- The method `Precode::GetTarget`. -/
  PrecodeGetTarget : Ptr → PCODE
  /-- The method `Precode::IsPointingToPrestub`. -/
  PrecodeIsPointingToPrestub : Ptr → PCODE → Bool
  /-- The method `Precode::GetMethodDesc`. -/
  PrecodeGetMethodDesc : Ptr → Ptr
  /-- The function `Stub::RecoverStub`. -/
  RecoverStub : PCODE → Ptr
  /-- The method `Stub::IsMulticastDelegate`. -/
  StubIsMulticastDelegate : Ptr → Bool
  /-- The method `Stub::IsInstantiatingStub`. -/
  StubIsInstantiatingStub : Ptr → Bool
  /-- The method `Stub::GetPatchOffset`. -/
  StubGetPatchOffset : Ptr → Nat
  /-- The method `Stub::GetPatchAddress`. -/
  StubGetPatchAddress : Ptr → Nat
  /-- The function `decodeBackToBackJump`. -/
  decodeBackToBackJump : PCODE → PCODE
  /-- The function `GetPreStubEntryPoint`. -/
  GetPreStubEntryPoint : PCODE
  /-- The value of `GetEEFuncEntryPoint(ThePreStubPatchLabel)`. -/
  ThePreStubPatchLabel : PCODE
  /-- The value of `GetEEFuncEntryPoint(NDirectImportThunk)`. -/
  NDirectImportThunk : PCODE
  /-- The value of `GetEEFuncEntryPoint(ExternalMethodFixupPatchLabel)`. -/
  ExternalMethodFixupPatchLabel : PCODE
  /-- The value of `GetEEFuncEntryPoint(StubHelpers::MulticastDebuggerTraceHelper)`. -/
  MulticastDebuggerTraceHelper : PCODE
  /-- The value of `GetEEFuncEntryPoint(JIT_TailCall)`. -/
  JIT_TailCall : PCODE
  /-- The value of `GetEEFuncEntryPoint(JIT_TailCallLeave)`. -/
  JIT_TailCallLeave : PCODE
  /-- The value of `GetEEFuncEntryPoint(JIT_TailCallVSDLeave)`. -/
  JIT_TailCallVSDLeave : PCODE
  /-- The constant `JIT_TailCall_StackOffsetToFlags` of `asmconstants.h`. -/
  JIT_TailCall_StackOffsetToFlags : Nat
  /-- The static `PrecodeStubManager::g_pManager`. -/
  PrecodeStubManager_g_pManager : Ptr
  /-- The static `JumpStubStubManager::g_pManager`. -/
  JumpStubStubManager_g_pManager : Ptr
  /-- The static `StubLinkStubManager::g_pManager`. -/
  StubLinkStubManager_g_pManager : Ptr
  /-- The pointer-sized word that memory holds at an address. -/
  readWord : Nat → Nat
  /-- The field of a delegate object at `DelegateObject::GetOffsetOfInvocationList()`. -/
  InvocationList : Ptr → Nat
  /-- The field of a delegate object at `DelegateObject::GetOffsetOfInvocationCount()`. -/
  InvocationCount : Ptr → Nat
  /-- The field of a delegate object at `DelegateObject::GetOffsetOfMethodPtr()`. -/
  MethodPtr : Ptr → Nat
  /-- The field of a delegate object at `DelegateObject::GetOffsetOfMethodPtrAux()`. -/
  MethodPtrAux : Ptr → Nat
  /-- The method table pointer in the first word of an object. -/
  MethodTableOf : Ptr → Ptr
  /-- The method `MethodTable::IsDelegate`. -/
  MethodTableIsDelegate : Ptr → Bool
  /-- The value of `((ArrayBase *)p)->GetDataPtr()`. -/
  ArrayGetDataPtr : Ptr → Nat
  /-- The value of `((ArrayBase *)p)->GetComponentSize()`. -/
  ArrayGetComponentSize : Ptr → Nat
  /-- The method `UMEntryThunk::GetManagedTarget`. -/
  GetManagedTarget : Ptr → PCODE
  /-- The field `m_pComPlusCallInfo` of a `ComPlusCallMethodDesc`. -/
  ComPlusCallInfo : Ptr → Ptr
  /-- The field `m_pInterfaceMT` of a `ComPlusCallInfo`. -/
  InterfaceMT : Ptr → Ptr
  /-- The field `m_cachedComSlot` of a `ComPlusCallInfo`. -/
  CachedComSlot : Ptr → Nat
  /-- The interface pointer that `ComObject::GetComIPFromRCWThrowing` gives for an
  object and an interface method table. -/
  GetComIPFromRCWThrowing : Ptr → Ptr → Ptr
  /-- The method `Stub::GetInstantiatedMethodDesc`. -/
  GetInstantiatedMethodDesc : Ptr → Ptr

namespace TraceDestination

/-- Modelled from the spec: `Unmanaged(address)`, the destination that
`InitForUnmanaged` writes (declared in `stubmgr.h`); it carries no manager. -/
def InitForUnmanaged (addr : PCODE) : TraceDestination :=
  { type := TraceType.TRACE_UNMANAGED, address := addr, stubManager := 0 }

/-- Modelled from the spec: `FramePush(address)`, the destination that
`InitForFramePush` writes (declared in `stubmgr.h`); it carries no manager. -/
def InitForFramePush (addr : PCODE) : TraceDestination :=
  { type := TraceType.TRACE_FRAME_PUSH, address := addr, stubManager := 0 }

/-- Modelled from the spec: `ManagerPush(address, ownerManagerRef)`, the destination
that `InitForManagerPush` writes (declared in `stubmgr.h`). -/
def InitForManagerPush (addr : PCODE) (stubManager : Ptr) : TraceDestination :=
  { type := TraceType.TRACE_MGR_PUSH, address := addr, stubManager := stubManager }

/-- The method descriptor that `TraceDestination::InitForUnjittedMethod` looks up for a
wrapper stub: the local `pNewDesc` after the `EX_TRY` block, which stays `NULL` in the
DAC build and when the lookup throws. -/
def wrappedMethodDesc (B : Build) (E : Env) (pDesc : Ptr) : Ptr :=
  if B.DACCESS_COMPILE then 0
  else
    match E.GetExistingWrappedMethodDesc pDesc with
    | some pNewDesc => pNewDesc
    | none => 0

/-- The method `TraceDestination::InitForUnjittedMethod`.  The method descriptor is
stored in the field `address`. -/
def InitForUnjittedMethod (B : Build) (E : Env) (pDesc : Ptr) : TraceDestination :=
  let pDesc1 :=
    if E.IsWrapperStub pDesc then
      let pNewDesc := wrappedMethodDesc B E pDesc
      if pNewDesc ≠ 0 then pNewDesc else pDesc
    else pDesc
  { type := TraceType.TRACE_UNJITTED_METHOD, address := pDesc1, stubManager := 0 }

/-- Modelled from the spec: the accessor `GetMethodDesc` of `stubmgr.h`. -/
def GetMethodDesc (t : TraceDestination) : Ptr := t.address

/-- Modelled from the spec: the accessor `GetStubManager` of `stubmgr.h`. -/
def GetStubManager (t : TraceDestination) : Ptr := t.stubManager

end TraceDestination

/-! ## The DoTraceStub functions of the stub managers -/

/-- The function `ThePreStubManager::DoTraceStub`. -/
def ThePreStubManager.DoTraceStub (E : Env) (_stubStartAddress : PCODE)
    (_trace : TraceDestination) : BOOL × TraceDestination :=
  (true, InitForFramePush E.ThePreStubPatchLabel)

/-- The function `ThePreStubManager::CheckIsStub_Internal`. -/
def ThePreStubManager.CheckIsStub_Internal (E : Env) (stubStartAddress : PCODE) : BOOL :=
  stubStartAddress == E.GetPreStubEntryPoint

/-- The precode that `PrecodeStubManager::DoTraceStub` finds for an address that is not
a compact entry point: the one at the address less `FixupCodeOffset` when that is a
fixup precode, and otherwise the one at the address. -/
def PrecodeStubManager.findPrecode (B : Build) (E : Env) (stubStartAddress : PCODE) : Ptr :=
  let pPrecode := E.GetPrecodeFromEntryPoint
    ((stubStartAddress + B.wordMod - E.FixupCodeOffset % B.wordMod) % B.wordMod) true
  if pPrecode = 0 ∨ E.PrecodeGetType pPrecode ≠ PrecodeType.PRECODE_FIXUP then
    E.GetPrecodeFromEntryPoint stubStartAddress false
  else pPrecode

/-- The end of `PrecodeStubManager::DoTraceStub`, from the method descriptor `pMD`. -/
def PrecodeStubManager.traceMethodDesc (B : Build) (E : Env) (pMD : Ptr) :
    BOOL × TraceDestination :=
  if !E.IsIL pMD && !E.IsILStub pMD then
    (true, InitForStub E.GetPreStubEntryPoint)
  else
    (true, InitForUnjittedMethod B E pMD)

/-- The function `PrecodeStubManager::DoTraceStub`. -/
def PrecodeStubManager.DoTraceStub (B : Build) (E : Env) (stubStartAddress : PCODE)
    (_trace : TraceDestination) : BOOL × TraceDestination :=
  if B.HAS_COMPACT_ENTRYPOINTS && E.IsCompactEntryPointAtAddress stubStartAddress then
    PrecodeStubManager.traceMethodDesc B E
      (E.GetMethodDescFromCompactEntryPoint stubStartAddress)
  else
    let pPrecode := PrecodeStubManager.findPrecode B E stubStartAddress
    if B.HAS_NDIRECT_IMPORT_PRECODE ∧
        E.PrecodeGetType pPrecode = PrecodeType.PRECODE_NDIRECT_IMPORT then
      if B.DACCESS_COMPILE then (true, InitForOther 0)
      else (true, InitForUnmanaged E.NDirectImportThunk)
    else
      let target := E.PrecodeGetTarget pPrecode
      if !E.PrecodeIsPointingToPrestub pPrecode target then
        (true, InitForStub target)
      else
        PrecodeStubManager.traceMethodDesc B E (E.PrecodeGetMethodDesc pPrecode)

/-- The function `StubLinkStubManager::DoTraceStub` of the manager at `this`. -/
def StubLinkStubManager.DoTraceStub (E : Env) (this : Ptr) (stubStartAddress : PCODE)
    (trace : TraceDestination) : BOOL × TraceDestination :=
  let stub := E.RecoverStub stubStartAddress
  if E.StubIsMulticastDelegate stub then
    (true, InitForManagerPush stubStartAddress this)
  else if E.StubIsInstantiatingStub stub then
    (true, InitForManagerPush stubStartAddress this)
  else if E.StubGetPatchOffset stub ≠ 0 then
    (true, InitForFramePush (E.StubGetPatchAddress stub))
  else
    (false, trace)

/-- The function `ThunkHeapStubManager::DoTraceStub`. -/
def ThunkHeapStubManager.DoTraceStub (_stubStartAddress : PCODE)
    (trace : TraceDestination) : BOOL × TraceDestination :=
  (false, trace)

/-- The function `JumpStubStubManager::CheckIsStub_Internal`. -/
def JumpStubStubManager.CheckIsStub_Internal (_stubStartAddress : PCODE) : BOOL := false

/-- The function `JumpStubStubManager::DoTraceStub`. -/
def JumpStubStubManager.DoTraceStub (E : Env) (stubStartAddress : PCODE)
    (_trace : TraceDestination) : BOOL × TraceDestination :=
  let jumpTarget := E.decodeBackToBackJump stubStartAddress
  (true, InitForStub jumpTarget)

/-- The function `RangeSectionStubManager::GetStubKind`. -/
def RangeSectionStubManager.GetStubKind (E : Env) (stubStartAddress : PCODE) :
    StubCodeBlockKind :=
  let pRS := E.FindCodeRange stubStartAddress
  if pRS = 0 then StubCodeBlockKind.STUB_CODE_BLOCK_UNKNOWN
  else E.GetStubCodeBlockKind pRS stubStartAddress

/-- The function `RangeSectionStubManager::CheckIsStub_Internal`. -/
def RangeSectionStubManager.CheckIsStub_Internal (E : Env) (stubStartAddress : PCODE) :
    BOOL :=
  match RangeSectionStubManager.GetStubKind E stubStartAddress with
  | StubCodeBlockKind.STUB_CODE_BLOCK_PRECODE => true
  | StubCodeBlockKind.STUB_CODE_BLOCK_JUMPSTUB => true
  | StubCodeBlockKind.STUB_CODE_BLOCK_STUBLINK => true
  | StubCodeBlockKind.STUB_CODE_BLOCK_VIRTUAL_METHOD_THUNK => true
  | StubCodeBlockKind.STUB_CODE_BLOCK_EXTERNAL_METHOD_THUNK => true
  | StubCodeBlockKind.STUB_CODE_BLOCK_METHOD_CALL_THUNK => true
  | _ => false

/-- The function `RangeSectionStubManager::DoTraceStub` of the manager at `this`; `none`
when `DacNotImpl()` raises its error in the DAC build. -/
def RangeSectionStubManager.DoTraceStub (B : Build) (E : Env) (this : Ptr)
    (stubStartAddress : PCODE) (trace : TraceDestination) :
    Option (BOOL × TraceDestination) :=
  match RangeSectionStubManager.GetStubKind E stubStartAddress with
  | StubCodeBlockKind.STUB_CODE_BLOCK_PRECODE =>
      some (PrecodeStubManager.DoTraceStub B E stubStartAddress trace)
  | StubCodeBlockKind.STUB_CODE_BLOCK_JUMPSTUB =>
      some (JumpStubStubManager.DoTraceStub E stubStartAddress trace)
  | StubCodeBlockKind.STUB_CODE_BLOCK_STUBLINK =>
      some (StubLinkStubManager.DoTraceStub E E.StubLinkStubManager_g_pManager
        stubStartAddress trace)
  | StubCodeBlockKind.STUB_CODE_BLOCK_METHOD_CALL_THUNK =>
      if B.DACCESS_COMPILE then none
      else some (true, InitForManagerPush E.ExternalMethodFixupPatchLabel this)
  | _ => some (false, trace)

/-- The function `ILStubManager::DoTraceStub` of the manager at `this`. -/
def ILStubManager.DoTraceStub (B : Build) (E : Env) (this : Ptr) (stubStartAddress : PCODE)
    (_trace : TraceDestination) : BOOL × TraceDestination :=
  if !B.DACCESS_COMPILE then
    let pStubMD := E.GetCodeMethodDesc stubStartAddress
    let traceDestination :=
      if B.FEATURE_MULTICASTSTUB_AS_IL ∧ pStubMD ≠ 0 ∧ E.IsMulticastStub pStubMD = true then
        E.MulticastDebuggerTraceHelper
      else stubStartAddress
    (true, InitForManagerPush traceDestination this)
  else
    (false, InitForOther 0)

/-- The function `InteropDispatchStubManager::DoTraceStub` of the manager at `this`. -/
def InteropDispatchStubManager.DoTraceStub (B : Build) (this : Ptr)
    (stubStartAddress : PCODE) (_trace : TraceDestination) : BOOL × TraceDestination :=
  if !B.DACCESS_COMPILE then
    (true, InitForManagerPush stubStartAddress this)
  else
    (false, InitForOther 0)

/-- The function `DelegateInvokeStubManager::DoTraceStub` of the manager at `this`. -/
def DelegateInvokeStubManager.DoTraceStub (this : Ptr) (stubStartAddress : PCODE)
    (_trace : TraceDestination) : BOOL × TraceDestination :=
  (true, InitForManagerPush stubStartAddress this)

/-- The function `TailCallStubManager::DoTraceStub` of the manager at `this` (x86 target,
not the Unix ABI). -/
def TailCallStubManager.DoTraceStub (this : Ptr) (stubStartAddress : PCODE)
    (_trace : TraceDestination) : BOOL × TraceDestination :=
  let fResult := true
  (fResult, InitForManagerPush stubStartAddress this)

/-! ## FindStubManager and the debug check IsSingleOwner -/

/-- The `while (it.Next())` loop of `StubManager::FindStubManager` and the `return NULL`
after it.  The debug-only assertion is left out. -/
def FindStubManagerLoop (W : World) (R : Registry) (stubAddress : PCODE) :
    Nat → StubManagerIterator → Option Ptr
  | 0, _ => none
  | fuel + 1, it =>
      let r := Next W R it
      if r.1 then
        if (CheckIsStub_Worker W (Current r.2) stubAddress).1 then
          some (Current r.2)
        else
          FindStubManagerLoop W R stubAddress fuel r.2
      else
        some 0

/-- The function `StubManager::FindStubManager`: the manager returned, `0` for `NULL`;
`none` when `fuel` calls of `Next` were not enough. -/
def FindStubManager (W : World) (R : Registry) (fuel : Nat) (stubAddress : PCODE) :
    Option Ptr :=
  FindStubManagerLoop W R stubAddress fuel StubManagerIterator.new

/-- The locals of `StubManager::IsSingleOwner`, and `checks`: whether every
`_ASSERTE` and `CONSISTENCY_CHECK` met so far held. -/
structure OwnerScan where
  ownerFound : Bool
  count : Nat
  checks : Bool
  deriving DecidableEq, Repr

/-- The body of the loop of `StubManager::IsSingleOwner` for the manager `cur` that
`it.Current()` gives. -/
def OwnerScan.visit (W : World) (stubAddress : PCODE) (pOwner : Ptr) (s : OwnerScan)
    (cur : Ptr) : OwnerScan :=
  if !s.ownerFound && cur != pOwner then
    s
  else
    let ownerFound := if cur = pOwner then true else s.ownerFound
    if (CheckIsStub_Worker W cur stubAddress).1 then
      { ownerFound := ownerFound, count := s.count + 1, checks := s.checks && cur == pOwner }
    else
      { ownerFound := ownerFound, count := s.count, checks := s.checks && cur != pOwner }

/-- The `while (it.Next())` loop of `StubManager::IsSingleOwner` and the code after it:
the returned `BOOL`, and whether every assertion held. -/
def IsSingleOwnerLoop (W : World) (R : Registry) (stubAddress : PCODE) (pOwner : Ptr) :
    Nat → StubManagerIterator → OwnerScan → Option (BOOL × Bool)
  | 0, _, _ => none
  | fuel + 1, it, s =>
      let r := Next W R it
      if r.1 then
        IsSingleOwnerLoop W R stubAddress pOwner fuel r.2
          (OwnerScan.visit W stubAddress pOwner s (Current r.2))
      else
        some (s.count == 1, s.checks && s.ownerFound)

/-- The function `StubManager::IsSingleOwner` of the verification build: the returned
`BOOL`, and whether every `_ASSERTE` and `CONSISTENCY_CHECK` in it held; `none` when
`fuel` calls of `Next` were not enough. -/
def IsSingleOwner (W : World) (R : Registry) (fuel : Nat) (stubAddress : PCODE)
    (pOwner : Ptr) : Option (BOOL × Bool) :=
  IsSingleOwnerLoop W R stubAddress pOwner fuel StubManagerIterator.new
    { ownerFound := false, count := 0, checks := pOwner != 0 }

/-- The loop of `IsSingleOwner` over an explicit list of the managers that the
iterator gives. -/
def IsSingleOwnerOn (W : World) (stubAddress : PCODE) (pOwner : Ptr) :
    List Ptr → OwnerScan → BOOL × Bool
  | [], s => (s.count == 1, s.checks && s.ownerFound)
  | cur :: rest, s =>
      IsSingleOwnerOn W stubAddress pOwner rest (OwnerScan.visit W stubAddress pOwner s cur)

/-- The loop of `FindStubManager` over an explicit list of the managers that the
iterator gives. -/
def FindStubManagerOn (W : World) (stubAddress : PCODE) : List Ptr → Ptr
  | [] => 0
  | cur :: rest =>
      if (CheckIsStub_Worker W cur stubAddress).1 then cur
      else FindStubManagerOn W stubAddress rest

/-! ## TraceManager of the IL stub manager and of the tail call manager -/

/-- Modelled from the spec: the execution context `T_CONTEXT` through its accessors
(instruction pointer, stack pointer, frame pointer, return address slot, this pointer
slot, second argument slot), with the two further values that
`ILStubManager::TraceManager` asks `StubManagerHelpers` for. -/
structure T_CONTEXT where
  GetIP : PCODE
  GetSP : Nat
  GetFP : Nat
  GetReturnAddress : Nat
  GetThisPtr : Ptr
  GetSecondArg : Nat
  GetHiddenArg : Nat
  GetRetAddrFromMulticastILStubFrame : Nat
  deriving DecidableEq, Repr

/-- The C++ cast `(int)` of an unsigned value: the signed value of its low 32 bits. -/
def intCast (x : Nat) : Int :=
  if x % 2 ^ 32 < 2 ^ 31 then ((x % 2 ^ 32 : Nat) : Int) else ((x % 2 ^ 32 : Nat) : Int) - 2 ^ 32

/-- The static function `GetStubTarget`. -/
def GetStubTarget (E : Env) (pTargetMD : Ptr) : PCODE :=
  if E.NativeCodeVersionIsNull pTargetMD || E.GetNativeCode pTargetMD == 0 then 0
  else E.GetNativeCode pTargetMD

/-- The static function `GetCOMTarget`: the entry of the cached slot in the vtable of
the interface pointer. -/
def GetCOMTarget (B : Build) (E : Env) (pThis : Ptr) (pComPlusCallInfo : Ptr) : PCODE :=
  let pUnk := E.GetComIPFromRCWThrowing pThis (E.InterfaceMT pComPlusCallInfo)
  let lpVtbl := E.readWord pUnk
  E.readWord ((lpVtbl + B.PointerSize * E.CachedComSlot pComPlusCallInfo) % B.wordMod)

/-- The function `DelegateInvokeStubManager::TraceDelegateObject`: the returned `BOOL`,
the destination afterwards and the calls made.  `fuelT` is the fuel of every
`TraceStub` call and `fuel` bounds the depth of the recursion. -/
def TraceDelegateObject (W : World) (R : Registry) (E : Env) (fuelT : Nat) :
    Nat → Ptr → TraceDestination → Option (BOOL × TraceDestination × List Call)
  | 0, _, _ => none
  | fuel + 1, pbDel, trace =>
      let pbDelInvocationList := E.InvocationList pbDel
      if pbDelInvocationList = 0 then
        let dest :=
          if E.MethodPtrAux pbDel = 0 then E.MethodPtr pbDel else E.MethodPtrAux pbDel
        if dest = 0 then
          some (false, trace, [])
        else
          (TraceStub W R fuelT dest trace).map
            (fun r => (r.1, r.2.1, Call.TraceStub dest :: r.2.2))
      else
        let pbCount := E.InvocationCount pbDel
        if pbCount = 0 then
          if E.MethodPtrAux pbDel = 0 then
            some (false, trace, [])
          else
            (TraceStub W R fuelT (E.MethodPtrAux pbDel) trace).map
              (fun r => (r.1, r.2.1, Call.TraceStub (E.MethodPtrAux pbDel) :: r.2.2))
        else
          let pType := E.MethodTableOf pbDelInvocationList
          if E.MethodTableIsDelegate pType then
            TraceDelegateObject W R E fuelT fuel pbDelInvocationList trace
          else
            TraceDelegateObject W R E fuelT fuel
              (E.readWord (E.ArrayGetDataPtr pbDelInvocationList)) trace

/-- What `ILStubManager::TraceManager` returns: the `BOOL`, the destination afterwards,
the value left in `*pRetAddr` and the calls made. -/
structure TraceManagerResult where
  result : BOOL
  trace : TraceDestination
  retAddr : Nat
  calls : List Call
  deriving DecidableEq, Repr

/-- The function `ILStubManager::TraceManager` (non-DAC build).  `fuelT` and `fuel` are
the fuel of `TraceStub` and of `TraceDelegateObject`. -/
def ILStubManager.TraceManager (B : Build) (E : Env) (W : World) (R : Registry)
    (fuelT fuel : Nat) (trace : TraceDestination) (pContext : T_CONTEXT) :
    Option TraceManagerResult :=
  let atHelper : Bool :=
    B.FEATURE_MULTICASTSTUB_AS_IL && pContext.GetIP == E.MulticastDebuggerTraceHelper
  let stubIP := if atHelper then pContext.GetReturnAddress else pContext.GetIP
  let retAddr :=
    if atHelper then pContext.GetRetAddrFromMulticastILStubFrame
    else pContext.GetReturnAddress
  let pStubMD := E.Entry2MethodDesc stubIP
  let arg := pContext.GetHiddenArg
  let pThis := pContext.GetThisPtr
  if B.FEATURE_MULTICASTSTUB_AS_IL && E.IsMulticastStub pStubMD then
    let delegateCount := intCast pContext.GetSecondArg
    let totalDelegateCount := intCast (E.InvocationCount pThis)
    if delegateCount = totalDelegateCount then
      some { result := false, trace := trace, retAddr := retAddr, calls := [] }
    else
      let pbDelInvocationList := E.InvocationList pThis
      let pbDel := E.readWord
        (((E.ArrayGetDataPtr pbDelInvocationList : Int) +
          (E.ArrayGetComponentSize pbDelInvocationList : Int) * delegateCount) %
            (B.wordMod : Int)).toNat
      (TraceDelegateObject W R E fuelT fuel pbDel trace).map
        (fun r => { result := r.1, trace := r.2.1, retAddr := retAddr, calls := r.2.2 })
  else if E.IsReverseStub pStubMD then
    let target := if E.IsStatic pStubMD then E.GetManagedTarget arg else arg
    some { result := true, trace := InitForManaged target, retAddr := retAddr, calls := [] }
  else if E.HasFlagIsDelegate pStubMD then
    some { result := true, trace := InitForUnmanaged (E.MethodPtrAux pThis),
           retAddr := retAddr, calls := [] }
  else if E.HasFlagIsCALLI pStubMD then
    let target := if B.TARGET_AMD64 then (arg % 2 ^ 64) >>> 1 else arg
    some { result := true, trace := InitForUnmanaged target, retAddr := retAddr, calls := [] }
  else if E.IsStepThroughStub pStubMD then
    let pTargetMD := E.GetStubTargetMethodDesc pStubMD
    if pTargetMD = 0 then
      some { result := false, trace := trace, retAddr := retAddr, calls := [] }
    else if GetStubTarget E pTargetMD = 0 then
      some { result := false, trace := trace, retAddr := retAddr, calls := [] }
    else
      some { result := true, trace := InitForManaged (GetStubTarget E pTargetMD),
             retAddr := retAddr, calls := [] }
  else if E.HasMDContextArg pStubMD then
    let pMD := arg
    if E.IsNDirect pMD then
      some { result := true, trace := InitForUnmanaged (E.GetNativeNDirectTarget pMD),
             retAddr := retAddr, calls := [] }
    else if B.FEATURE_COMINTEROP && pThis != 0 then
      some { result := true,
             trace := InitForUnmanaged (GetCOMTarget B E pThis (E.ComPlusCallInfo pMD)),
             retAddr := retAddr, calls := [] }
    else
      some { result := true, trace := trace, retAddr := retAddr, calls := [] }
  else
    some { result := false, trace := trace, retAddr := retAddr, calls := [] }

/-- The function `TailCallStubManager::TraceManager` of the manager at `this` (x86
target, where `sizeof(SIZE_T)` is 4 and addresses have 32 bits): the returned `BOOL`,
the destination afterwards and the value left in `*ppRetAddr`. -/
def TailCallStubManager.TraceManager (E : Env) (this : Ptr) (_pTrace : TraceDestination)
    (pContext : T_CONTEXT) : BOOL × TraceDestination × Nat :=
  let esp := pContext.GetSP
  let ebp := pContext.GetFP
  if pContext.GetIP = E.JIT_TailCall then
    let retAddr := E.readWord ((ebp + 4) % 2 ^ 32)
    let flags := E.readWord ((esp + E.JIT_TailCall_StackOffsetToFlags) % 2 ^ 32)
    if flags &&& 0x2 ≠ 0 then
      (true, InitForManagerPush E.JIT_TailCallVSDLeave this, retAddr)
    else
      (true, InitForManagerPush E.JIT_TailCallLeave this, retAddr)
  else
    let retAddr :=
      if pContext.GetIP = E.JIT_TailCallLeave then E.readWord ((esp + 4) % 2 ^ 32)
      else E.readWord ((ebp + 4) % 2 ^ 32)
    (true, InitForStub (E.readWord esp), retAddr)

/-- The stub method descriptor `pStubMD` of `ILStubManager::TraceManager`: the one of
the instruction pointer, or of the return address when the context is stopped at the
multicast debugger trace helper. -/
def ILStubManager.stubMethodDesc (B : Build) (E : Env) (pContext : T_CONTEXT) : Ptr :=
  E.Entry2MethodDesc
    (if B.FEATURE_MULTICASTSTUB_AS_IL && pContext.GetIP == E.MulticastDebuggerTraceHelper
      then pContext.GetReturnAddress else pContext.GetIP)

/-! ## Sequences of calls, and the remaining functions -/

/-- A call on a `StubManagerIterator`. -/
inductive IteratorCall
  | Next
  | Reset
  deriving DecidableEq, Repr

/-- The iterator after a sequence of `Next()` and `Reset()` calls, the first call
first. -/
def StubManagerIterator.run (W : World) (R : Registry) :
    List IteratorCall → StubManagerIterator → StubManagerIterator
  | [], it => it
  | IteratorCall.Next :: cs, it => StubManagerIterator.run W R cs (Next W R it).2
  | IteratorCall.Reset :: cs, it => StubManagerIterator.run W R cs (Reset it)

/-- The iterator holds a read lock: its holder `m_lh` is not empty. -/
def StubManagerIterator.lockHeld (it : StubManagerIterator) : Bool := it.m_lh.isSome

/-- Every `Reset()` of a sequence of calls on the iterator `it` is made while the
iterator is not in the distinguished state, as is the one `Reset()` of the source, in
the constructor. -/
def StubManagerIterator.resetsOutsideVisit (W : World) (R : Registry) :
    List IteratorCall → StubManagerIterator → Bool
  | [], _ => true
  | IteratorCall.Next :: cs, it =>
      StubManagerIterator.resetsOutsideVisit W R cs (Next W R it).2
  | IteratorCall.Reset :: cs, it =>
      it.m_state != SMI_State.SMI_VIRTUALCALLSTUBMANAGER &&
        StubManagerIterator.resetsOutsideVisit W R cs (Reset it)

/-- The destination that `FollowTrace` holds after exactly `n` rounds of its loop, each
with one `TraceStub` call; `none` when the loop has left before, or a `TraceStub` call
ran out of fuel. -/
def FollowTraceRounds (W : World) (R : Registry) (fuelT : Nat) :
    Nat → TraceDestination → Option TraceDestination
  | 0, trace => some trace
  | n + 1, trace =>
      if GetTraceType trace = TraceType.TRACE_STUB then
        match TraceStub W R fuelT (GetAddress trace) trace with
        | none => none
        | some (fValid, trace1, _) =>
            FollowTraceRounds W R fuelT n
              (if !fValid then InitForOther (GetAddress trace1) else trace1)
      else
        none

/-- Whether `TraceDelegateObject` recurses on the delegate `pbDel`: its invocation list
and its invocation count are both non-zero. -/
def delegateRecurses (E : Env) (pbDel : Ptr) : Bool :=
  E.InvocationList pbDel != 0 && E.InvocationCount pbDel != 0

/-- The delegate on which `TraceDelegateObject` recurses from `pbDel`: the invocation
list itself when it is a delegate, and otherwise its element 0. -/
def delegateNext (E : Env) (pbDel : Ptr) : Ptr :=
  if E.MethodTableIsDelegate (E.MethodTableOf (E.InvocationList pbDel)) then
    E.InvocationList pbDel
  else
    E.readWord (E.ArrayGetDataPtr (E.InvocationList pbDel))

/-- Following the recursion of `TraceDelegateObject` from `pbDel`, a delegate on which
it does not recurse is reached after at most `n` steps. -/
def delegateEndsWithin (E : Env) : Nat → Ptr → Bool
  | 0, pbDel => !delegateRecurses E pbDel
  | n + 1, pbDel =>
      !delegateRecurses E pbDel || delegateEndsWithin E n (delegateNext E pbDel)

/-- What `StubLinkStubManager::TraceManager` returns, and whether it came to its final
assertion `SLSM:TM wasn't expected to handle any other stub types`. -/
structure StubLinkTraceResult where
  value : TraceManagerResult
  assertReached : Bool
  deriving DecidableEq, Repr

/-- The function `StubLinkStubManager::TraceManager` (non-DAC build).  `fuelT` and
`fuel` are the fuel of `TraceStub` and of `TraceDelegateObject`. -/
def StubLinkStubManager.TraceManager (B : Build) (E : Env) (W : World) (R : Registry)
    (fuelT fuel : Nat) (trace : TraceDestination) (pContext : T_CONTEXT) :
    Option StubLinkTraceResult :=
  let pc := pContext.GetIP
  let retAddr := pContext.GetReturnAddress
  let stub := E.RecoverStub pc
  if E.StubIsInstantiatingStub stub then
    let pMD := E.GetInstantiatedMethodDesc stub
    let target := GetStubTarget E pMD
    if target = 0 then
      some { value := { result := true, trace := InitForUnjittedMethod B E pMD,
                        retAddr := retAddr, calls := [] },
             assertReached := false }
    else
      some { value := { result := true, trace := InitForManaged target,
                        retAddr := retAddr, calls := [] },
             assertReached := false }
  else if E.StubIsMulticastDelegate stub then
    (TraceDelegateObject W R E fuelT fuel pContext.GetThisPtr trace).map
      (fun r => { value := { result := r.1, trace := r.2.1, retAddr := retAddr,
                             calls := r.2.2 },
                  assertReached := false })
  else
    some { value := { result := false, trace := trace, retAddr := retAddr, calls := [] },
           assertReached := true }

/-- A call that changes the registry. -/
inductive RegistryCall
  | AddStubManager (mgr : Ptr)
  | UnlinkStubManager (mgr : Ptr)
  deriving DecidableEq, Repr

/-- The registry after a sequence of `AddStubManager` and `UnlinkStubManager` calls,
the first call first; `fuel` is the fuel of every `UnlinkStubManager`. -/
def runCalls (fuel : Nat) : List RegistryCall → Registry → Option Registry
  | [], R => some R
  | RegistryCall.AddStubManager mgr :: cs, R => runCalls fuel cs (AddStubManager R mgr)
  | RegistryCall.UnlinkStubManager mgr :: cs, R =>
      match UnlinkStubManager R fuel mgr with
      | none => none
      | some R1 => runCalls fuel cs R1

/-- The managers that are registered after a sequence of calls that starts with the
managers `reg` registered, the most recently registered first. -/
def registeredAfter : List RegistryCall → List Ptr → List Ptr
  | [], reg => reg
  | RegistryCall.AddStubManager mgr :: cs, reg => registeredAfter cs (mgr :: reg)
  | RegistryCall.UnlinkStubManager mgr :: cs, reg => registeredAfter cs (reg.erase mgr)

/-- Every manager that a sequence of calls adds is not null and is not registered
when it is added. -/
def addsUnregistered : List RegistryCall → List Ptr → Bool
  | [], _ => true
  | RegistryCall.AddStubManager mgr :: cs, reg =>
      mgr != 0 && !reg.contains mgr && addsUnregistered cs (mgr :: reg)
  | RegistryCall.UnlinkStubManager mgr :: cs, reg => addsUnregistered cs (reg.erase mgr)

/-- Every manager that a sequence of calls adds is not null and was never added
before: not by the sequence so far and not among `added`. -/
def addsFresh : List RegistryCall → List Ptr → Bool
  | [], _ => true
  | RegistryCall.AddStubManager mgr :: cs, added =>
      mgr != 0 && !added.contains mgr && addsFresh cs (mgr :: added)
  | RegistryCall.UnlinkStubManager _ :: cs, added => addsFresh cs added

/-! ## Example data -/

/-- An example world: the ordinary managers `10` and `20` and the distinguished
manager `30`.  Address `100` is claimed by `20` and by `10`, `200` by `10`, `400` by
`30`; probing address `7` faults; `300` and `500` are managed code. -/
def exWorld : World where
  CheckIsStub_Internal := fun p a =>
    if a = 7 then none
    else some (decide ((p = 20 ∧ a = 100) ∨ (p = 10 ∧ (a = 100 ∨ a = 200)) ∨ (p = 30 ∧ a = 400)))
  DoTraceStub := fun p a t =>
    if p = 20 ∧ a = 100 then (true, InitForStub 200)
    else if p = 10 ∧ a = 200 then (true, InitForManaged 300)
    else if p = 10 ∧ a = 100 then (true, InitForManaged 500)
    else (false, t)
  IsManagedCode := fun a => a == 300 || a == 500
  GlobalManager := 30

/-- An example registry: the list `20, 10`. -/
def exRegistry : Registry where
  g_pFirstManager := 20
  m_pNextManager := fun p => if p = 20 then 10 else 0

/-- The empty registry in which no manager has a next link. -/
def emptyRegistry : Registry where
  g_pFirstManager := 0
  m_pNextManager := fun _ => 0

/-- The environment in which every service answers zero or false. -/
def nullEnv : Env where
  IsWrapperStub := fun _ => false
  GetExistingWrappedMethodDesc := fun _ => some 0
  IsIL := fun _ => false
  IsILStub := fun _ => false
  IsNDirect := fun _ => false
  GetNativeNDirectTarget := fun _ => 0
  IsMulticastStub := fun _ => false
  IsReverseStub := fun _ => false
  IsStatic := fun _ => false
  HasFlagIsDelegate := fun _ => false
  HasFlagIsCALLI := fun _ => false
  IsStepThroughStub := fun _ => false
  HasMDContextArg := fun _ => false
  GetStubTargetMethodDesc := fun _ => 0
  GetCodeMethodDesc := fun _ => 0
  Entry2MethodDesc := fun _ => 0
  FindCodeRange := fun _ => 0
  GetStubCodeBlockKind := fun _ _ => StubCodeBlockKind.STUB_CODE_BLOCK_UNKNOWN
  NativeCodeVersionIsNull := fun _ => true
  GetNativeCode := fun _ => 0
  IsCompactEntryPointAtAddress := fun _ => false
  GetMethodDescFromCompactEntryPoint := fun _ => 0
  FixupCodeOffset := 0
  GetPrecodeFromEntryPoint := fun _ _ => 0
  PrecodeGetType := fun _ => PrecodeType.PRECODE_INVALID
  PrecodeGetTarget := fun _ => 0
  PrecodeIsPointingToPrestub := fun _ _ => false
  PrecodeGetMethodDesc := fun _ => 0
  RecoverStub := fun _ => 0
  StubIsMulticastDelegate := fun _ => false
  StubIsInstantiatingStub := fun _ => false
  StubGetPatchOffset := fun _ => 0
  StubGetPatchAddress := fun _ => 0
  decodeBackToBackJump := fun _ => 0
  GetPreStubEntryPoint := 0
  ThePreStubPatchLabel := 0
  NDirectImportThunk := 0
  ExternalMethodFixupPatchLabel := 0
  MulticastDebuggerTraceHelper := 0
  JIT_TailCall := 0
  JIT_TailCallLeave := 0
  JIT_TailCallVSDLeave := 0
  JIT_TailCall_StackOffsetToFlags := 0
  PrecodeStubManager_g_pManager := 0
  JumpStubStubManager_g_pManager := 0
  StubLinkStubManager_g_pManager := 0
  readWord := fun _ => 0
  InvocationList := fun _ => 0
  InvocationCount := fun _ => 0
  MethodPtr := fun _ => 0
  MethodPtrAux := fun _ => 0
  MethodTableOf := fun _ => 0
  MethodTableIsDelegate := fun _ => false
  ArrayGetDataPtr := fun _ => 0
  ArrayGetComponentSize := fun _ => 0
  GetManagedTarget := fun _ => 0
  ComPlusCallInfo := fun _ => 0
  InterfaceMT := fun _ => 0
  CachedComSlot := fun _ => 0
  GetComIPFromRCWThrowing := fun _ _ => 0
  GetInstantiatedMethodDesc := fun _ => 0

/-- An example environment.  Method `1` is a wrapper stub of method `2`, and method `3`
a wrapper stub whose lookup throws.  The precodes `50` (type stub, at address `4096`,
of the method `5`, which is not IL) and `51` (type fixup, at `4200`, of the IL method
`6`) point to the prestub at `9000`; the precode `52` at `4300` points to `7777`.  The
stub at `600` is a multicast delegate stub, the one at `601` an instantiating stub, the
one at `602` has the patch offset `4`, the one at `603` has none.  The jump stub at
`700` jumps to `7777`.  The IL stub method `20` at `5000` takes a method descriptor as
its hidden argument. -/
def exEnv : Env :=
  { nullEnv with
    IsWrapperStub := fun m => m == 1 || m == 3
    GetExistingWrappedMethodDesc := fun m =>
      if m = 1 then some 2 else if m = 3 then none else some 0
    IsIL := fun m => m == 6
    HasMDContextArg := fun m => m == 20
    Entry2MethodDesc := fun a => if a = 5000 then 20 else 0
    FindCodeRange := fun a => if a = 700 ∨ a = 800 ∨ a = 4096 then 1 else 0
    GetStubCodeBlockKind := fun _ a =>
      if a = 700 then StubCodeBlockKind.STUB_CODE_BLOCK_JUMPSTUB
      else if a = 800 then StubCodeBlockKind.STUB_CODE_BLOCK_VIRTUAL_METHOD_THUNK
      else if a = 4096 then StubCodeBlockKind.STUB_CODE_BLOCK_PRECODE
      else StubCodeBlockKind.STUB_CODE_BLOCK_UNKNOWN
    FixupCodeOffset := 8
    GetPrecodeFromEntryPoint := fun a _ =>
      if a = 4096 then 50 else if a = 4200 then 51 else if a = 4300 then 52 else 0
    PrecodeGetType := fun p =>
      if p = 50 ∨ p = 52 then PrecodeType.PRECODE_STUB
      else if p = 51 then PrecodeType.PRECODE_FIXUP
      else PrecodeType.PRECODE_INVALID
    PrecodeGetTarget := fun p => if p = 52 then 7777 else 9000
    PrecodeIsPointingToPrestub := fun _ t => t == 9000
    PrecodeGetMethodDesc := fun p => if p = 50 then 5 else if p = 51 then 6 else 0
    RecoverStub := fun a => a
    StubIsMulticastDelegate := fun st => st == 600
    StubIsInstantiatingStub := fun st => st == 601
    StubGetPatchOffset := fun st => if st = 602 then 4 else 0
    StubGetPatchAddress := fun st => st + 4
    decodeBackToBackJump := fun a => if a = 700 then 7777 else 0
    GetPreStubEntryPoint := 9000
    ThePreStubPatchLabel := 9100
    MulticastDebuggerTraceHelper := 9200
    JIT_TailCall := 3000
    JIT_TailCallLeave := 3010
    JIT_TailCallVSDLeave := 3020
    JIT_TailCall_StackOffsetToFlags := 12
    StubLinkStubManager_g_pManager := 11
    readWord := fun a =>
      if a = 1000 then 7777 else if a = 1004 then 41 else if a = 1012 then 6
      else if a = 2004 then 42 else 0 }

/-- An example build: the 64-bit runtime itself, with COM interop. -/
def exBuild : Build where
  DACCESS_COMPILE := false
  FEATURE_MULTICASTSTUB_AS_IL := true
  FEATURE_COMINTEROP := true
  TARGET_AMD64 := true
  HAS_COMPACT_ENTRYPOINTS := false
  HAS_NDIRECT_IMPORT_PRECODE := true
  PointerSize := 8

/-- The DAC build of the example build. -/
def exDacBuild : Build :=
  { exBuild with DACCESS_COMPILE := true }

/-- An example world whose managers all behave like `ThunkHeapStubManager`: the manager
`10` claims the addresses from `100` to `199`, and `DoTraceStub` is the one of the
source. -/
def exThunkWorld : World where
  CheckIsStub_Internal := fun p a => some (decide (p = 10 ∧ 100 ≤ a ∧ a < 200))
  DoTraceStub := fun _ a t => ThunkHeapStubManager.DoTraceStub a t
  IsManagedCode := fun _ => false
  GlobalManager := 30

/-- An example context: stopped in the IL stub at `5000` with the method descriptor
`21` as hidden argument and a null this pointer; the stack pointer is `1000` and the
frame pointer `2000`. -/
def exContext : T_CONTEXT where
  GetIP := 5000
  GetSP := 1000
  GetFP := 2000
  GetReturnAddress := 5555
  GetThisPtr := 0
  GetSecondArg := 0
  GetHiddenArg := 21
  GetRetAddrFromMulticastILStubFrame := 0

/-- An example world with a manager that makes no progress: the manager `10` claims the
address `100` and resolves it to `Stub(100)`. -/
def exLoopWorld : World where
  CheckIsStub_Internal := fun p a => some (decide (p = 10 ∧ a = 100))
  DoTraceStub := fun _ _ _ => (true, InitForStub 100)
  IsManagedCode := fun _ => false
  GlobalManager := 30

/-- An example world in which the manager `10` is `ThePreStubManager` of the example
environment and claims nothing else. -/
def exPreStubWorld : World where
  CheckIsStub_Internal := fun p a =>
    some (decide (p = 10) && ThePreStubManager.CheckIsStub_Internal exEnv a)
  DoTraceStub := fun _ a t => ThePreStubManager.DoTraceStub exEnv a t
  IsManagedCode := fun _ => false
  GlobalManager := 30

/-- An example environment with delegates.  The delegate `500` has a non-zero
invocation count and an invocation list that is the delegate `500` itself.  The
delegate `510` has no invocation list and the method pointers `0` and `100`; the
delegate `520` has none and `_methodPtrAux` is `200`; the delegate `530` has neither.
The delegate `540` has the invocation list `541` and the count `0`, with
`_methodPtrAux` `100`.  The delegate `550` has the count `2` and the invocation list
`551`, an array whose element 0 is the delegate `510`.  The address `900` is of the
method call thunk kind. -/
def exDelegateEnv : Env :=
  { exEnv with
    InvocationList := fun p =>
      if p = 500 then 500 else if p = 540 then 541 else if p = 550 then 551 else 0
    InvocationCount := fun p => if p = 500 then 1 else if p = 550 then 2 else 0
    MethodPtr := fun p => if p = 510 then 100 else 0
    MethodPtrAux := fun p => if p = 520 then 200 else if p = 540 then 100 else 0
    MethodTableOf := fun p => if p = 500 then 77 else 0
    MethodTableIsDelegate := fun mt => mt == 77
    ArrayGetDataPtr := fun p => if p = 551 then 6000 else 0
    readWord := fun a => if a = 6000 then 510 else 0
    FindCodeRange := fun a => if a = 900 then 1 else 0
    GetStubCodeBlockKind := fun _ a =>
      if a = 900 then StubCodeBlockKind.STUB_CODE_BLOCK_METHOD_CALL_THUNK
      else StubCodeBlockKind.STUB_CODE_BLOCK_UNKNOWN }

/-- The example environment with the IL stub of the method descriptor `20` an unmanaged
CALLI stub. -/
def exCalliEnv : Env :=
  { exEnv with HasFlagIsCALLI := fun m => m == 20 }

/-- The example environment with delegates in which the instantiating stub `601` is
the one of the method `8`, whose active native code is at `8800`. -/
def exStubLinkEnv : Env :=
  { exDelegateEnv with
    GetInstantiatedMethodDesc := fun st => if st = 601 then 8 else 0
    NativeCodeVersionIsNull := fun m => m != 8
    GetNativeCode := fun m => if m = 8 then 8800 else 0 }

/-- An example context: stopped at the instantiating stub `601`. -/
def exInstantiatingContext : T_CONTEXT :=
  { exContext with GetIP := 601 }

/-- An example context: stopped at the multicast delegate stub `600` with the delegate
`510` as this pointer. -/
def exMulticastContext : T_CONTEXT :=
  { exContext with GetIP := 600, GetThisPtr := 510 }

/-- The example environment with delegates and two more, `560` and `561`, each with a
non-zero invocation count and the other one as its invocation list. -/
def exCycleEnv : Env :=
  { exDelegateEnv with
    InvocationList := fun p =>
      if p = 560 then 561 else if p = 561 then 560 else exDelegateEnv.InvocationList p
    InvocationCount := fun p =>
      if p = 560 ∨ p = 561 then 1 else exDelegateEnv.InvocationCount p
    MethodTableOf := fun p =>
      if p = 560 ∨ p = 561 then 77 else exDelegateEnv.MethodTableOf p }

/-! ## The definitions on the example data -/

theorem exRegistry_isList : exRegistry.IsList [20, 10] := by decide

theorem exRegistry_visited :
    visited exWorld exRegistry 5 StubManagerIterator.new = [20, 10, 30] := by decide

theorem exRegistry_TraceStub :
    TraceStub exWorld exRegistry 4 100 (InitForStub 100) =
      some (true, InitForStub 200,
        [Call.CheckIsStub_Internal 20 100, Call.DoTraceStub 20 100]) := by decide

theorem exRegistry_TraceStub_fuel :
    TraceStub exWorld exRegistry 3 600 (InitForStub 600) = none := by decide

theorem emptyRegistry_add :
    (AddStubManager (AddStubManager emptyRegistry 10) 20).IsList [20, 10] := by decide

theorem exRegistry_unlink :
    (UnlinkStubManager exRegistry 3 20).map (fun r => decide (r.IsList [10])) = some true := by
  decide

/-! ## The iterator on a well-formed list -/

theorem pending_new (R : Registry) (L : List Ptr) (h : R.IsList L) :
    Pending R StubManagerIterator.new L :=
  Or.inl ⟨rfl, h⟩

theorem Next_pending_cons (W : World) (R : Registry) (it : StubManagerIterator)
    (x : Ptr) (xs : List Ptr) (h : Pending R it (x :: xs)) :
    Next W R it = (true, { m_state := SMI_State.SMI_NORMAL, m_pCurMgr := x, m_lh := it.m_lh }) ∧
    Pending R { m_state := SMI_State.SMI_NORMAL, m_pCurMgr := x, m_lh := it.m_lh } xs := by
  rcases h with ⟨hs, hc⟩ | ⟨hs, hne, hc⟩
  · obtain ⟨h1, h2, h3⟩ := hc
    refine ⟨?_, Or.inr ⟨rfl, h2, h3⟩⟩
    simp [Next, NextLoop, NextBody, NextAgain, hs, h1, h2]
  · obtain ⟨h1, h2, h3⟩ := hc
    refine ⟨?_, Or.inr ⟨rfl, h2, h3⟩⟩
    simp [Next, NextLoop, NextBody, NextAgain, hs, h1, h2, hne]

theorem Next_pending_nil (W : World) (R : Registry) (it : StubManagerIterator)
    (h : Pending R it []) (hV : W.GlobalManager ≠ 0) :
    Next W R it = (true, { m_state := SMI_State.SMI_VIRTUALCALLSTUBMANAGER,
                           m_pCurMgr := W.GlobalManager, m_lh := some W.GlobalManager }) := by
  rcases h with ⟨hs, hc⟩ | ⟨hs, hne, hc⟩
  · have hc0 : R.g_pFirstManager = 0 := hc
    simp [Next, NextLoop, NextBody, NextAgain, hs, hc0, hV]
  · have hc0 : R.m_pNextManager it.m_pCurMgr = 0 := hc
    simp [Next, NextLoop, NextBody, NextAgain, hs, hc0, hV, hne]

theorem Next_pending_nil_null (W : World) (R : Registry) (it : StubManagerIterator)
    (h : Pending R it []) (hV : W.GlobalManager = 0) :
    Next W R it = (false, { m_state := SMI_State.SMI_END, m_pCurMgr := 0, m_lh := none }) := by
  rcases h with ⟨hs, hc⟩ | ⟨hs, hne, hc⟩
  · have hc0 : R.g_pFirstManager = 0 := hc
    simp [Next, NextLoop, NextBody, NextAgain, hs, hc0, hV]
  · have hc0 : R.m_pNextManager it.m_pCurMgr = 0 := hc
    simp [Next, NextLoop, NextBody, NextAgain, hs, hc0, hV, hne]

theorem Next_distinguished (W : World) (R : Registry) (it : StubManagerIterator)
    (h : it.m_state = SMI_State.SMI_VIRTUALCALLSTUBMANAGER) :
    Next W R it = (false, { m_state := SMI_State.SMI_END, m_pCurMgr := 0, m_lh := none }) := by
  simp [Next, NextLoop, NextBody, NextAgain, h]

/-- More rounds than three change nothing in the loop of `Next`. -/
theorem NextLoop_fuel (W : World) (R : Registry) (it : StubManagerIterator) (n : Nat) :
    NextLoop W R (n + 2) it = NextLoop W R 2 it := by
  obtain ⟨st, cur, lh⟩ := it
  cases st <;> simp only [NextLoop, NextBody, NextAgain] <;> split_ifs <;>
    cases n <;> simp_all [NextLoop, NextBody, NextAgain]

/-- The loop of `Next` has left by its own condition: three rounds are always enough. -/
theorem NextAgain_Next (W : World) (R : Registry) (it : StubManagerIterator) :
    NextAgain (Next W R it).2 = false := by
  obtain ⟨st, cur, lh⟩ := it
  cases st <;> simp only [Next, NextLoop, NextBody, NextAgain] <;> split_ifs <;> simp_all

/-! ## TraceStub on a well-formed list -/

theorem TraceStubLoop_pending (W : World) (R : Registry) (a : PCODE) (t : TraceDestination)
    (rest : List Ptr) :
    ∀ (fuel : Nat) (it : StubManagerIterator), Pending R it rest → rest.length + 2 ≤ fuel →
      TraceStubLoop W R a t fuel it = some (TraceStubOn W a t (rest ++ W.distinguished)) := by
  induction rest with
  | nil =>
      intro fuel it hp hf
      obtain ⟨f1, rfl⟩ : ∃ f1, fuel = f1 + 2 := ⟨fuel - 2, by simp at hf; omega⟩
      by_cases hV : W.GlobalManager = 0
      · simp [TraceStubLoop, Next_pending_nil_null W R it hp hV, World.distinguished, hV,
          TraceStubOn]
        split_ifs <;> rfl
      · have hn := Next_pending_nil W R it hp hV
        simp only [TraceStubLoop, hn, World.distinguished, hV, List.nil_append, TraceStubOn,
          Current, if_true, if_false]
        by_cases hc : (CheckIsStub_Worker W W.GlobalManager a).1 = true
        · simp [hc]
        · simp only [hc, if_false]
          rw [Next_distinguished W R _ rfl]
          simp
          split_ifs <;> rfl
  | cons x xs ih =>
      intro fuel it hp hf
      obtain ⟨f1, rfl⟩ : ∃ f1, fuel = f1 + 1 := ⟨fuel - 1, by simp at hf; omega⟩
      obtain ⟨hn, hp1⟩ := Next_pending_cons W R it x xs hp
      simp only [TraceStubLoop, hn, Current, if_true, List.cons_append, TraceStubOn]
      by_cases hc : (CheckIsStub_Worker W x a).1 = true
      · simp [hc]
      · simp only [hc, if_false]
        rw [ih f1 _ hp1 (by simp at hf; omega)]
        simp

/-- On a registry whose ordinary list is `L`, `TraceStub` with enough fuel is the loop
over `L` followed by the distinguished manager. -/
theorem TraceStub_eq_on (W : World) (R : Registry) (L : List Ptr) (a : PCODE)
    (t : TraceDestination) (fuel : Nat) (hL : R.IsList L) (hf : L.length + 2 ≤ fuel) :
    TraceStub W R fuel a t = some (TraceStubOn W a t (L ++ W.distinguished)) :=
  TraceStubLoop_pending W R a t L fuel _ (pending_new R L hL) hf

/-! ## The calls that are made -/

theorem doTraceCalls_append (xs ys : List Call) :
    doTraceCalls (xs ++ ys) = doTraceCalls xs ++ doTraceCalls ys := by
  induction xs with
  | nil => rfl
  | cons c cs ih => cases c <;> simp [doTraceCalls, ih]

theorem traceStubCalls_append (xs ys : List Call) :
    traceStubCalls (xs ++ ys) = traceStubCalls xs ++ traceStubCalls ys := by
  induction xs with
  | nil => rfl
  | cons c cs ih => cases c <;> simp [traceStubCalls, ih]

theorem doTraceCalls_worker (W : World) (p : Ptr) (a : PCODE) :
    doTraceCalls (CheckIsStub_Worker W p a).2 = [] := by
  unfold CheckIsStub_Worker
  split_ifs
  · rfl
  · cases W.CheckIsStub_Internal p a <;> rfl

theorem traceStubCalls_worker (W : World) (p : Ptr) (a : PCODE) :
    traceStubCalls (CheckIsStub_Worker W p a).2 = [] := by
  unfold CheckIsStub_Worker
  split_ifs
  · rfl
  · cases W.CheckIsStub_Internal p a <;> rfl

theorem traceStubCalls_TraceStubLoop (W : World) (R : Registry) (a : PCODE)
    (t : TraceDestination) :
    ∀ (fuel : Nat) (it : StubManagerIterator) (r : BOOL × TraceDestination × List Call),
      TraceStubLoop W R a t fuel it = some r → traceStubCalls r.2.2 = [] := by
  intro fuel
  induction fuel with
  | zero => intro it r h; simp [TraceStubLoop] at h
  | succ n ih =>
      intro it r h
      simp only [TraceStubLoop] at h
      split_ifs at h with h1 h2 h3
      · cases h
        simp [traceStubCalls_append, traceStubCalls_worker, traceStubCalls]
      · cases hrec : TraceStubLoop W R a t n (Next W R it).2 with
        | none => simp [hrec] at h
        | some r1 =>
            obtain ⟨b1, t1, c1⟩ := r1
            simp only [hrec] at h
            cases h
            have := ih _ _ hrec
            simp [traceStubCalls_append, traceStubCalls_worker, this]
      · cases h; rfl
      · cases h; rfl

theorem traceStubCalls_TraceStub (W : World) (R : Registry) (fuel : Nat) (a : PCODE)
    (t : TraceDestination) (r : BOOL × TraceDestination × List Call)
    (h : TraceStub W R fuel a t = some r) : traceStubCalls r.2.2 = [] :=
  traceStubCalls_TraceStubLoop W R a t fuel _ r h

/-! ## The loop of TraceStub over an explicit list -/

theorem TraceStubOn_first (W : World) (a : PCODE) (t : TraceDestination) (p : Ptr)
    (post : List Ptr) (hp : (CheckIsStub_Worker W p a).1 = true) :
    ∀ pre : List Ptr, (∀ q ∈ pre, (CheckIsStub_Worker W q a).1 = false) →
      ∃ calls, TraceStubOn W a t (pre ++ p :: post) =
          ((W.DoTraceStub p a t).1, (W.DoTraceStub p a t).2, calls) ∧
        doTraceCalls calls = [(p, a)] := by
  intro pre
  induction pre with
  | nil =>
      intro _
      refine ⟨(CheckIsStub_Worker W p a).2 ++ [Call.DoTraceStub p a], ?_, ?_⟩
      · simp only [List.nil_append, TraceStubOn, hp, if_true]
      · simp [doTraceCalls_append, doTraceCalls_worker, doTraceCalls]
  | cons x xs ih =>
      intro hpre
      obtain ⟨calls, h1, h2⟩ := ih (fun q hq => hpre q (List.mem_cons_of_mem _ hq))
      have hx : (CheckIsStub_Worker W x a).1 = false := hpre x (List.mem_cons_self _ _)
      refine ⟨(CheckIsStub_Worker W x a).2 ++ calls, ?_, ?_⟩
      · simp [TraceStubOn, hx, h1]
      · simp [doTraceCalls_append, doTraceCalls_worker, h2]

theorem TraceStubOn_unclaimed (W : World) (a : PCODE) (t : TraceDestination) :
    ∀ order : List Ptr, (∀ q ∈ order, (CheckIsStub_Worker W q a).1 = false) →
      ∃ calls, TraceStubOn W a t order =
          (W.IsManagedCode a,
           if W.IsManagedCode a then InitForManaged a else InitForOther a, calls) ∧
        doTraceCalls calls = [] := by
  intro order
  induction order with
  | nil =>
      intro _
      by_cases hm : W.IsManagedCode a = true
      · exact ⟨[Call.IsManagedCode a], by simp [TraceStubOn, hm], rfl⟩
      · exact ⟨[Call.IsManagedCode a], by simp [TraceStubOn, hm], rfl⟩
  | cons x xs ih =>
      intro hall
      obtain ⟨calls, h1, h2⟩ := ih (fun q hq => hall q (List.mem_cons_of_mem _ hq))
      have hx : (CheckIsStub_Worker W x a).1 = false := hall x (List.mem_cons_self _ _)
      refine ⟨(CheckIsStub_Worker W x a).2 ++ calls, ?_, ?_⟩
      · simp [TraceStubOn, hx, h1]
      · simp [doTraceCalls_append, doTraceCalls_worker, h2]

/-- When the manager `V` is not among `L`, a `DoTraceStub` call to `V` in the loop over
`L ++ tail` means that no manager of `L` claims the address. -/
theorem TraceStubOn_only_after (W : World) (a : PCODE) (t : TraceDestination) (V : Ptr)
    (tail : List Ptr) :
    ∀ L : List Ptr, V ∉ L → (V, a) ∈ doTraceCalls (TraceStubOn W a t (L ++ tail)).2.2 →
      ∀ q ∈ L, (CheckIsStub_Worker W q a).1 = false := by
  intro L
  induction L with
  | nil => intro _ _ q hq; simp at hq
  | cons x xs ih =>
      intro hV hmem q hq
      have hVx : V ≠ x := fun h => hV (h ▸ List.mem_cons_self _ _)
      have hVxs : V ∉ xs := fun h => hV (List.mem_cons_of_mem _ h)
      by_cases hx : (CheckIsStub_Worker W x a).1 = true
      · simp [TraceStubOn, hx, doTraceCalls_append, doTraceCalls_worker, doTraceCalls] at hmem
        exact absurd hmem hVx
      · simp only [Bool.not_eq_true] at hx
        simp [TraceStubOn, hx, doTraceCalls_append, doTraceCalls_worker] at hmem
        rcases List.mem_cons.mp hq with rfl | hq1
        · exact hx
        · exact ih hVxs hmem q hq1

/-! ## Null-terminated chains -/

theorem Chain_congr (R R1 : Registry) :
    ∀ (L : List Ptr) (p : Ptr), (∀ q ∈ L, R1.m_pNextManager q = R.m_pNextManager q) →
      R.Chain p L → R1.Chain p L := by
  intro L
  induction L with
  | nil => intro p _ h; exact h
  | cons x xs ih =>
      intro p hagree h
      obtain ⟨h1, h2, h3⟩ := h
      refine ⟨h1, h2, ?_⟩
      rw [hagree x (List.mem_cons_self _ _)]
      exact ih _ (fun q hq => hagree q (List.mem_cons_of_mem _ hq)) h3

theorem Chain_unique (R : Registry) :
    ∀ (L1 L2 : List Ptr) (p : Ptr), R.Chain p L1 → R.Chain p L2 → L1 = L2 := by
  intro L1
  induction L1 with
  | nil =>
      intro L2 p h1 h2
      cases L2 with
      | nil => rfl
      | cons y ys =>
          have hp : p = 0 := h1
          obtain ⟨e, ne, _⟩ := h2
          exact absurd (e.symm.trans hp) ne
  | cons x xs ih =>
      intro L2 p h1 h2
      obtain ⟨e1, ne1, c1⟩ := h1
      cases L2 with
      | nil =>
          have hp : p = 0 := h2
          exact absurd (e1.symm.trans hp) ne1
      | cons y ys =>
          obtain ⟨e2, _, c2⟩ := h2
          have hxy : x = y := e1.symm.trans e2
          subst hxy
          rw [ih ys _ c1 c2]

theorem Chain_suffix (R : Registry) (x : Ptr) (l2 : List Ptr) :
    ∀ (l1 : List Ptr) (p : Ptr), R.Chain p (l1 ++ x :: l2) → R.Chain x (x :: l2) := by
  intro l1
  induction l1 with
  | nil =>
      intro p h
      obtain ⟨_, ne, c⟩ := h
      exact ⟨rfl, ne, c⟩
  | cons y ys ih =>
      intro p h
      obtain ⟨_, _, c⟩ := h
      exact ih _ c

theorem Chain_ne_zero (R : Registry) :
    ∀ (L : List Ptr) (p : Ptr), R.Chain p L → ∀ q ∈ L, q ≠ 0 := by
  intro L
  induction L with
  | nil => intro p _ q hq; simp at hq
  | cons x xs ih =>
      intro p h q hq
      obtain ⟨_, ne, c⟩ := h
      rcases List.mem_cons.mp hq with rfl | hq1
      · exact ne
      · exact ih _ c q hq1

/-- A null-terminated chain never visits a manager twice. -/
theorem Chain_nodup (R : Registry) :
    ∀ (L : List Ptr) (p : Ptr), R.Chain p L → L.Nodup := by
  intro L
  induction L with
  | nil => intro p _; exact List.nodup_nil
  | cons x xs ih =>
      intro p h
      obtain ⟨_, _, c⟩ := h
      refine List.nodup_cons.mpr ⟨?_, ih _ c⟩
      intro hx
      obtain ⟨l1, l2, e⟩ := List.append_of_mem hx
      have hs : R.Chain x (x :: l2) := Chain_suffix R x l2 l1 _ (e ▸ c)
      have := Chain_unique R xs l2 _ c hs.2.2
      have hl : xs.length = l1.length + (l2.length + 1) := by rw [e]; simp
      rw [this] at hl
      omega

/-! ## AddStubManager and UnlinkStubManager on a well-formed list -/

theorem AddStubManager_isList (R : Registry) (L : List Ptr) (m : Ptr) (hL : R.IsList L)
    (hm : m ≠ 0) (hfresh : m ∉ L) (hnext : R.m_pNextManager m = 0) :
    (AddStubManager R m).IsList (m :: L) := by
  unfold AddStubManager
  by_cases h0 : R.g_pFirstManager = 0
  · simp only [h0, if_true]
    cases L with
    | nil => exact ⟨rfl, hm, hnext⟩
    | cons x xs =>
        obtain ⟨e, ne, _⟩ := hL
        exact absurd (e.symm.trans h0) ne
  · simp only [h0, if_false]
    refine ⟨rfl, hm, ?_⟩
    simp only [if_true]
    refine Chain_congr R _ L _ ?_ hL
    intro q hq
    have : q ≠ m := fun h => hfresh (h ▸ hq)
    simp [this]

theorem AddStubManager_next (R : Registry) (m q : Ptr) (hq : q ≠ m) : (AddStubManager R m).m_pNextManager q = R.m_pNextManager q := by
  unfold AddStubManager
  split_ifs <;> simp [hq]

theorem slotAfter_cons (s : Slot) (x : Ptr) (l : List Ptr) :
    slotAfter s (x :: l) = slotAfter (Slot.next x) l := by
  cases l with
  | nil => rfl
  | cons y ys =>
      simp only [slotAfter, List.getLast?_cons_cons]
      cases h : (y :: ys).getLast? with
      | none => simp at h
      | some p => rfl

theorem slotAfter_next_mem (x : Ptr) :
    ∀ l : List Ptr, ∃ q, q ∈ x :: l ∧ slotAfter (Slot.next x) l = Slot.next q := by
  intro l
  induction l generalizing x with
  | nil => exact ⟨x, List.mem_cons_self _ _, rfl⟩
  | cons y ys ih =>
      obtain ⟨q, hq, e⟩ := ih y
      exact ⟨q, List.mem_cons_of_mem _ hq, by rw [slotAfter_cons, e]⟩

/-- What the loop of `UnlinkStubManager` does on a chain: nothing when `mgr` is not in
it, and otherwise one write, to the slot before the first `mgr`. -/
theorem UnlinkLoop_chain (R : Registry) (mgr : Ptr) :
    ∀ (L : List Ptr) (fuel : Nat) (s : Slot), R.Chain (R.read s) L → L.length < fuel →
      (mgr ∉ L → UnlinkLoop mgr fuel R s = some R) ∧
      (∀ l1 l2, L = l1 ++ mgr :: l2 → mgr ∉ l1 →
        UnlinkLoop mgr fuel R s = some (R.write (slotAfter s l1) (R.m_pNextManager mgr))) := by
  intro L
  induction L with
  | nil =>
      intro fuel s hc hf
      obtain ⟨f1, rfl⟩ : ∃ f1, fuel = f1 + 1 := ⟨fuel - 1, by simp at hf; omega⟩
      have h0 : R.read s = 0 := hc
      refine ⟨fun _ => by simp [UnlinkLoop, h0], ?_⟩
      intro l1 l2 e
      simp at e
  | cons x xs ih =>
      intro fuel s hc hf
      obtain ⟨f1, rfl⟩ : ∃ f1, fuel = f1 + 1 := ⟨fuel - 1, by simp at hf; omega⟩
      obtain ⟨e, ne, c⟩ := hc
      by_cases hx : x = mgr
      · subst hx
        refine ⟨fun hn => absurd (List.mem_cons_self _ _) hn, ?_⟩
        intro l1 l2 eL hn1
        cases l1 with
        | nil => simp [UnlinkLoop, e, ne, slotAfter]
        | cons y ys =>
            simp at eL
            exact absurd (List.mem_cons_self _ _) (eL.1 ▸ hn1)
      · have hrec := ih f1 (Slot.next x) c (by simp at hf; omega)
        have hstep : UnlinkLoop mgr (f1 + 1) R s = UnlinkLoop mgr f1 R (Slot.next x) := by
          simp [UnlinkLoop, e, ne, hx]
        refine ⟨fun hn => ?_, ?_⟩
        · rw [hstep]
          exact hrec.1 (fun h => hn (List.mem_cons_of_mem _ h))
        · intro l1 l2 eL hn1
          cases l1 with
          | nil =>
              simp at eL
              exact absurd eL.1 hx
          | cons y ys =>
              simp at eL
              obtain ⟨rfl, e2⟩ := eL
              rw [hstep, slotAfter_cons]
              exact hrec.2 ys l2 e2 (fun h => hn1 (List.mem_cons_of_mem _ h))

theorem read_write_next_of_ne (R : Registry) (q : Ptr) (v : Ptr) (s : Slot)
    (h : s ≠ Slot.next q) : (R.write (Slot.next q) v).read s = R.read s := by
  cases s with
  | first => rfl
  | next p =>
      have hp : p ≠ q := fun e => h (e ▸ rfl)
      simp [Registry.write, Registry.read, hp]

/-- Writing `m_pNextManager` of `mgr` into the slot before `mgr` takes `mgr` out of the
chain and keeps the other managers in their order. -/
theorem write_slotAfter_chain (R : Registry) (mgr : Ptr) (l2 : List Ptr) :
    ∀ (l1 : List Ptr) (s : Slot), R.Chain (R.read s) (l1 ++ mgr :: l2) →
      (l1 ++ mgr :: l2).Nodup → (∀ p, s = Slot.next p → p ∉ l1 ++ mgr :: l2) →
      (R.write (slotAfter s l1) (R.m_pNextManager mgr)).Chain
        ((R.write (slotAfter s l1) (R.m_pNextManager mgr)).read s) (l1 ++ l2) := by
  intro l1
  induction l1 with
  | nil =>
      intro s hc _ hs
      obtain ⟨_, _, c⟩ := hc
      have hread : (R.write s (R.m_pNextManager mgr)).read s = R.m_pNextManager mgr := by
        cases s <;> simp [Registry.write, Registry.read]
      show (R.write s (R.m_pNextManager mgr)).Chain
        ((R.write s (R.m_pNextManager mgr)).read s) l2
      rw [hread]
      refine Chain_congr R _ l2 _ ?_ c
      intro q hq
      cases s with
      | first => rfl
      | next p =>
          have hp : p ∉ mgr :: l2 := hs p rfl
          have : q ≠ p := fun e => hp (e ▸ List.mem_cons_of_mem _ hq)
          simp [Registry.write, this]
  | cons x xs ih =>
      intro s hc hnd hs
      obtain ⟨e, ne, c⟩ := hc
      have hnd1 : (xs ++ mgr :: l2).Nodup := (List.nodup_cons.mp hnd).2
      have hx : x ∉ xs ++ mgr :: l2 := (List.nodup_cons.mp hnd).1
      have hrec := ih (Slot.next x) c hnd1 (fun p hp => by cases hp; exact hx)
      rw [slotAfter_cons]
      obtain ⟨q, hq, eq⟩ := slotAfter_next_mem x xs
      have hsq : s ≠ Slot.next q := by
        intro h
        refine hs q h ?_
        rcases List.mem_cons.mp hq with rfl | hq1
        · exact List.mem_cons_self _ _
        · exact List.mem_cons_of_mem _ (List.mem_append_left _ hq1)
      refine ⟨?_, ne, hrec⟩
      rw [eq, read_write_next_of_ne R q _ s hsq]
      exact e

/-- On a registry whose ordinary list is `L`, `UnlinkStubManager` with enough fuel
returns, and the list afterwards is `L` without `mgr`. -/
theorem UnlinkStubManager_isList (R : Registry) (L : List Ptr) (mgr : Ptr) (fuel : Nat)
    (hL : R.IsList L) (hf : L.length < fuel) :
    ∃ R1, UnlinkStubManager R fuel mgr = some R1 ∧ R1.IsList (L.filter (fun q => q ≠ mgr)) ∧
      (mgr ∉ L → R1 = R) := by
  have hspec := UnlinkLoop_chain R mgr L fuel Slot.first hL hf
  have hnd : L.Nodup := Chain_nodup R L _ hL
  by_cases hm : mgr ∈ L
  · obtain ⟨l1, l2, e⟩ := List.append_of_mem hm
    subst e
    have hn1 : mgr ∉ l1 := fun h => by
      have := List.nodup_append.mp hnd
      exact this.2.2 h (List.mem_cons_self _ _) 
    have hn2 : mgr ∉ l2 := fun h => by
      have := (List.nodup_cons.mp (List.nodup_append.mp hnd).2.1).1
      exact this h
    refine ⟨_, hspec.2 l1 l2 rfl hn1, ?_, fun h => absurd hm h⟩
    have hflt : (l1 ++ mgr :: l2).filter (fun q => q ≠ mgr) = l1 ++ l2 := by
      rw [List.filter_append, List.filter_cons]
      simp only [ne_eq, not_true_eq_false, decide_False, Bool.false_eq_true, if_false]
      rw [List.filter_eq_self.mpr, List.filter_eq_self.mpr]
      · intro q hq
        have : q ≠ mgr := fun e => hn2 (e ▸ hq)
        simpa using this
      · intro q hq
        have : q ≠ mgr := fun e => hn1 (e ▸ hq)
        simpa using this
    rw [hflt]
    exact write_slotAfter_chain R mgr l2 l1 Slot.first hL hnd (fun p hp => by cases hp)
  · refine ⟨R, hspec.1 hm, ?_, fun _ => rfl⟩
    rw [List.filter_eq_self.mpr]
    · exact hL
    · intro q hq
      have : q ≠ mgr := fun e => hm (e ▸ hq)
      simpa using this

/-! ## FollowTrace -/

theorem FollowTrace_not_stub (W : World) (R : Registry) (fuelT fuel : Nat)
    (d : TraceDestination) (h : d.type ≠ TraceType.TRACE_STUB) :
    FollowTrace W R fuelT (fuel + 1) d = some (d.type != TraceType.TRACE_OTHER, d, []) := by
  simp [FollowTrace, GetTraceType, h]

theorem FollowTrace_stub (W : World) (R : Registry) (fuelT fuel : Nat)
    (d t1 : TraceDestination) (fValid : BOOL) (calls1 : List Call)
    (h : d.type = TraceType.TRACE_STUB)
    (hT : TraceStub W R fuelT d.address d = some (fValid, t1, calls1)) :
    FollowTrace W R fuelT (fuel + 1) d =
      (FollowTrace W R fuelT fuel (if !fValid then InitForOther t1.address else t1)).map
        (fun r => (r.1, r.2.1, Call.TraceStub d.address :: (calls1 ++ r.2.2))) := by
  simp only [FollowTrace, GetTraceType, GetAddress, h, hT, if_true]
  cases FollowTrace W R fuelT fuel (if !fValid then InitForOther t1.address else t1) with
  | none => rfl
  | some r => rfl

theorem FollowTrace_final (W : World) (R : Registry) (fuelT : Nat) :
    ∀ (fuel : Nat) (d : TraceDestination) (r : BOOL) (t : TraceDestination)
      (calls : List Call), FollowTrace W R fuelT fuel d = some (r, t, calls) →
      t.type ≠ TraceType.TRACE_STUB ∧ r = (t.type != TraceType.TRACE_OTHER) := by
  intro fuel
  induction fuel with
  | zero => intro d r t calls h; simp [FollowTrace] at h
  | succ n ih =>
      intro d r t calls h
      by_cases hd : d.type = TraceType.TRACE_STUB
      · cases hT : TraceStub W R fuelT d.address d with
        | none => simp [FollowTrace, GetTraceType, GetAddress, hd, hT] at h
        | some x =>
            obtain ⟨fValid, t1, calls1⟩ := x
            rw [FollowTrace_stub W R fuelT n d t1 fValid calls1 hd hT] at h
            obtain ⟨y, hy, e⟩ := Option.map_eq_some'.mp h
            obtain ⟨r2, t2, c2⟩ := y
            simp only [Prod.mk.injEq] at e
            obtain ⟨rfl, rfl, _⟩ := e
            exact ih _ _ _ _ hy
      · rw [FollowTrace_not_stub W R fuelT n d hd] at h
        simp only [Option.some.injEq, Prod.mk.injEq] at h
        obtain ⟨rfl, rfl, _⟩ := h
        exact ⟨hd, rfl⟩

theorem FollowTrace_along_chain (W : World) (R : Registry) (fuelT : Nat) :
    ∀ (ds : List TraceDestination) (d : TraceDestination) (fuel : Nat),
      StubChain W R fuelT d ds → (ds.getLastD d).type ≠ TraceType.TRACE_STUB →
      ds.length < fuel →
      ∃ calls, FollowTrace W R fuelT fuel d =
          some ((ds.getLastD d).type != TraceType.TRACE_OTHER, ds.getLastD d, calls) ∧
        (traceStubCalls calls).length = ds.length := by
  intro ds
  induction ds with
  | nil =>
      intro d fuel _ hlast hf
      obtain ⟨f1, rfl⟩ : ∃ f1, fuel = f1 + 1 := ⟨fuel - 1, by simp at hf; omega⟩
      exact ⟨[], FollowTrace_not_stub W R fuelT f1 d hlast, rfl⟩
  | cons d1 ds ih =>
      intro d fuel hch hlast hf
      obtain ⟨f1, rfl⟩ : ∃ f1, fuel = f1 + 1 := ⟨fuel - 1, by simp at hf; omega⟩
      obtain ⟨hd, hT, hrest⟩ := hch
      obtain ⟨x, hx, e⟩ := Option.map_eq_some'.mp hT
      obtain ⟨b1, t1, calls1⟩ := x
      simp only [Prod.mk.injEq] at e
      obtain ⟨rfl, rfl⟩ := e
      have hcons : (t1 :: ds).getLastD d = ds.getLastD t1 := List.getLastD_cons d t1 ds
      rw [hcons] at hlast ⊢
      obtain ⟨calls2, h2, hlen⟩ := ih t1 f1 hrest hlast (by simp at hf; omega)
      refine ⟨Call.TraceStub d.address :: (calls1 ++ calls2), ?_, ?_⟩
      · rw [FollowTrace_stub W R fuelT f1 d t1 true calls1 hd hx]
        simp only [Bool.not_true, Bool.false_eq_true, if_false, h2, Option.map_some']
      · have h0 := traceStubCalls_TraceStub W R fuelT d.address d _ hx
        simp only [] at h0
        simp [traceStubCalls, traceStubCalls_append, h0, hlen]

/-! ## The order of iteration -/

theorem visited_succ (W : World) (R : Registry) (n : Nat) (it : StubManagerIterator) :
    visited W R (n + 1) it =
      if (Next W R it).1 then Current (Next W R it).2 :: visited W R n (Next W R it).2
      else [] := rfl

theorem nextTimes_succ (W : World) (R : Registry) (n : Nat) (it : StubManagerIterator) :
    nextTimes W R (n + 1) it = nextTimes W R n (Next W R it).2 := rfl

theorem visited_pending (W : World) (R : Registry) (hV : W.GlobalManager ≠ 0) :
    ∀ (rest : List Ptr) (it : StubManagerIterator), Pending R it rest →
      visited W R (rest.length + 1) it = rest ++ [W.GlobalManager] ∧
      (nextTimes W R (rest.length + 1) it).m_state = SMI_State.SMI_VIRTUALCALLSTUBMANAGER := by
  intro rest
  induction rest with
  | nil =>
      intro it hp
      have hn := Next_pending_nil W R it hp hV
      simp [visited, nextTimes, hn, Current]
  | cons x xs ih =>
      intro it hp
      obtain ⟨hn, hp1⟩ := Next_pending_cons W R it x xs hp
      obtain ⟨h1, h2⟩ := ih _ hp1
      constructor
      · rw [List.length_cons, visited_succ, hn]
        simp only [if_true, Current, List.cons_append]
        rw [h1]
      · rw [List.length_cons, nextTimes_succ, hn]
        exact h2

/-! ## The claims -/

/-- C1: on a registry whose ordinary list is `L`, when the first manager in iteration
order (`L`, then the distinguished manager) that claims `a` through
`CheckIsStub_Worker` is `p`, `TraceStub(a)` returns exactly the `BOOL` and the
destination that `DoTraceStub(a)` of `p` gives, and that is the only `DoTraceStub` call
made.
A freshly registered manager that claims `a` resolves it whoever else claims it, and a
`DoTraceStub` call to the distinguished manager is made only when no ordinary manager
claims `a`. -/
theorem TraceStub_first_claimant (W : World) (R : Registry) (L : List Ptr) (a : PCODE)
    (t : TraceDestination) (fuel : Nat) (hL : R.IsList L) (hf : L.length + 2 ≤ fuel) :
    (∀ (pre : List Ptr) (p : Ptr) (post : List Ptr),
      L ++ W.distinguished = pre ++ p :: post →
      (∀ q ∈ pre, (CheckIsStub_Worker W q a).1 = false) →
      (CheckIsStub_Worker W p a).1 = true →
      ∃ calls, TraceStub W R fuel a t =
          some ((W.DoTraceStub p a t).1, (W.DoTraceStub p a t).2, calls) ∧
        doTraceCalls calls = [(p, a)]) ∧
    (∀ m : Ptr, m ≠ 0 → m ∉ L → R.m_pNextManager m = 0 →
      (CheckIsStub_Worker W m a).1 = true →
      ∃ calls, TraceStub W (AddStubManager R m) (fuel + 1) a t =
          some ((W.DoTraceStub m a t).1, (W.DoTraceStub m a t).2, calls) ∧
        doTraceCalls calls = [(m, a)]) ∧
    (W.GlobalManager ∉ L →
      ∀ r, TraceStub W R fuel a t = some r → (W.GlobalManager, a) ∈ doTraceCalls r.2.2 →
        ∀ q ∈ L, (CheckIsStub_Worker W q a).1 = false) := by
  have hT := TraceStub_eq_on W R L a t fuel hL hf
  refine ⟨?_, ?_, ?_⟩
  · intro pre p post hsplit hpre hp
    rw [hT, hsplit]
    obtain ⟨calls, h1, h2⟩ := TraceStubOn_first W a t p post hp pre hpre
    exact ⟨calls, by rw [h1], h2⟩
  · intro m hm hfresh hnext hp
    have hL1 := AddStubManager_isList R L m hL hm hfresh hnext
    rw [TraceStub_eq_on W (AddStubManager R m) (m :: L) a t (fuel + 1) hL1
      (by simp only [List.length_cons]; omega)]
    obtain ⟨calls, h1, h2⟩ :=
      TraceStubOn_first W a t m (L ++ W.distinguished) hp [] (fun q hq => by simp at hq)
    exact ⟨calls, by rw [← h1]; rfl, h2⟩
  · intro hV r hr hmem
    rw [hT] at hr
    cases hr
    exact TraceStubOn_only_after W a t W.GlobalManager W.distinguished L hV hmem

/-- Witness of C1: in the example registry the managers `20` and `10` both claim the
address `100`, and the more recently registered `20` resolves it. -/
theorem TraceStub_first_claimant_witness :
    exRegistry.IsList [20, 10] ∧ [20, 10].length + 2 ≤ 4 ∧
    ∃ calls, TraceStub exWorld exRegistry 4 100 (InitForStub 100) =
        some (true, InitForStub 200, calls) ∧ doTraceCalls calls = [(20, 100)] :=
  ⟨by decide, by decide,
    (TraceStub_first_claimant exWorld exRegistry [20, 10] 100 (InitForStub 100) 4
      (by decide) (by decide)).1 [] 20 [10, 30] (by decide) (by decide) (by decide)⟩

/-- C2: on a registry whose ordinary list is `L`, when no manager of `L` and not the
distinguished manager claims `a`, and `ExecutionManager::IsManagedCode(a)` is true,
`TraceStub(a)` sets the destination to `Managed(a)` and returns `TRUE`. -/
theorem TraceStub_managed (W : World) (R : Registry) (L : List Ptr) (a : PCODE)
    (t : TraceDestination) (fuel : Nat) (hL : R.IsList L) (hf : L.length + 2 ≤ fuel)
    (hnone : ∀ q ∈ L ++ W.distinguished, (CheckIsStub_Worker W q a).1 = false)
    (hm : W.IsManagedCode a = true) :
    ∃ calls, TraceStub W R fuel a t = some (true, InitForManaged a, calls) ∧
      doTraceCalls calls = [] := by
  rw [TraceStub_eq_on W R L a t fuel hL hf]
  obtain ⟨calls, h1, h2⟩ := TraceStubOn_unclaimed W a t _ hnone
  refine ⟨calls, ?_, h2⟩
  rw [h1, hm]
  rfl

/-- Witness of C2: nobody claims the address `500` of the example world, which is
managed code. -/
theorem TraceStub_managed_witness :
    exRegistry.IsList [20, 10] ∧ [20, 10].length + 2 ≤ 4 ∧
    (∀ q ∈ [20, 10] ++ exWorld.distinguished, (CheckIsStub_Worker exWorld q 500).1 = false) ∧
    exWorld.IsManagedCode 500 = true ∧
    ∃ calls, TraceStub exWorld exRegistry 4 500 (InitForStub 500) =
        some (true, InitForManaged 500, calls) ∧ doTraceCalls calls = [] :=
  ⟨by decide, by decide, by decide, by decide,
    TraceStub_managed exWorld exRegistry [20, 10] 500 (InitForStub 500) 4
      (by decide) (by decide) (by decide) (by decide)⟩

/-- C3: on a registry whose ordinary list is `L`, when no manager claims `a` and `a` is
not managed code, `TraceStub(a)` sets the destination to `Other(a)` and returns `FALSE`,
and `FollowTrace` started on a destination `Stub(a)` returns `FALSE` with the
destination `Other(a)` after exactly one `TraceStub` call. -/
theorem TraceStub_unknown (W : World) (R : Registry) (L : List Ptr) (a : PCODE)
    (t d : TraceDestination) (fuelT fuel : Nat) (hL : R.IsList L)
    (hfT : L.length + 2 ≤ fuelT) (hf : 2 ≤ fuel)
    (hnone : ∀ q ∈ L ++ W.distinguished, (CheckIsStub_Worker W q a).1 = false)
    (hm : W.IsManagedCode a = false)
    (hd : d.type = TraceType.TRACE_STUB) (hda : d.address = a) :
    (∃ calls, TraceStub W R fuelT a t = some (false, InitForOther a, calls) ∧
      doTraceCalls calls = []) ∧
    (∃ calls, FollowTrace W R fuelT fuel d = some (false, InitForOther a, calls) ∧
      traceStubCalls calls = [a]) := by
  have key : ∀ t1 : TraceDestination, ∃ calls,
      TraceStub W R fuelT a t1 = some (false, InitForOther a, calls) ∧
        doTraceCalls calls = [] := by
    intro t1
    rw [TraceStub_eq_on W R L a t1 fuelT hL hfT]
    obtain ⟨calls, h1, h2⟩ := TraceStubOn_unclaimed W a t1 _ hnone
    refine ⟨calls, ?_, h2⟩
    rw [h1, hm]
    rfl
  refine ⟨key t, ?_⟩
  obtain ⟨f1, rfl⟩ : ∃ f1, fuel = f1 + 2 := ⟨fuel - 2, by omega⟩
  obtain ⟨calls, h1, _⟩ := key d
  subst hda
  refine ⟨Call.TraceStub d.address :: (calls ++ []), ?_, ?_⟩
  · rw [FollowTrace_stub W R fuelT (f1 + 1) d (InitForOther d.address) false calls hd h1]
    have hstep : FollowTrace W R fuelT (f1 + 1) (InitForOther d.address) =
        some (false, InitForOther d.address, []) :=
      FollowTrace_not_stub W R fuelT f1 (InitForOther d.address) (by simp [InitForOther])
    simp [InitForOther] at hstep ⊢
    rw [hstep]
  · have h0 := traceStubCalls_TraceStub W R fuelT d.address d _ h1
    simp only [] at h0
    simp [traceStubCalls, traceStubCalls_append, h0]

/-- Witness of C3: nobody claims the address `600` of the example world, which is not
managed code. -/
theorem TraceStub_unknown_witness :
    exRegistry.IsList [20, 10] ∧
    (∀ q ∈ [20, 10] ++ exWorld.distinguished, (CheckIsStub_Worker exWorld q 600).1 = false) ∧
    exWorld.IsManagedCode 600 = false ∧
    ((∃ calls, TraceStub exWorld exRegistry 4 600 (InitForStub 0) =
        some (false, InitForOther 600, calls) ∧ doTraceCalls calls = []) ∧
     (∃ calls, FollowTrace exWorld exRegistry 4 2 (InitForStub 600) =
        some (false, InitForOther 600, calls) ∧ traceStubCalls calls = [600])) :=
  ⟨by decide, by decide, by decide,
    TraceStub_unknown exWorld exRegistry [20, 10] 600 (InitForStub 0) (InitForStub 600) 4 2
      (by decide) (by decide) (by decide) (by decide) (by decide) rfl rfl⟩

/-- C4: whenever `FollowTrace` started on `d` returns, the tag of the final destination
is not `TRACE_STUB` and the returned `BOOL` is `TRUE` exactly when the final tag is not
`TRACE_OTHER`; when the tag of `d` is not `TRACE_STUB` the destination stays `d` and no
call is made; and `FollowTrace` on its own result returns the same `BOOL`, leaves the
destination as it is and makes no call. -/
theorem FollowTrace_stable (W : World) (R : Registry) (fuelT fuel : Nat)
    (d t : TraceDestination) (r : BOOL) (calls : List Call)
    (h : FollowTrace W R fuelT fuel d = some (r, t, calls)) :
    t.type ≠ TraceType.TRACE_STUB ∧
    (r = true ↔ t.type ≠ TraceType.TRACE_OTHER) ∧
    (d.type ≠ TraceType.TRACE_STUB → t = d ∧ calls = [] ∧ traceStubCalls calls = []) ∧
    (∀ fuelT2 fuel2 : Nat, FollowTrace W R fuelT2 (fuel2 + 1) t = some (r, t, [])) := by
  obtain ⟨h1, h2⟩ := FollowTrace_final W R fuelT fuel d r t calls h
  refine ⟨h1, ?_, ?_, ?_⟩
  · rw [h2]
    simp
  · intro hd
    cases fuel with
    | zero => simp [FollowTrace] at h
    | succ n =>
        rw [FollowTrace_not_stub W R fuelT n d hd] at h
        simp only [Option.some.injEq, Prod.mk.injEq] at h
        obtain ⟨_, rfl, rfl⟩ := h
        exact ⟨rfl, rfl, rfl⟩
  · intro fuelT2 fuel2
    rw [FollowTrace_not_stub W R fuelT2 fuel2 t h1, h2]

/-- Witness of C4: `FollowTrace` from `Stub(100)` in the example world ends at
`Managed(300)`. -/
theorem FollowTrace_stable_witness :
    FollowTrace exWorld exRegistry 4 3 (InitForStub 100) =
      some (true, InitForManaged 300,
        [Call.TraceStub 100, Call.CheckIsStub_Internal 20 100, Call.DoTraceStub 20 100,
         Call.TraceStub 200, Call.CheckIsStub_Internal 20 200,
         Call.CheckIsStub_Internal 10 200, Call.DoTraceStub 10 200]) ∧
    (InitForManaged 300).type ≠ TraceType.TRACE_STUB ∧
    (true = true ↔ (InitForManaged 300).type ≠ TraceType.TRACE_OTHER) ∧
    (∀ fuelT2 fuel2 : Nat, FollowTrace exWorld exRegistry fuelT2 (fuel2 + 1)
      (InitForManaged 300) = some (true, InitForManaged 300, [])) :=
  have h := FollowTrace_stable exWorld exRegistry 4 3 (InitForStub 100) (InitForManaged 300)
    true
    [Call.TraceStub 100, Call.CheckIsStub_Internal 20 100, Call.DoTraceStub 20 100,
     Call.TraceStub 200, Call.CheckIsStub_Internal 20 200,
     Call.CheckIsStub_Internal 10 200, Call.DoTraceStub 10 200]
    (by decide)
  ⟨by decide, h.1, h.2.1, h.2.2.2⟩

/-- C5: when `TraceStub(a)` succeeds with `Stub(b)` and `TraceStub(b)` succeeds with
`Managed(c)`, `FollowTrace` started on `Stub(a)` ends with `Managed(c)`, returns `TRUE`
and makes exactly the two `TraceStub` calls on `a` and on `b`; and for every chain of
`k` successful stub hops that ends in a destination whose tag is not `TRACE_STUB`,
`FollowTrace` ends with that destination after exactly `k` `TraceStub` calls. -/
theorem FollowTrace_chain (W : World) (R : Registry) (fuelT : Nat) :
    (∀ (a b c : PCODE) (t1 : TraceDestination) (fuel : Nat),
      (TraceStub W R fuelT a (InitForStub a)).map (fun r => (r.1, r.2.1)) = some (true, t1) →
      t1.type = TraceType.TRACE_STUB → t1.address = b →
      (TraceStub W R fuelT b t1).map (fun r => (r.1, r.2.1)) = some (true, InitForManaged c) →
      3 ≤ fuel →
      ∃ calls, FollowTrace W R fuelT fuel (InitForStub a) =
          some (true, InitForManaged c, calls) ∧ traceStubCalls calls = [a, b]) ∧
    (∀ (d : TraceDestination) (ds : List TraceDestination) (fuel : Nat),
      StubChain W R fuelT d ds → (ds.getLastD d).type ≠ TraceType.TRACE_STUB →
      ds.length < fuel →
      ∃ calls, FollowTrace W R fuelT fuel d =
          some ((ds.getLastD d).type != TraceType.TRACE_OTHER, ds.getLastD d, calls) ∧
        (traceStubCalls calls).length = ds.length) := by
  refine ⟨?_, fun d ds fuel => FollowTrace_along_chain W R fuelT ds d fuel⟩
  intro a b c t1 fuel hT1 ht1 hb hT2 hf
  obtain ⟨f1, rfl⟩ : ∃ f1, fuel = f1 + 3 := ⟨fuel - 3, by omega⟩
  obtain ⟨x, hx, e⟩ := Option.map_eq_some'.mp hT1
  obtain ⟨b1, t1x, calls1⟩ := x
  simp only [Prod.mk.injEq] at e
  obtain ⟨rfl, rfl⟩ := e
  obtain ⟨y, hy, e⟩ := Option.map_eq_some'.mp hT2
  obtain ⟨b2, t2, calls2⟩ := y
  simp only [Prod.mk.injEq] at e
  obtain ⟨rfl, rfl⟩ := e
  subst hb
  have hc1 := traceStubCalls_TraceStub W R fuelT a (InitForStub a) _ hx
  have hc2 := traceStubCalls_TraceStub W R fuelT t1x.address t1x _ hy
  simp only [] at hc1 hc2
  refine ⟨Call.TraceStub a :: (calls1 ++ (Call.TraceStub t1x.address :: (calls2 ++ []))), ?_, ?_⟩
  · rw [FollowTrace_stub W R fuelT (f1 + 2) (InitForStub a) t1x true calls1 rfl hx]
    simp only [Bool.not_true, Bool.false_eq_true, if_false]
    rw [FollowTrace_stub W R fuelT (f1 + 1) t1x (InitForManaged c) true calls2 ht1 hy]
    simp only [Bool.not_true, Bool.false_eq_true, if_false]
    rw [FollowTrace_not_stub W R fuelT f1 (InitForManaged c) (by simp [InitForManaged])]
    rfl
  · simp [traceStubCalls, traceStubCalls_append, hc1, hc2]

/-- Witness of C5: the chain `Stub(100)`, `Stub(200)`, `Managed(300)` of the example
world. -/
theorem FollowTrace_chain_witness :
    ∃ calls, FollowTrace exWorld exRegistry 4 3 (InitForStub 100) =
        some (true, InitForManaged 300, calls) ∧ traceStubCalls calls = [100, 200] :=
  (FollowTrace_chain exWorld exRegistry 4).1 100 200 300 (InitForStub 200) 3
    (by decide) rfl rfl (by decide) (by decide)

/-- C6: on a registry whose ordinary list is `L` and with a non-null distinguished
manager `V`, the successive `Next()`/`Current()` pairs of a fresh iterator give exactly
`L` followed by `V`, the call of `Next()` after those returns `FALSE`, and no manager is
given twice when `V` is not in `L`; registering `A` and then `B` on an empty registry
gives the order `B`, `A`, `V`. -/
theorem iterator_order (W : World) (hV : W.GlobalManager ≠ 0) :
    (∀ (R : Registry) (L : List Ptr), R.IsList L →
      visited W R (L.length + 1) StubManagerIterator.new = L ++ [W.GlobalManager] ∧
      (Next W R (nextTimes W R (L.length + 1) StubManagerIterator.new)).1 = false ∧
      (W.GlobalManager ∉ L →
        (visited W R (L.length + 1) StubManagerIterator.new).Nodup)) ∧
    (∀ (R : Registry) (A B : Ptr), R.g_pFirstManager = 0 → A ≠ 0 → B ≠ 0 → A ≠ B →
      R.m_pNextManager A = 0 → R.m_pNextManager B = 0 →
      visited W (AddStubManager (AddStubManager R A) B) 3 StubManagerIterator.new =
        [B, A, W.GlobalManager]) := by
  have main : ∀ (R : Registry) (L : List Ptr), R.IsList L →
      visited W R (L.length + 1) StubManagerIterator.new = L ++ [W.GlobalManager] ∧
      (Next W R (nextTimes W R (L.length + 1) StubManagerIterator.new)).1 = false ∧
      (W.GlobalManager ∉ L →
        (visited W R (L.length + 1) StubManagerIterator.new).Nodup) := by
    intro R L hL
    obtain ⟨h1, h2⟩ := visited_pending W R hV L _ (pending_new R L hL)
    refine ⟨h1, ?_, ?_⟩
    · rw [Next_distinguished W R _ h2]
    · intro hVL
      rw [h1]
      refine List.nodup_append.mpr ⟨Chain_nodup R L _ hL, List.nodup_singleton _, ?_⟩
      intro q hq hq1
      rw [List.mem_singleton] at hq1
      exact hVL (hq1 ▸ hq)
  refine ⟨main, ?_⟩
  intro R A B h0 hA hB hAB hnA hnB
  have hL0 : R.IsList [] := h0
  have hL1 := AddStubManager_isList R [] A hL0 hA (by simp) hnA
  have hnB1 : (AddStubManager R A).m_pNextManager B = 0 := by
    rw [AddStubManager_next R A B (fun e => hAB e.symm)]
    exact hnB
  have hL2 := AddStubManager_isList (AddStubManager R A) [A] B hL1 hB
    (by simpa using fun e => hAB e.symm) hnB1
  exact (main _ [B, A] hL2).1

/-- Witness of C6: registering `10` and then `20` on the empty registry, with the
distinguished manager `30`. -/
theorem iterator_order_witness :
    exWorld.GlobalManager ≠ 0 ∧
    visited exWorld (AddStubManager (AddStubManager emptyRegistry 10) 20) 3
      StubManagerIterator.new = [20, 10, 30] :=
  ⟨by decide,
    (iterator_order exWorld (by decide)).2 emptyRegistry 10 20 rfl (by decide) (by decide)
      (by decide) rfl rfl⟩

/-- C7: on a registry whose ordinary list is `L`, for a manager `m` that is not null,
not in `L` and whose next link is null, the list after `AddStubManager(m)` is `m`
followed by `L`, the next link of every other manager is unchanged, and the next link
of `m` is the old head of the list. -/
theorem AddStubManager_prepends (R : Registry) (L : List Ptr) (m : Ptr) (hL : R.IsList L)
    (hm : m ≠ 0) (hfresh : m ∉ L) (hnext : R.m_pNextManager m = 0) :
    (AddStubManager R m).IsList (m :: L) ∧
    (∀ q, q ≠ m → (AddStubManager R m).m_pNextManager q = R.m_pNextManager q) ∧
    (AddStubManager R m).m_pNextManager m = R.g_pFirstManager := by
  refine ⟨AddStubManager_isList R L m hL hm hfresh hnext,
    fun q hq => AddStubManager_next R m q hq, ?_⟩
  unfold AddStubManager
  split_ifs with h0
  · rw [h0]
    exact hnext
  · simp

/-- Witness of C7: adding the manager `40` to the example registry, whose list is
`20, 10`. -/
theorem AddStubManager_prepends_witness :
    exRegistry.IsList [20, 10] ∧ (40 : Ptr) ≠ 0 ∧ (40 : Ptr) ∉ [20, 10] ∧
    exRegistry.m_pNextManager 40 = 0 ∧
    (AddStubManager exRegistry 40).IsList [40, 20, 10] :=
  ⟨by decide, by decide, by decide, rfl,
    (AddStubManager_prepends exRegistry [20, 10] 40 (by decide) (by decide) (by decide)
      rfl).1⟩

/-- C8: on a registry whose ordinary list is `L` (a null-terminated list, which never
repeats a manager), `UnlinkStubManager(m)` returns and the list afterwards is `L` with
`m` removed, the other managers in their original order; when `m` is not in `L` the
registry is unchanged. -/
theorem UnlinkStubManager_removes (R : Registry) (L : List Ptr) (mgr : Ptr) (fuel : Nat)
    (hL : R.IsList L) (hnd : L.Nodup) (hf : L.length < fuel) :
    ∃ R1, UnlinkStubManager R fuel mgr = some R1 ∧
      R1.IsList (L.erase mgr) ∧ (L.erase mgr).Sublist L ∧
      (∀ q, q ∈ L.erase mgr ↔ q ∈ L ∧ q ≠ mgr) ∧
      (mgr ∉ L → R1 = R) := by
  obtain ⟨R1, h1, h2, h3⟩ := UnlinkStubManager_isList R L mgr fuel hL hf
  refine ⟨R1, h1, ?_, List.erase_sublist mgr L, ?_, h3⟩
  · rw [hnd.erase_eq_filter]
    simpa using h2
  · intro q
    rw [hnd.mem_erase_iff]
    exact ⟨fun h => ⟨h.2, h.1⟩, fun h => ⟨h.2, h.1⟩⟩

/-- Witness of C8: unlinking the manager `10` from the example registry, whose list is
`20, 10`. -/
theorem UnlinkStubManager_removes_witness :
    exRegistry.IsList [20, 10] ∧ [20, 10].Nodup ∧ [20, 10].length < 3 ∧
    ∃ R1, UnlinkStubManager exRegistry 3 10 = some R1 ∧
      R1.IsList ([20, 10].erase 10) ∧ ([20, 10].erase 10).Sublist [20, 10] ∧
      (∀ q, q ∈ [20, 10].erase 10 ↔ q ∈ [20, 10] ∧ q ≠ 10) ∧
      (10 ∉ [20, 10] → R1 = exRegistry) :=
  ⟨by decide, by decide, by decide,
    UnlinkStubManager_removes exRegistry [20, 10] 10 3 (by decide) (by decide) (by decide)⟩

/-- C9: for every manager, `CheckIsStub_Worker(0)` returns `FALSE` and makes no call:
`CheckIsStub_Internal` is not invoked on the null address. -/
theorem CheckIsStub_Worker_null (W : World) (this : Ptr) :
    CheckIsStub_Worker W this 0 = (false, []) ∧
    checkCalls (CheckIsStub_Worker W this 0).2 = [] := by
  simp [CheckIsStub_Worker, checkCalls]

/-- C10: for every manager and every non-null address `a`, `CheckIsStub_Worker(a)`
calls `CheckIsStub_Internal(a)` once; when that call faults or throws the worker returns
`FALSE`, and otherwise it returns exactly the value the call returned. -/
theorem CheckIsStub_Worker_contains (W : World) (this : Ptr) (a : PCODE) (ha : a ≠ 0) :
    (W.CheckIsStub_Internal this a = none →
      CheckIsStub_Worker W this a = (false, [Call.CheckIsStub_Internal this a])) ∧
    (∀ b : BOOL, W.CheckIsStub_Internal this a = some b →
      CheckIsStub_Worker W this a = (b, [Call.CheckIsStub_Internal this a])) := by
  constructor
  · intro h
    simp [CheckIsStub_Worker, ha, h]
  · intro b h
    simp [CheckIsStub_Worker, ha, h]

/-- Witness of C10: probing the address `7` faults in the example world, and the
manager `10` claims the address `200`. -/
theorem CheckIsStub_Worker_contains_witness :
    (7 : PCODE) ≠ 0 ∧ exWorld.CheckIsStub_Internal 10 7 = none ∧
    CheckIsStub_Worker exWorld 10 7 = (false, [Call.CheckIsStub_Internal 10 7]) :=
  ⟨by decide, rfl,
    (CheckIsStub_Worker_contains exWorld 10 7 (by decide)).1 rfl⟩

/-! ## The destinations that the stub managers write -/

theorem and_two_ne_zero (x : Nat) : x &&& 2 ≠ 0 ↔ x.testBit 1 = true := by
  constructor
  · intro h
    by_contra hb
    apply h
    apply Nat.eq_of_testBit_eq
    intro i
    rw [Nat.testBit_and, Nat.zero_testBit]
    by_cases hi : i = 1
    · subst hi
      simp [hb]
    · have : (2 : Nat).testBit i = false := by
        have := @Nat.testBit_two_pow_of_ne 1 i (fun e => hi e.symm)
        simpa using this
      simp [this]
  · intro hb h
    have h1 : (x &&& 2).testBit 1 = true := by
      rw [Nat.testBit_and, hb]
      decide
    rw [h] at h1
    simp at h1

/-- What `InitForUnjittedMethod` writes in either build: the tag `TRACE_UNJITTED_METHOD`
and a null manager.  Where the lookup is compiled (not the DAC build), a wrapper stub
`d` whose `GetExistingWrappedMethodDesc` returns a non-null `w` is stored as `w`, so
not as `d` when `w` differs from it.  When `d` is not a wrapper stub, or the lookup
returns null or throws, or the lookup is compiled out (DAC build), the stored
descriptor is `d`. -/
theorem InitForUnjittedMethod_wrapper (B : Build) (E : Env) (d : Ptr) :
    (InitForUnjittedMethod B E d).type = TraceType.TRACE_UNJITTED_METHOD ∧
    GetStubManager (InitForUnjittedMethod B E d) = 0 ∧
    (∀ w : Ptr, B.DACCESS_COMPILE = false → E.IsWrapperStub d = true →
      E.GetExistingWrappedMethodDesc d = some w → w ≠ 0 →
      GetMethodDesc (InitForUnjittedMethod B E d) = w ∧
      (w ≠ d → GetMethodDesc (InitForUnjittedMethod B E d) ≠ d)) ∧
    (E.IsWrapperStub d = false ∨ E.GetExistingWrappedMethodDesc d = some 0 ∨
      E.GetExistingWrappedMethodDesc d = none ∨ B.DACCESS_COMPILE = true →
      GetMethodDesc (InitForUnjittedMethod B E d) = d) := by
  refine ⟨rfl, rfl, ?_, ?_⟩
  · intro w hdac hw hlook hw0
    have : GetMethodDesc (InitForUnjittedMethod B E d) = w := by
      simp [GetMethodDesc, InitForUnjittedMethod, wrappedMethodDesc, hdac, hw, hlook, hw0]
    exact ⟨this, fun hne => this ▸ hne⟩
  · intro h
    rcases h with h | h | h | h
    · simp [GetMethodDesc, InitForUnjittedMethod, h]
    · simp only [GetMethodDesc, InitForUnjittedMethod, wrappedMethodDesc, h]
      split_ifs <;> simp_all
    · simp only [GetMethodDesc, InitForUnjittedMethod, wrappedMethodDesc, h]
      split_ifs <;> simp_all
    · simp only [GetMethodDesc, InitForUnjittedMethod, wrappedMethodDesc, h]
      split_ifs <;> simp_all

/-- In the example environment and the non-DAC build the wrapper stub `1` is stored as
the method `2` it wraps, and the wrapper stub `3`, whose lookup throws, as itself. -/
theorem InitForUnjittedMethod_wrapper_example :
    GetMethodDesc (InitForUnjittedMethod exBuild exEnv 1) = 2 ∧
    GetMethodDesc (InitForUnjittedMethod exBuild exEnv 3) = 3 :=
  ⟨((InitForUnjittedMethod_wrapper exBuild exEnv 1).2.2.1 2 rfl rfl rfl (by decide)).1,
    (InitForUnjittedMethod_wrapper exBuild exEnv 3).2.2.2 (Or.inr (Or.inr (Or.inl rfl)))⟩

/-- C11: the wrapper stub `1` of the example environment wraps the method `2`
(`GetExistingWrappedMethodDesc` returns `2` for it).  In the non-DAC build
`InitForUnjittedMethod` stores `2`, as the claim says; in the DAC build, where the
lookup is compiled out, it stores the wrapper `1` itself. -/
theorem InitForUnjittedMethod_dac_keeps_wrapper :
    exEnv.IsWrapperStub 1 = true ∧ exEnv.GetExistingWrappedMethodDesc 1 = some 2 ∧
    (InitForUnjittedMethod exDacBuild exEnv 1).type = TraceType.TRACE_UNJITTED_METHOD ∧
    GetMethodDesc (InitForUnjittedMethod exDacBuild exEnv 1) = 1 ∧
    GetMethodDesc (InitForUnjittedMethod exBuild exEnv 1) = 2 := by
  decide

/-- C13: for an address `s` whose back-to-back jump decodes to `T`,
`JumpStubStubManager::DoTraceStub(s)` returns `TRUE` with `Stub(T)`, from the address
alone; and `RangeSectionStubManager::DoTraceStub` gives the same for an address of kind
`STUB_CODE_BLOCK_JUMPSTUB`. -/
theorem JumpStub_round_trip (B : Build) (E : Env) (this : Ptr) (s T : PCODE)
    (t : TraceDestination) (hT : E.decodeBackToBackJump s = T) :
    JumpStubStubManager.DoTraceStub E s t = (true, InitForStub T) ∧
    (InitForStub T).address = T ∧
    (RangeSectionStubManager.GetStubKind E s = StubCodeBlockKind.STUB_CODE_BLOCK_JUMPSTUB →
      RangeSectionStubManager.DoTraceStub B E this s t = some (true, InitForStub T)) := by
  refine ⟨by simp [JumpStubStubManager.DoTraceStub, hT], rfl, ?_⟩
  intro hk
  simp [RangeSectionStubManager.DoTraceStub, hk, JumpStubStubManager.DoTraceStub, hT]

/-- Witness of C13: the jump stub at `700` of the example environment jumps to `7777`. -/
theorem JumpStub_round_trip_witness :
    exEnv.decodeBackToBackJump 700 = 7777 ∧
    JumpStubStubManager.DoTraceStub exEnv 700 (InitForOther 0) = (true, InitForStub 7777) ∧
    RangeSectionStubManager.DoTraceStub exBuild exEnv 12 700 (InitForOther 0) =
      some (true, InitForStub 7777) :=
  have h := JumpStub_round_trip exBuild exEnv 12 700 7777 (InitForOther 0) rfl
  ⟨rfl, h.1, h.2.2 (by decide)⟩

/-- C15: `StubLinkStubManager::DoTraceStub(a)` on the stub recovered at `a`: a
multicast delegate stub or an instantiating stub gives `TRUE` with
`ManagerPush(a, this)` whatever the patch offset; otherwise a non-zero patch offset
gives `TRUE` with `FramePush` of the patch address; otherwise it returns `FALSE` and the
destination is the one it was given. -/
theorem StubLink_DoTraceStub_cases (E : Env) (this : Ptr) (a : PCODE)
    (t : TraceDestination) :
    (E.StubIsMulticastDelegate (E.RecoverStub a) = true ∨
      E.StubIsInstantiatingStub (E.RecoverStub a) = true →
      StubLinkStubManager.DoTraceStub E this a t = (true, InitForManagerPush a this)) ∧
    (E.StubIsMulticastDelegate (E.RecoverStub a) = false →
      E.StubIsInstantiatingStub (E.RecoverStub a) = false →
      E.StubGetPatchOffset (E.RecoverStub a) ≠ 0 →
      StubLinkStubManager.DoTraceStub E this a t =
        (true, InitForFramePush (E.StubGetPatchAddress (E.RecoverStub a)))) ∧
    (E.StubIsMulticastDelegate (E.RecoverStub a) = false →
      E.StubIsInstantiatingStub (E.RecoverStub a) = false →
      E.StubGetPatchOffset (E.RecoverStub a) = 0 →
      StubLinkStubManager.DoTraceStub E this a t = (false, t)) := by
  refine ⟨?_, ?_, ?_⟩
  · intro h
    rcases h with h | h
    · simp [StubLinkStubManager.DoTraceStub, h]
    · simp only [StubLinkStubManager.DoTraceStub, h]
      split_ifs <;> rfl
  · intro h1 h2 h3
    simp [StubLinkStubManager.DoTraceStub, h1, h2, h3]
  · intro h1 h2 h3
    simp [StubLinkStubManager.DoTraceStub, h1, h2, h3]

/-- Witness of C15: the four stubs of the example environment. -/
theorem StubLink_DoTraceStub_cases_witness :
    StubLinkStubManager.DoTraceStub exEnv 11 600 (InitForOther 0) =
      (true, InitForManagerPush 600 11) ∧
    StubLinkStubManager.DoTraceStub exEnv 11 601 (InitForOther 0) =
      (true, InitForManagerPush 601 11) ∧
    StubLinkStubManager.DoTraceStub exEnv 11 602 (InitForOther 0) =
      (true, InitForFramePush 606) ∧
    StubLinkStubManager.DoTraceStub exEnv 11 603 (InitForOther 0) = (false, InitForOther 0) :=
  ⟨(StubLink_DoTraceStub_cases exEnv 11 600 (InitForOther 0)).1 (Or.inl rfl),
   (StubLink_DoTraceStub_cases exEnv 11 601 (InitForOther 0)).1 (Or.inr rfl),
   (StubLink_DoTraceStub_cases exEnv 11 602 (InitForOther 0)).2.1 rfl rfl (by decide),
   (StubLink_DoTraceStub_cases exEnv 11 603 (InitForOther 0)).2.2 rfl rfl rfl⟩

/-- C16: in the non-DAC build, `DoTraceStub(a)` of the IL stub manager, the interop
dispatch manager, the delegate invoke manager and the tail call manager returns `TRUE`
with a `ManagerPush` destination whose manager is the manager itself, so non-null; the
address pushed is `a`, except for an IL multicast stub, where it is the entry point of
the multicast debugger trace helper. -/
theorem DoTraceStub_manager_push (B : Build) (E : Env) (this : Ptr) (a : PCODE)
    (t : TraceDestination) (hdac : B.DACCESS_COMPILE = false) (hthis : this ≠ 0) :
    ILStubManager.DoTraceStub B E this a t =
      (true, InitForManagerPush
        (if B.FEATURE_MULTICASTSTUB_AS_IL = true ∧ E.GetCodeMethodDesc a ≠ 0 ∧
            E.IsMulticastStub (E.GetCodeMethodDesc a) = true
          then E.MulticastDebuggerTraceHelper else a) this) ∧
    InteropDispatchStubManager.DoTraceStub B this a t = (true, InitForManagerPush a this) ∧
    DelegateInvokeStubManager.DoTraceStub this a t = (true, InitForManagerPush a this) ∧
    TailCallStubManager.DoTraceStub this a t = (true, InitForManagerPush a this) ∧
    (∀ x : PCODE, (InitForManagerPush x this).type = TraceType.TRACE_MGR_PUSH ∧
      GetStubManager (InitForManagerPush x this) = this ∧
      GetStubManager (InitForManagerPush x this) ≠ 0 ∧
      (InitForManagerPush x this).address = x) := by
  refine ⟨?_, ?_, rfl, rfl, fun x => ⟨rfl, rfl, hthis, rfl⟩⟩
  · simp [ILStubManager.DoTraceStub, hdac]
  · simp [InteropDispatchStubManager.DoTraceStub, hdac]

/-- Witness of C16: the managers at `12` of the example build and environment, on the
address `5000`, which is not an IL multicast stub. -/
theorem DoTraceStub_manager_push_witness :
    exBuild.DACCESS_COMPILE = false ∧ (12 : Ptr) ≠ 0 ∧
    ILStubManager.DoTraceStub exBuild exEnv 12 5000 (InitForOther 0) =
      (true, InitForManagerPush 5000 12) ∧
    InteropDispatchStubManager.DoTraceStub exBuild 12 5000 (InitForOther 0) =
      (true, InitForManagerPush 5000 12) :=
  have h := DoTraceStub_manager_push exBuild exEnv 12 5000 (InitForOther 0) rfl (by decide)
  ⟨rfl, by decide, h.1, h.2.1⟩

/-- C20: `TailCallStubManager::TraceManager` always returns `TRUE`.  Stopped at the
entry of `JIT_TailCall` it takes the return address from the word at `ebp + 4` and
writes `ManagerPush(JIT_TailCallVSDLeave, this)` when bit `0x2` of the flags word at
`esp + JIT_TailCall_StackOffsetToFlags` is set, and `ManagerPush(JIT_TailCallLeave,
this)` otherwise.  Stopped elsewhere it writes `Stub` of the word at `esp`, with the
return address from `esp + 4` at `JIT_TailCallLeave` and from `ebp + 4` at
`JIT_TailCallVSDLeave`. -/
theorem TailCall_TraceManager_shapes (E : Env) (this : Ptr) (t : TraceDestination)
    (c : T_CONTEXT) :
    (TailCallStubManager.TraceManager E this t c).1 = true ∧
    (c.GetIP = E.JIT_TailCall →
      (TailCallStubManager.TraceManager E this t c).2.2 = E.readWord ((c.GetFP + 4) % 2 ^ 32) ∧
      ((E.readWord ((c.GetSP + E.JIT_TailCall_StackOffsetToFlags) % 2 ^ 32)).testBit 1 = true →
        (TailCallStubManager.TraceManager E this t c).2.1 =
          InitForManagerPush E.JIT_TailCallVSDLeave this) ∧
      ((E.readWord ((c.GetSP + E.JIT_TailCall_StackOffsetToFlags) % 2 ^ 32)).testBit 1 = false →
        (TailCallStubManager.TraceManager E this t c).2.1 =
          InitForManagerPush E.JIT_TailCallLeave this)) ∧
    (c.GetIP ≠ E.JIT_TailCall →
      (TailCallStubManager.TraceManager E this t c).2.1 = InitForStub (E.readWord c.GetSP) ∧
      (c.GetIP = E.JIT_TailCallLeave →
        (TailCallStubManager.TraceManager E this t c).2.2 =
          E.readWord ((c.GetSP + 4) % 2 ^ 32)) ∧
      (c.GetIP = E.JIT_TailCallVSDLeave → E.JIT_TailCallVSDLeave ≠ E.JIT_TailCallLeave →
        (TailCallStubManager.TraceManager E this t c).2.2 =
          E.readWord ((c.GetFP + 4) % 2 ^ 32))) := by
  refine ⟨?_, ?_, ?_⟩
  · simp only [TailCallStubManager.TraceManager]
    split_ifs <;> rfl
  · intro hip
    refine ⟨?_, ?_, ?_⟩
    · simp only [TailCallStubManager.TraceManager, hip, if_true]
      split_ifs <;> rfl
    · intro hb
      have := (and_two_ne_zero _).mpr hb
      simp only [TailCallStubManager.TraceManager, hip, if_true]
      rw [if_pos this]
    · intro hb
      have : ¬ (E.readWord ((c.GetSP + E.JIT_TailCall_StackOffsetToFlags) % 2 ^ 32) &&& 2 ≠ 0) :=
        fun h => by rw [(and_two_ne_zero _).mp h] at hb; exact Bool.noConfusion hb
      simp only [TailCallStubManager.TraceManager, hip, if_true]
      rw [if_neg this]
  · intro hip
    refine ⟨?_, ?_, ?_⟩
    · simp only [TailCallStubManager.TraceManager, if_neg hip]
    · intro h
      simp only [TailCallStubManager.TraceManager, if_neg hip, if_pos h]
    · intro h hne
      have : c.GetIP ≠ E.JIT_TailCallLeave := h ▸ hne
      simp only [TailCallStubManager.TraceManager, if_neg hip, if_neg this]

/-- Witness of C20: the example environment, stopped at the entry of `JIT_TailCall` with
the flags word `6`, and stopped at `JIT_TailCallLeave`. -/
theorem TailCall_TraceManager_shapes_witness :
    (TailCallStubManager.TraceManager exEnv 12 (InitForOther 0)
        { exContext with GetIP := 3000 }).2.1 = InitForManagerPush 3020 12 ∧
    (TailCallStubManager.TraceManager exEnv 12 (InitForOther 0)
        { exContext with GetIP := 3000 }).2.2 = 42 ∧
    TailCallStubManager.TraceManager exEnv 12 (InitForOther 0)
        { exContext with GetIP := 3010 } = (true, InitForStub 7777, 41) :=
  have h1 := (TailCall_TraceManager_shapes exEnv 12 (InitForOther 0)
    { exContext with GetIP := 3000 }).2.1 rfl
  ⟨h1.2.1 (by decide), h1.1, by decide⟩

/-- C14, as the claim states it, fails: the precode of type stub at `4096` of the
example environment points to the prestub, its method is neither IL nor an IL stub,
and `PrecodeStubManager::DoTraceStub` returns a `Stub` destination, the prestub entry
point, and no `UnjittedMethod` destination. -/
theorem Precode_prestub_gives_stub :
    exEnv.PrecodeGetType (PrecodeStubManager.findPrecode exBuild exEnv 4096) =
      PrecodeType.PRECODE_STUB ∧
    exEnv.PrecodeIsPointingToPrestub (PrecodeStubManager.findPrecode exBuild exEnv 4096)
      (exEnv.PrecodeGetTarget (PrecodeStubManager.findPrecode exBuild exEnv 4096)) = true ∧
    PrecodeStubManager.DoTraceStub exBuild exEnv 4096 (InitForOther 0) =
      (true, InitForStub 9000) ∧
    (PrecodeStubManager.DoTraceStub exBuild exEnv 4096 (InitForOther 0)).2.type =
      TraceType.TRACE_STUB ∧
    (PrecodeStubManager.DoTraceStub exBuild exEnv 4096 (InitForOther 0)).2.type ≠
      TraceType.TRACE_UNJITTED_METHOD := by
  decide

/-- C14, amended: for an address that is not a compact entry point and whose precode is
of stub, fixup or this-pointer/return-buffer type, `PrecodeStubManager::DoTraceStub`
returns `TRUE` with `Stub(target)` when the target does not point to the prestub; when
it does, with the `UnjittedMethod` destination of the method of the precode if that
method is IL or an IL stub, and with `Stub` of the prestub entry point if it is
neither. -/
theorem Precode_DoTraceStub_cases (B : Build) (E : Env) (a : PCODE) (t : TraceDestination)
    (hc : (B.HAS_COMPACT_ENTRYPOINTS && E.IsCompactEntryPointAtAddress a) = false)
    (hty : E.PrecodeGetType (PrecodeStubManager.findPrecode B E a) = PrecodeType.PRECODE_STUB ∨
      E.PrecodeGetType (PrecodeStubManager.findPrecode B E a) = PrecodeType.PRECODE_FIXUP ∨
      E.PrecodeGetType (PrecodeStubManager.findPrecode B E a) =
        PrecodeType.PRECODE_THISPTR_RETBUF) :
    (E.PrecodeIsPointingToPrestub (PrecodeStubManager.findPrecode B E a)
        (E.PrecodeGetTarget (PrecodeStubManager.findPrecode B E a)) = false →
      PrecodeStubManager.DoTraceStub B E a t =
        (true, InitForStub (E.PrecodeGetTarget (PrecodeStubManager.findPrecode B E a)))) ∧
    (E.PrecodeIsPointingToPrestub (PrecodeStubManager.findPrecode B E a)
        (E.PrecodeGetTarget (PrecodeStubManager.findPrecode B E a)) = true →
      (E.IsIL (E.PrecodeGetMethodDesc (PrecodeStubManager.findPrecode B E a)) = true ∨
        E.IsILStub (E.PrecodeGetMethodDesc (PrecodeStubManager.findPrecode B E a)) = true →
        PrecodeStubManager.DoTraceStub B E a t =
          (true, InitForUnjittedMethod B E
            (E.PrecodeGetMethodDesc (PrecodeStubManager.findPrecode B E a)))) ∧
      (E.IsIL (E.PrecodeGetMethodDesc (PrecodeStubManager.findPrecode B E a)) = false →
        E.IsILStub (E.PrecodeGetMethodDesc (PrecodeStubManager.findPrecode B E a)) = false →
        PrecodeStubManager.DoTraceStub B E a t = (true, InitForStub E.GetPreStubEntryPoint))) := by
  have hnd : ¬ (B.HAS_NDIRECT_IMPORT_PRECODE = true ∧
      E.PrecodeGetType (PrecodeStubManager.findPrecode B E a) =
        PrecodeType.PRECODE_NDIRECT_IMPORT) := by
    rintro ⟨_, h⟩
    rcases hty with h1 | h1 | h1 <;> rw [h1] at h <;> cases h
  refine ⟨?_, ?_⟩
  · intro hp
    simp only [PrecodeStubManager.DoTraceStub, hc, if_neg hnd, hp]
    rfl
  · intro hp
    refine ⟨?_, ?_⟩
    · intro hil
      simp only [PrecodeStubManager.DoTraceStub, hc, if_neg hnd, hp,
        PrecodeStubManager.traceMethodDesc]
      rcases hil with h | h <;> simp [h]
    · intro h1 h2
      simp [PrecodeStubManager.DoTraceStub, hc, if_neg hnd, hp,
        PrecodeStubManager.traceMethodDesc, h1, h2]

/-- Witness of C14, amended: the fixup precode at `4200` of the example environment
points to the prestub and its method `6` is IL. -/
theorem Precode_DoTraceStub_cases_witness :
    PrecodeStubManager.DoTraceStub exBuild exEnv 4200 (InitForOther 0) =
      (true, InitForUnjittedMethod exBuild exEnv 6) ∧
    PrecodeStubManager.DoTraceStub exBuild exEnv 4300 (InitForOther 0) =
      (true, InitForStub 7777) :=
  ⟨((Precode_DoTraceStub_cases exBuild exEnv 4200 (InitForOther 0) rfl
      (Or.inr (Or.inl (by decide)))).2 (by decide)).1 (Or.inl (by decide)),
   (Precode_DoTraceStub_cases exBuild exEnv 4300 (InitForOther 0) rfl
      (Or.inl (by decide))).1 (by decide)⟩

/-- C18: what `ILStubManager::TraceManager` does for a stub that takes a method
descriptor as hidden argument (and is no multicast, reverse, delegate, CALLI or
step-through stub) when the descriptor is not a P/Invoke and the this pointer is null
or COM interop is not compiled in: it returns `TRUE`, and the destination is the one it
was given, with nothing written. -/
theorem ILStub_TraceManager_unwritten (B : Build) (E : Env) (W : World) (R : Registry)
    (fuelT fuel : Nat) (t : TraceDestination) (c : T_CONTEXT)
    (hmc : (B.FEATURE_MULTICASTSTUB_AS_IL &&
      E.IsMulticastStub (ILStubManager.stubMethodDesc B E c)) = false)
    (hrev : E.IsReverseStub (ILStubManager.stubMethodDesc B E c) = false)
    (hdel : E.HasFlagIsDelegate (ILStubManager.stubMethodDesc B E c) = false)
    (hcalli : E.HasFlagIsCALLI (ILStubManager.stubMethodDesc B E c) = false)
    (hstep : E.IsStepThroughStub (ILStubManager.stubMethodDesc B E c) = false)
    (hmd : E.HasMDContextArg (ILStubManager.stubMethodDesc B E c) = true)
    (hnd : E.IsNDirect c.GetHiddenArg = false)
    (hcom : B.FEATURE_COMINTEROP = false ∨ c.GetThisPtr = 0) :
    ILStubManager.TraceManager B E W R fuelT fuel t c =
      some { result := true, trace := t,
             retAddr :=
               if (B.FEATURE_MULTICASTSTUB_AS_IL &&
                   c.GetIP == E.MulticastDebuggerTraceHelper) = true
                 then c.GetRetAddrFromMulticastILStubFrame else c.GetReturnAddress,
             calls := [] } := by
  have hcom1 : (B.FEATURE_COMINTEROP && c.GetThisPtr != 0) = false := by
    rcases hcom with h | h <;> simp [h]
  unfold ILStubManager.stubMethodDesc at hmc hrev hdel hcalli hstep hmd
  simp only [ILStubManager.TraceManager, hmc, hrev, hdel, hcalli, hstep, hmd, hnd, hcom1]
  rfl

/-- Witness of C18: in the example environment, stopped in the IL stub at `5000` with
the method descriptor `21`, which is not a P/Invoke, as hidden argument and a null this
pointer, `TraceManager` returns `TRUE` and leaves the destination it was given. -/
theorem ILStub_TraceManager_unwritten_witness :
    ILStubManager.TraceManager exBuild exEnv exWorld exRegistry 4 4 (InitForStub 77)
        exContext =
      some { result := true, trace := InitForStub 77, retAddr := 5555, calls := [] } :=
  ILStub_TraceManager_unwritten exBuild exEnv exWorld exRegistry 4 4 (InitForStub 77)
    exContext rfl rfl rfl rfl rfl rfl rfl (Or.inr rfl)

/-- Every way in which `ILStubManager::TraceManager` returns `TRUE`: it wrote a
`Managed` or an `Unmanaged` destination, or it returned what `TraceDelegateObject`
returned for a multicast stub, or it wrote nothing for a stub with a method descriptor
argument that is not a P/Invoke. -/
theorem ILStub_TraceManager_true_cases (B : Build) (E : Env) (W : World) (R : Registry)
    (fuelT fuel : Nat) (t : TraceDestination) (c : T_CONTEXT) (r : TraceManagerResult)
    (h : ILStubManager.TraceManager B E W R fuelT fuel t c = some r)
    (hr : r.result = true) :
    r.trace.type = TraceType.TRACE_MANAGED ∨ r.trace.type = TraceType.TRACE_UNMANAGED ∨
    (B.FEATURE_MULTICASTSTUB_AS_IL &&
      E.IsMulticastStub (ILStubManager.stubMethodDesc B E c)) = true ∨
    (r.trace = t ∧ E.HasMDContextArg (ILStubManager.stubMethodDesc B E c) = true ∧
      E.IsNDirect c.GetHiddenArg = false ∧
      (B.FEATURE_COMINTEROP = false ∨ c.GetThisPtr = 0)) := by
  unfold ILStubManager.stubMethodDesc
  by_cases h1 : (B.FEATURE_MULTICASTSTUB_AS_IL && E.IsMulticastStub (E.Entry2MethodDesc
      (if (B.FEATURE_MULTICASTSTUB_AS_IL && c.GetIP == E.MulticastDebuggerTraceHelper) = true
        then c.GetReturnAddress else c.GetIP))) = true
  · exact Or.inr (Or.inr (Or.inl h1))
  rw [Bool.not_eq_true] at h1
  by_cases h2 : E.IsReverseStub (E.Entry2MethodDesc
      (if (B.FEATURE_MULTICASTSTUB_AS_IL && c.GetIP == E.MulticastDebuggerTraceHelper) = true
        then c.GetReturnAddress else c.GetIP)) = true
  · simp only [ILStubManager.TraceManager, h1, h2, if_true, Bool.false_eq_true, if_false,
      Option.some.injEq] at h
    subst h
    exact Or.inl rfl
  rw [Bool.not_eq_true] at h2
  by_cases h3 : E.HasFlagIsDelegate (E.Entry2MethodDesc
      (if (B.FEATURE_MULTICASTSTUB_AS_IL && c.GetIP == E.MulticastDebuggerTraceHelper) = true
        then c.GetReturnAddress else c.GetIP)) = true
  · simp only [ILStubManager.TraceManager, h1, h2, h3, if_true, Bool.false_eq_true, if_false,
      Option.some.injEq] at h
    subst h
    exact Or.inr (Or.inl rfl)
  rw [Bool.not_eq_true] at h3
  by_cases h4 : E.HasFlagIsCALLI (E.Entry2MethodDesc
      (if (B.FEATURE_MULTICASTSTUB_AS_IL && c.GetIP == E.MulticastDebuggerTraceHelper) = true
        then c.GetReturnAddress else c.GetIP)) = true
  · simp only [ILStubManager.TraceManager, h1, h2, h3, h4, if_true, Bool.false_eq_true,
      if_false, Option.some.injEq] at h
    subst h
    exact Or.inr (Or.inl rfl)
  rw [Bool.not_eq_true] at h4
  by_cases h5 : E.IsStepThroughStub (E.Entry2MethodDesc
      (if (B.FEATURE_MULTICASTSTUB_AS_IL && c.GetIP == E.MulticastDebuggerTraceHelper) = true
        then c.GetReturnAddress else c.GetIP)) = true
  · simp only [ILStubManager.TraceManager, h1, h2, h3, h4, h5, if_true, Bool.false_eq_true,
      if_false] at h
    split_ifs at h
    all_goals (rw [Option.some.injEq] at h; subst h)
    all_goals first
      | exact Or.inl rfl
      | exact absurd hr (by simp)
  rw [Bool.not_eq_true] at h5
  by_cases h6 : E.HasMDContextArg (E.Entry2MethodDesc
      (if (B.FEATURE_MULTICASTSTUB_AS_IL && c.GetIP == E.MulticastDebuggerTraceHelper) = true
        then c.GetReturnAddress else c.GetIP)) = true
  · simp only [ILStubManager.TraceManager, h1, h2, h3, h4, h5, h6, if_true,
      Bool.false_eq_true, if_false] at h
    have hcom : ∀ b : Bool, ¬ ((B.FEATURE_COMINTEROP && b) = true) →
        B.FEATURE_COMINTEROP = false ∨ b = false := by
      intro b hb
      cases hB : B.FEATURE_COMINTEROP
      · exact Or.inl rfl
      · right
        cases b
        · rfl
        · exact absurd (by simp [hB]) hb
    by_cases h7 : E.IsNDirect c.GetHiddenArg = true
    · simp only [h7, if_true] at h
      split_ifs at h
      all_goals (rw [Option.some.injEq] at h; subst h; exact Or.inr (Or.inl rfl))
    · rw [Bool.not_eq_true] at h7
      simp only [h7, Bool.false_eq_true, if_false] at h
      by_cases h8 : (B.FEATURE_COMINTEROP && c.GetThisPtr != 0) = true
      · simp only [h8, if_true] at h
        split_ifs at h
        all_goals (rw [Option.some.injEq] at h; subst h; exact Or.inr (Or.inl rfl))
      · have h9 := hcom _ h8
        have h8f := Bool.eq_false_iff.mpr h8
        simp only [h8f, Bool.false_eq_true, if_false] at h
        have hthis : B.FEATURE_COMINTEROP = false ∨ c.GetThisPtr = 0 := by
          rcases h9 with h9 | h9
          · exact Or.inl h9
          · right
            simpa using h9
        split_ifs at h
        all_goals (rw [Option.some.injEq] at h; subst h)
        all_goals exact Or.inr (Or.inr (Or.inr ⟨rfl, h6, h7, hthis⟩))
  rw [Bool.not_eq_true] at h6
  simp only [ILStubManager.TraceManager, h1, h2, h3, h4, h5, h6, if_true, Bool.false_eq_true,
    if_false, Option.some.injEq] at h
  subst h
  exact absurd hr (by simp)

/-! ## FindStubManager and IsSingleOwner on a well-formed list -/

theorem IsSingleOwnerLoop_pending (W : World) (R : Registry) (a : PCODE) (p : Ptr)
    (rest : List Ptr) :
    ∀ (fuel : Nat) (it : StubManagerIterator) (s : OwnerScan), Pending R it rest →
      rest.length + 2 ≤ fuel →
      IsSingleOwnerLoop W R a p fuel it s =
        some (IsSingleOwnerOn W a p (rest ++ W.distinguished) s) := by
  induction rest with
  | nil =>
      intro fuel it s hp hf
      obtain ⟨f1, rfl⟩ : ∃ f1, fuel = f1 + 2 := ⟨fuel - 2, by simp at hf; omega⟩
      by_cases hV : W.GlobalManager = 0
      · simp [IsSingleOwnerLoop, Next_pending_nil_null W R it hp hV, World.distinguished, hV,
          IsSingleOwnerOn]
      · have hn := Next_pending_nil W R it hp hV
        simp only [IsSingleOwnerLoop, hn, World.distinguished, hV, List.nil_append,
          IsSingleOwnerOn, Current, if_true, if_false]
        rw [Next_distinguished W R _ rfl]
        simp
  | cons x xs ih =>
      intro fuel it s hp hf
      obtain ⟨f1, rfl⟩ : ∃ f1, fuel = f1 + 1 := ⟨fuel - 1, by simp at hf; omega⟩
      obtain ⟨hn, hp1⟩ := Next_pending_cons W R it x xs hp
      simp only [IsSingleOwnerLoop, hn, Current, if_true, List.cons_append, IsSingleOwnerOn]
      exact ih f1 _ _ hp1 (by simp at hf; omega)

theorem FindStubManagerLoop_pending (W : World) (R : Registry) (a : PCODE)
    (rest : List Ptr) :
    ∀ (fuel : Nat) (it : StubManagerIterator), Pending R it rest → rest.length + 2 ≤ fuel →
      FindStubManagerLoop W R a fuel it =
        some (FindStubManagerOn W a (rest ++ W.distinguished)) := by
  induction rest with
  | nil =>
      intro fuel it hp hf
      obtain ⟨f1, rfl⟩ : ∃ f1, fuel = f1 + 2 := ⟨fuel - 2, by simp at hf; omega⟩
      by_cases hV : W.GlobalManager = 0
      · simp [FindStubManagerLoop, Next_pending_nil_null W R it hp hV, World.distinguished, hV,
          FindStubManagerOn]
      · have hn := Next_pending_nil W R it hp hV
        simp only [FindStubManagerLoop, hn, World.distinguished, hV, List.nil_append,
          FindStubManagerOn, Current, if_true, if_false]
        by_cases hc : (CheckIsStub_Worker W W.GlobalManager a).1 = true
        · simp [hc]
        · simp only [hc, if_false]
          rw [Next_distinguished W R _ rfl]
          simp
  | cons x xs ih =>
      intro fuel it hp hf
      obtain ⟨f1, rfl⟩ : ∃ f1, fuel = f1 + 1 := ⟨fuel - 1, by simp at hf; omega⟩
      obtain ⟨hn, hp1⟩ := Next_pending_cons W R it x xs hp
      simp only [FindStubManagerLoop, hn, Current, if_true, List.cons_append,
        FindStubManagerOn]
      by_cases hc : (CheckIsStub_Worker W x a).1 = true
      · simp [hc]
      · simp only [hc, if_false]
        exact ih f1 _ hp1 (by simp at hf; omega)

theorem FindStubManagerOn_first (W : World) (a : PCODE) (p : Ptr) (post : List Ptr)
    (hp : (CheckIsStub_Worker W p a).1 = true) :
    ∀ pre : List Ptr, (∀ q ∈ pre, (CheckIsStub_Worker W q a).1 = false) →
      FindStubManagerOn W a (pre ++ p :: post) = p := by
  intro pre
  induction pre with
  | nil => intro _; simp [FindStubManagerOn, hp]
  | cons x xs ih =>
      intro hpre
      have hx : (CheckIsStub_Worker W x a).1 = false := hpre x (List.mem_cons_self _ _)
      simp only [List.cons_append, FindStubManagerOn, hx, Bool.false_eq_true, if_false]
      exact ih (fun q hq => hpre q (List.mem_cons_of_mem _ hq))

/-- Before the owner is found, the managers that are not the owner leave the locals of
`IsSingleOwner` as they are. -/
theorem IsSingleOwnerOn_before (W : World) (a : PCODE) (p : Ptr) (rest : List Ptr) :
    ∀ (pre : List Ptr) (s : OwnerScan), s.ownerFound = false → p ∉ pre →
      IsSingleOwnerOn W a p (pre ++ rest) s = IsSingleOwnerOn W a p rest s := by
  intro pre
  induction pre with
  | nil => intro s _ _; rfl
  | cons x xs ih =>
      intro s hs hp
      have hx : x ≠ p := fun e => hp (e ▸ List.mem_cons_self _ _)
      have hv : OwnerScan.visit W a p s x = s := by
        simp [OwnerScan.visit, hs, hx]
      simp only [List.cons_append, IsSingleOwnerOn, hv]
      exact ih s hs (fun h => hp (List.mem_cons_of_mem _ h))

/-- After the owner is found, the scan returns `TRUE` exactly when the count is one and
no later manager claims the address, and its assertions hold exactly when they held
before and no later manager claims the address. -/
theorem IsSingleOwnerOn_after (W : World) (a : PCODE) (p : Ptr) :
    ∀ (post : List Ptr) (s : OwnerScan), s.ownerFound = true → p ∉ post → 1 ≤ s.count →
      ((IsSingleOwnerOn W a p post s).1 = true ↔
        s.count = 1 ∧ ∀ q ∈ post, (CheckIsStub_Worker W q a).1 = false) ∧
      ((IsSingleOwnerOn W a p post s).2 = true ↔
        s.checks = true ∧ ∀ q ∈ post, (CheckIsStub_Worker W q a).1 = false) := by
  intro post
  induction post with
  | nil =>
      intro s hs _ _
      simp [IsSingleOwnerOn, hs]
  | cons x xs ih =>
      intro s hs hp hc
      have hx : x ≠ p := fun e => hp (e ▸ List.mem_cons_self _ _)
      have hxs : p ∉ xs := fun h => hp (List.mem_cons_of_mem _ h)
      by_cases hcl : (CheckIsStub_Worker W x a).1 = true
      · have hv : OwnerScan.visit W a p s x =
            { ownerFound := true, count := s.count + 1, checks := false } := by
          simp [OwnerScan.visit, hs, hx, hcl]
        simp only [IsSingleOwnerOn]
        rw [hv]
        obtain ⟨h1, h2⟩ := ih { ownerFound := true, count := s.count + 1, checks := false }
          rfl hxs (by simp)
        rw [h1, h2]
        constructor
        · constructor
          · rintro ⟨h, _⟩
            simp at h
            omega
          · rintro ⟨_, h⟩
            have := h x (List.mem_cons_self _ _)
            rw [hcl] at this
            cases this
        · constructor
          · rintro ⟨h, _⟩
            cases h
          · rintro ⟨_, h⟩
            have := h x (List.mem_cons_self _ _)
            rw [hcl] at this
            cases this
      · rw [Bool.not_eq_true] at hcl
        have hv : OwnerScan.visit W a p s x =
            { ownerFound := true, count := s.count, checks := s.checks } := by
          simp [OwnerScan.visit, hs, hx, hcl]
        simp only [IsSingleOwnerOn]
        rw [hv]
        obtain ⟨h1, h2⟩ := ih { ownerFound := true, count := s.count, checks := s.checks }
          rfl hxs hc
        rw [h1, h2]
        constructor
        · constructor
          · rintro ⟨h, hall⟩
            refine ⟨h, ?_⟩
            intro q hq
            rcases List.mem_cons.mp hq with rfl | hq1
            · exact hcl
            · exact hall q hq1
          · rintro ⟨h, hall⟩
            exact ⟨h, fun q hq => hall q (List.mem_cons_of_mem _ hq)⟩
        · constructor
          · rintro ⟨h, hall⟩
            refine ⟨h, ?_⟩
            intro q hq
            rcases List.mem_cons.mp hq with rfl | hq1
            · exact hcl
            · exact hall q hq1
          · rintro ⟨h, hall⟩
            exact ⟨h, fun q hq => hall q (List.mem_cons_of_mem _ hq)⟩

theorem distinguished_ne_zero (W : World) : ∀ q ∈ W.distinguished, q ≠ 0 := by
  intro q hq
  unfold World.distinguished at hq
  split_ifs at hq with h
  · simp at hq
  · rw [List.mem_singleton] at hq
    rw [hq]
    exact h

theorem order_nodup (W : World) (R : Registry) (L : List Ptr) (hL : R.IsList L)
    (hV : W.GlobalManager ∉ L) : (L ++ W.distinguished).Nodup := by
  refine List.nodup_append.mpr ⟨Chain_nodup R L _ hL, ?_, ?_⟩
  · unfold World.distinguished
    split_ifs
    · exact List.nodup_nil
    · exact List.nodup_singleton _
  · intro q hq hq1
    unfold World.distinguished at hq1
    split_ifs at hq1
    · simp at hq1
    · rw [List.mem_singleton] at hq1
      exact hV (hq1 ▸ hq)

/-- C12: on a registry whose ordinary list is `L` and does not hold the distinguished
manager, for the first manager `p` in iteration order that claims `a` (the one that
`FindStubManager` returns and `TraceStub` passes), `IsSingleOwner(a, p)` returns `TRUE`
if and only if every registered manager, ordinary or distinguished, that claims `a`
through `CheckIsStub_Worker` is `p`; and its assertions hold in exactly the same
case. -/
theorem IsSingleOwner_iff (W : World) (R : Registry) (L : List Ptr) (a : PCODE) (p : Ptr)
    (fuel : Nat) (pre post : List Ptr) (hL : R.IsList L) (hV : W.GlobalManager ∉ L)
    (hf : L.length + 2 ≤ fuel) (hsplit : L ++ W.distinguished = pre ++ p :: post)
    (hpre : ∀ q ∈ pre, (CheckIsStub_Worker W q a).1 = false)
    (hp : (CheckIsStub_Worker W p a).1 = true) :
    FindStubManager W R fuel a = some p ∧
    ∃ b ok, IsSingleOwner W R fuel a p = some (b, ok) ∧
      (b = true ↔
        ∀ q ∈ L ++ W.distinguished, (CheckIsStub_Worker W q a).1 = true → q = p) ∧
      (ok = true ↔
        ∀ q ∈ L ++ W.distinguished, (CheckIsStub_Worker W q a).1 = true → q = p) := by
  have hnd : (pre ++ p :: post).Nodup := hsplit ▸ order_nodup W R L hL hV
  have hppre : p ∉ pre := fun h => by
    have := hpre p h
    rw [hp] at this
    cases this
  have hppost : p ∉ post := (List.nodup_cons.mp (List.nodup_append.mp hnd).2.1).1
  have hp0 : p ≠ 0 := by
    have hmem : p ∈ L ++ W.distinguished := by
      rw [hsplit]
      exact List.mem_append_right _ (List.mem_cons_self _ _)
    rcases List.mem_append.mp hmem with h | h
    · exact Chain_ne_zero R L _ hL p h
    · exact distinguished_ne_zero W p h
  have hall : (∀ q ∈ post, (CheckIsStub_Worker W q a).1 = false) ↔
      ∀ q ∈ L ++ W.distinguished, (CheckIsStub_Worker W q a).1 = true → q = p := by
    rw [hsplit]
    constructor
    · intro h q hq hc
      rcases List.mem_append.mp hq with h1 | h1
      · have := hpre q h1
        rw [hc] at this
        cases this
      · rcases List.mem_cons.mp h1 with h2 | h2
        · exact h2
        · have := h q h2
          rw [hc] at this
          cases this
    · intro h q hq
      by_contra hc
      rw [Bool.not_eq_false] at hc
      have hqp := h q (List.mem_append_right _ (List.mem_cons_of_mem _ hq)) hc
      exact hppost (hqp ▸ hq)
  constructor
  · unfold FindStubManager
    rw [FindStubManagerLoop_pending W R a L fuel _ (pending_new R L hL) hf, hsplit,
      FindStubManagerOn_first W a p post hp pre hpre]
  · have hrun : IsSingleOwner W R fuel a p =
        some (IsSingleOwnerOn W a p post { ownerFound := true, count := 1, checks := true }) := by
      unfold IsSingleOwner
      rw [IsSingleOwnerLoop_pending W R a p L fuel _ _ (pending_new R L hL) hf, hsplit,
        IsSingleOwnerOn_before W a p (p :: post) pre _ rfl hppre]
      have hb : (p != 0) = true := by simp [hp0]
      simp [IsSingleOwnerOn, OwnerScan.visit, hp, hb]
    obtain ⟨h1, h2⟩ := IsSingleOwnerOn_after W a p post
      { ownerFound := true, count := 1, checks := true } rfl hppost (le_refl 1)
    refine ⟨_, _, hrun, ?_, ?_⟩
    · rw [h1, ← hall]
      simp
    · rw [h2, ← hall]
      simp

/-- Witness of C12: in the example world the manager `10` is the first and only one
that claims the address `200`, and `IsSingleOwner` returns `TRUE`; the address `100` is
claimed by `20` and by `10`, and `IsSingleOwner(100, 20)` returns `FALSE`. -/
theorem IsSingleOwner_iff_witness :
    exRegistry.IsList [20, 10] ∧ exWorld.GlobalManager ∉ [20, 10] ∧
    FindStubManager exWorld exRegistry 4 200 = some 10 ∧
    IsSingleOwner exWorld exRegistry 4 200 10 = some (true, true) ∧
    IsSingleOwner exWorld exRegistry 4 100 20 = some (false, false) :=
  ⟨by decide, by decide,
    (IsSingleOwner_iff exWorld exRegistry [20, 10] 200 10 4 [20] [30] (by decide) (by decide)
      (by decide) (by decide) (by decide) (by decide)).1,
    by decide, by decide⟩

/-! ## Claimed addresses that are not resolved -/

theorem TraceStubOn_unclaimed_eq (W : World) (a : PCODE) (t1 t2 : TraceDestination) :
    ∀ order : List Ptr, (∀ q ∈ order, (CheckIsStub_Worker W q a).1 = false) →
      TraceStubOn W a t1 order = TraceStubOn W a t2 order := by
  intro order
  induction order with
  | nil => intro _; rfl
  | cons x xs ih =>
      intro hall
      have hx : (CheckIsStub_Worker W x a).1 = false := hall x (List.mem_cons_self _ _)
      simp only [TraceStubOn, hx, Bool.false_eq_true, if_false]
      rw [ih (fun q hq => hall q (List.mem_cons_of_mem _ hq))]

theorem TraceStubOn_first_eq (W : World) (a : PCODE) (t1 t2 : TraceDestination) (p : Ptr)
    (post : List Ptr) (hp : (CheckIsStub_Worker W p a).1 = true)
    (heq : W.DoTraceStub p a t1 = W.DoTraceStub p a t2) :
    ∀ pre : List Ptr, (∀ q ∈ pre, (CheckIsStub_Worker W q a).1 = false) →
      TraceStubOn W a t1 (pre ++ p :: post) = TraceStubOn W a t2 (pre ++ p :: post) := by
  intro pre
  induction pre with
  | nil =>
      intro _
      simp only [List.nil_append, TraceStubOn, hp, if_true, heq]
  | cons x xs ih =>
      intro hpre
      have hx : (CheckIsStub_Worker W x a).1 = false := hpre x (List.mem_cons_self _ _)
      have hrec := ih (fun q hq => hpre q (List.mem_cons_of_mem _ hq))
      show TraceStubOn W a t1 (x :: (xs ++ p :: post)) = TraceStubOn W a t2 (x :: (xs ++ p :: post))
      simp only [TraceStubOn, hx, Bool.false_eq_true, if_false]
      rw [hrec]

/-- C17: on a registry whose ordinary list is `L`, when the first manager that claims
`a` has a `DoTraceStub(a)` that returns `FALSE` and writes nothing, `TraceStub(a)`
returns `FALSE` (and leaves the destination), and `FollowTrace` started on a destination
`Stub(a)` returns `FALSE` with `Other(a)` after exactly one `TraceStub` call.  Such are
`ThunkHeapStubManager::DoTraceStub` always, `RangeSectionStubManager::DoTraceStub` for
the virtual-method-thunk and external-method-thunk kinds, and
`StubLinkStubManager::DoTraceStub` for a stub that is neither multicast nor
instantiating and has no patch offset. -/
theorem TraceStub_unresolved (W : World) (R : Registry) (L : List Ptr) (a : PCODE)
    (t d : TraceDestination) (fuelT fuel : Nat) (pre : List Ptr) (p : Ptr)
    (post : List Ptr) (hL : R.IsList L) (hfT : L.length + 2 ≤ fuelT) (hf : 2 ≤ fuel)
    (hsplit : L ++ W.distinguished = pre ++ p :: post)
    (hpre : ∀ q ∈ pre, (CheckIsStub_Worker W q a).1 = false)
    (hp : (CheckIsStub_Worker W p a).1 = true)
    (hfail : ∀ t1 : TraceDestination, W.DoTraceStub p a t1 = (false, t1))
    (hd : d.type = TraceType.TRACE_STUB) (hda : d.address = a) :
    (∃ calls, TraceStub W R fuelT a t = some (false, t, calls)) ∧
    (∃ calls, FollowTrace W R fuelT fuel d = some (false, InitForOther a, calls) ∧
      traceStubCalls calls = [a]) ∧
    (∀ (a1 : PCODE) (t1 : TraceDestination),
      ThunkHeapStubManager.DoTraceStub a1 t1 = (false, t1)) ∧
    (∀ (B : Build) (E : Env) (this : Ptr) (a1 : PCODE) (t1 : TraceDestination),
      RangeSectionStubManager.GetStubKind E a1 =
          StubCodeBlockKind.STUB_CODE_BLOCK_VIRTUAL_METHOD_THUNK ∨
        RangeSectionStubManager.GetStubKind E a1 =
          StubCodeBlockKind.STUB_CODE_BLOCK_EXTERNAL_METHOD_THUNK →
      RangeSectionStubManager.DoTraceStub B E this a1 t1 = some (false, t1)) ∧
    (∀ (E : Env) (this : Ptr) (a1 : PCODE) (t1 : TraceDestination),
      E.StubIsMulticastDelegate (E.RecoverStub a1) = false →
      E.StubIsInstantiatingStub (E.RecoverStub a1) = false →
      E.StubGetPatchOffset (E.RecoverStub a1) = 0 →
      StubLinkStubManager.DoTraceStub E this a1 t1 = (false, t1)) := by
  have key : ∀ t1 : TraceDestination, ∃ calls,
      TraceStub W R fuelT a t1 = some (false, t1, calls) := by
    intro t1
    rw [TraceStub_eq_on W R L a t1 fuelT hL hfT, hsplit]
    obtain ⟨calls, h1, _⟩ := TraceStubOn_first W a t1 p post hp pre hpre
    rw [hfail t1] at h1
    exact ⟨calls, by rw [h1]⟩
  refine ⟨key t, ?_, fun _ _ => rfl, ?_, ?_⟩
  · obtain ⟨f1, rfl⟩ : ∃ f1, fuel = f1 + 2 := ⟨fuel - 2, by omega⟩
    obtain ⟨calls, h1⟩ := key d
    subst hda
    refine ⟨Call.TraceStub d.address :: (calls ++ []), ?_, ?_⟩
    · rw [FollowTrace_stub W R fuelT (f1 + 1) d d false calls hd h1]
      have hstep : FollowTrace W R fuelT (f1 + 1) (InitForOther d.address) =
          some (false, InitForOther d.address, []) :=
        FollowTrace_not_stub W R fuelT f1 (InitForOther d.address) (by simp [InitForOther])
      simp only [Bool.not_false, if_true]
      rw [hstep]
      rfl
    · have h0 := traceStubCalls_TraceStub W R fuelT d.address d _ h1
      simp only [] at h0
      simp [traceStubCalls, traceStubCalls_append, h0]
  · intro B E this a1 t1 hk
    rcases hk with hk | hk <;> simp [RangeSectionStubManager.DoTraceStub, hk]
  · intro E this a1 t1 h1 h2 h3
    simp [StubLinkStubManager.DoTraceStub, h1, h2, h3]

/-- Witness of C17: the manager `10` of the example world of thunk heap managers
claims the address `150` and does not resolve it. -/
theorem TraceStub_unresolved_witness :
    exRegistry.IsList [20, 10] ∧
    (CheckIsStub_Worker exThunkWorld 10 150).1 = true ∧
    (∃ calls, TraceStub exThunkWorld exRegistry 4 150 (InitForStub 150) =
      some (false, InitForStub 150, calls)) ∧
    (∃ calls, FollowTrace exThunkWorld exRegistry 4 2 (InitForStub 150) =
      some (false, InitForOther 150, calls) ∧ traceStubCalls calls = [150]) :=
  have h := TraceStub_unresolved exThunkWorld exRegistry [20, 10] 150 (InitForStub 150)
    (InitForStub 150) 4 2 [20] 10 [30] (by decide) (by decide) (by decide) (by decide)
    (by decide) (by decide) (fun _ => rfl) rfl rfl
  ⟨by decide, by decide, h.1, h.2.1⟩

/-- C19, as the claim states it, fails: in the example world of thunk heap managers the
manager `10` claims the address `150` and writes nothing, and `TraceStub(150)` leaves
`Stub(1)` when the destination held `Stub(1)` before the call and `Managed(2)` when it
held `Managed(2)`. -/
theorem TraceStub_keeps_prior_value :
    exRegistry.IsList [20, 10] ∧
    (TraceStub exThunkWorld exRegistry 4 150 (InitForStub 1)).map (fun r => (r.1, r.2.1)) =
      some (false, InitForStub 1) ∧
    (TraceStub exThunkWorld exRegistry 4 150 (InitForManaged 2)).map (fun r => (r.1, r.2.1)) =
      some (false, InitForManaged 2) ∧
    (TraceStub exThunkWorld exRegistry 4 150 (InitForStub 1)).map (fun r => r.2.1) ≠
      (TraceStub exThunkWorld exRegistry 4 150 (InitForManaged 2)).map (fun r => r.2.1) := by
  decide

/-- C19, amended: on a registry whose ordinary list is `L`, what `TraceStub(a)` returns
and leaves does not depend on the value the destination held before the call when no
manager claims `a` (it is `Managed(a)` or `Other(a)`), or when `DoTraceStub(a)` of the
first manager that claims `a` does not depend on it, as for the managers that ignore the
destination they are given; when that `DoTraceStub(a)` returns `FALSE` and writes
nothing, `TraceStub(a)` returns `FALSE` and leaves the value held before the call. -/
theorem TraceStub_destination_determined (W : World) (R : Registry) (L : List Ptr)
    (a : PCODE) (fuel : Nat) (hL : R.IsList L) (hf : L.length + 2 ≤ fuel) :
    ((∀ q ∈ L ++ W.distinguished, (CheckIsStub_Worker W q a).1 = false) →
      ∀ t1 t2 : TraceDestination,
        TraceStub W R fuel a t1 = TraceStub W R fuel a t2 ∧
        ∃ calls, TraceStub W R fuel a t1 =
          some (W.IsManagedCode a,
            if W.IsManagedCode a then InitForManaged a else InitForOther a, calls)) ∧
    (∀ (pre : List Ptr) (p : Ptr) (post : List Ptr),
      L ++ W.distinguished = pre ++ p :: post →
      (∀ q ∈ pre, (CheckIsStub_Worker W q a).1 = false) →
      (CheckIsStub_Worker W p a).1 = true →
      (∀ t1 t2 : TraceDestination, W.DoTraceStub p a t1 = W.DoTraceStub p a t2 →
        TraceStub W R fuel a t1 = TraceStub W R fuel a t2) ∧
      (∀ t : TraceDestination, W.DoTraceStub p a t = (false, t) →
        ∃ calls, TraceStub W R fuel a t = some (false, t, calls))) ∧
    (∀ (B : Build) (E : Env) (this : Ptr) (a1 : PCODE) (t1 t2 : TraceDestination),
      ThePreStubManager.DoTraceStub E a1 t1 = ThePreStubManager.DoTraceStub E a1 t2 ∧
      PrecodeStubManager.DoTraceStub B E a1 t1 = PrecodeStubManager.DoTraceStub B E a1 t2 ∧
      JumpStubStubManager.DoTraceStub E a1 t1 = JumpStubStubManager.DoTraceStub E a1 t2 ∧
      ILStubManager.DoTraceStub B E this a1 t1 = ILStubManager.DoTraceStub B E this a1 t2 ∧
      InteropDispatchStubManager.DoTraceStub B this a1 t1 =
        InteropDispatchStubManager.DoTraceStub B this a1 t2 ∧
      DelegateInvokeStubManager.DoTraceStub this a1 t1 =
        DelegateInvokeStubManager.DoTraceStub this a1 t2 ∧
      TailCallStubManager.DoTraceStub this a1 t1 =
        TailCallStubManager.DoTraceStub this a1 t2) := by
  refine ⟨?_, ?_, fun _ _ _ _ _ _ => ⟨rfl, rfl, rfl, rfl, rfl, rfl, rfl⟩⟩
  · intro hnone t1 t2
    rw [TraceStub_eq_on W R L a t1 fuel hL hf, TraceStub_eq_on W R L a t2 fuel hL hf,
      TraceStubOn_unclaimed_eq W a t1 t2 _ hnone]
    obtain ⟨calls, h1, _⟩ := TraceStubOn_unclaimed W a t2 _ hnone
    exact ⟨rfl, calls, by rw [h1]⟩
  · intro pre p post hsplit hpre hp
    constructor
    · intro t1 t2 heq
      rw [TraceStub_eq_on W R L a t1 fuel hL hf, TraceStub_eq_on W R L a t2 fuel hL hf,
        hsplit, TraceStubOn_first_eq W a t1 t2 p post hp heq pre hpre]
    · intro t ht
      rw [TraceStub_eq_on W R L a t fuel hL hf, hsplit]
      obtain ⟨calls, h1, _⟩ := TraceStubOn_first W a t p post hp pre hpre
      rw [ht] at h1
      exact ⟨calls, by rw [h1]⟩

/-- Witness of C19, amended: nobody claims the address `600` of the example world, and
`TraceStub(600)` leaves `Other(600)` whatever the destination held before. -/
theorem TraceStub_destination_determined_witness :
    exRegistry.IsList [20, 10] ∧
    TraceStub exWorld exRegistry 4 600 (InitForStub 1) =
      TraceStub exWorld exRegistry 4 600 (InitForManaged 2) :=
  ⟨by decide,
    ((TraceStub_destination_determined exWorld exRegistry [20, 10] 600 4 (by decide)
      (by decide)).1 (by decide) (InitForStub 1) (InitForManaged 2)).1⟩

/-! ## The iterator under sequences of calls -/

/-- One call of `Next()` keeps the relation "the lock is held exactly in the
distinguished state". -/
theorem Next_lock_iff (W : World) (R : Registry) (it : StubManagerIterator)
    (h : it.lockHeld = true ↔ it.m_state = SMI_State.SMI_VIRTUALCALLSTUBMANAGER) :
    (Next W R it).2.lockHeld = true ↔
      (Next W R it).2.m_state = SMI_State.SMI_VIRTUALCALLSTUBMANAGER := by
  obtain ⟨st, cur, lh⟩ := it
  cases st <;>
    simp only [Next, NextLoop, NextBody, NextAgain, StubManagerIterator.lockHeld] at h ⊢ <;>
    split_ifs <;> simp_all

/-- After any call of `Next()` or `Reset()`, an iterator in the distinguished state
holds the lock. -/
theorem lock_of_distinguished (W : World) (R : Registry) (it : StubManagerIterator) :
    ((Next W R it).2.m_state = SMI_State.SMI_VIRTUALCALLSTUBMANAGER →
      (Next W R it).2.lockHeld = true) ∧
    (Reset it).m_state ≠ SMI_State.SMI_VIRTUALCALLSTUBMANAGER := by
  constructor
  · obtain ⟨st, cur, lh⟩ := it
    cases st <;>
      simp only [Next, NextLoop, NextBody, NextAgain, StubManagerIterator.lockHeld] <;>
      split_ifs <;> simp_all
  · simp [Reset]

/-- In every state reached from a fresh iterator by calls of `Next()` alone, the lock is
held exactly in the distinguished state. -/
theorem lock_iff_next_only (W : World) (R : Registry) :
    ∀ (cs : List IteratorCall) (it : StubManagerIterator),
      (∀ c ∈ cs, c = IteratorCall.Next) →
      (it.lockHeld = true ↔ it.m_state = SMI_State.SMI_VIRTUALCALLSTUBMANAGER) →
      ((StubManagerIterator.run W R cs it).lockHeld = true ↔
        (StubManagerIterator.run W R cs it).m_state =
          SMI_State.SMI_VIRTUALCALLSTUBMANAGER) := by
  intro cs
  induction cs with
  | nil => intro it _ h; exact h
  | cons c cs ih =>
      intro it hall h
      have hc : c = IteratorCall.Next := hall c (List.mem_cons_self _ _)
      subst hc
      exact ih _ (fun c hc => hall c (List.mem_cons_of_mem _ hc)) (Next_lock_iff W R it h)

/-- C21, as the claim states it, fails: with the empty example registry and the
distinguished manager `30`, one `Next()` on a fresh iterator brings it to the
distinguished state with the lock held, and a `Reset()` there leaves it in the start
state with the lock still held; on the example registry, a `Next()` after that
`Reset()` stands on the ordinary manager `20` with the lock held. -/
theorem iterator_reset_keeps_lock :
    (StubManagerIterator.run exWorld emptyRegistry [IteratorCall.Next]
      StubManagerIterator.new).m_state = SMI_State.SMI_VIRTUALCALLSTUBMANAGER ∧
    (StubManagerIterator.run exWorld emptyRegistry [IteratorCall.Next, IteratorCall.Reset]
      StubManagerIterator.new).m_state = SMI_State.SMI_START ∧
    (StubManagerIterator.run exWorld emptyRegistry [IteratorCall.Next, IteratorCall.Reset]
      StubManagerIterator.new).lockHeld = true ∧
    StubManagerIterator.run exWorld exRegistry
      [IteratorCall.Next, IteratorCall.Next, IteratorCall.Next, IteratorCall.Reset,
       IteratorCall.Next] StubManagerIterator.new =
      { m_state := SMI_State.SMI_NORMAL, m_pCurMgr := 20, m_lh := some 30 } := by
  decide

/-- A sequence of calls whose `Reset()` calls are all made outside the distinguished
state keeps the relation "the lock is held exactly in the distinguished state". -/
theorem lock_iff_run (W : World) (R : Registry) :
    ∀ (cs : List IteratorCall) (it : StubManagerIterator),
      StubManagerIterator.resetsOutsideVisit W R cs it = true →
      (it.lockHeld = true ↔ it.m_state = SMI_State.SMI_VIRTUALCALLSTUBMANAGER) →
      ((StubManagerIterator.run W R cs it).lockHeld = true ↔
        (StubManagerIterator.run W R cs it).m_state =
          SMI_State.SMI_VIRTUALCALLSTUBMANAGER) := by
  intro cs
  induction cs with
  | nil => intro it _ h; exact h
  | cons c cs ih =>
      intro it hres h
      cases c with
      | Next => exact ih _ hres (Next_lock_iff W R it h)
      | Reset =>
          simp only [StubManagerIterator.resetsOutsideVisit, Bool.and_eq_true, bne_iff_ne,
            ne_eq] at hres
          obtain ⟨hst, hrest⟩ := hres
          refine ih _ hrest ?_
          have hlock : it.lockHeld = false := by
            cases hl : it.lockHeld with
            | false => rfl
            | true => exact absurd (h.mp hl) hst
          constructor
          · intro h1
            have h2 : (Reset it).lockHeld = it.lockHeld := rfl
            rw [h2, hlock] at h1
            exact absurd h1 Bool.false_ne_true
          · intro h1
            simp [Reset] at h1

/-- C21, amended: in every state reached from a freshly constructed iterator by a
sequence of `Next()` and `Reset()` calls in which no `Reset()` is made in the
distinguished state (the source calls `Reset()` in the constructor only), the lock is
held exactly when the iterator is in the distinguished state. -/
theorem iterator_lock_iff (W : World) (R : Registry) (cs : List IteratorCall)
    (h : StubManagerIterator.resetsOutsideVisit W R cs StubManagerIterator.new = true) :
    (StubManagerIterator.run W R cs StubManagerIterator.new).lockHeld = true ↔
      (StubManagerIterator.run W R cs StubManagerIterator.new).m_state =
        SMI_State.SMI_VIRTUALCALLSTUBMANAGER :=
  lock_iff_run W R cs StubManagerIterator.new h (by decide)

/-- Witness of C21, amended: on the example registry, a `Next()`, a `Reset()` on the
ordinary manager `20` and three more `Next()` bring the iterator to the distinguished
state with the lock held, and one more `Next()` to the end without it. -/
theorem iterator_lock_iff_witness :
    StubManagerIterator.resetsOutsideVisit exWorld exRegistry
      [IteratorCall.Next, IteratorCall.Reset, IteratorCall.Next, IteratorCall.Next,
        IteratorCall.Next] StubManagerIterator.new = true ∧
    (StubManagerIterator.run exWorld exRegistry
      [IteratorCall.Next, IteratorCall.Reset, IteratorCall.Next, IteratorCall.Next,
        IteratorCall.Next] StubManagerIterator.new).lockHeld = true ∧
    (StubManagerIterator.run exWorld exRegistry
      [IteratorCall.Next, IteratorCall.Reset, IteratorCall.Next, IteratorCall.Next,
        IteratorCall.Next, IteratorCall.Next] StubManagerIterator.new).lockHeld ≠ true :=
  ⟨by decide,
   (iterator_lock_iff exWorld exRegistry
      [IteratorCall.Next, IteratorCall.Reset, IteratorCall.Next, IteratorCall.Next,
        IteratorCall.Next] (by decide)).mpr (by decide),
   fun hl => absurd ((iterator_lock_iff exWorld exRegistry
      [IteratorCall.Next, IteratorCall.Reset, IteratorCall.Next, IteratorCall.Next,
        IteratorCall.Next, IteratorCall.Next] (by decide)).mp hl) (by decide)⟩

/-! ## Next at the end of the iteration -/

theorem Next_true_current (W : World) (R : Registry) (it : StubManagerIterator)
    (h : (Next W R it).1 = true) : Current (Next W R it).2 ≠ 0 := by
  have hA := NextAgain_Next W R it
  have h1 : ((Next W R it).2.m_state != SMI_State.SMI_END) = true := h
  unfold NextAgain at hA
  rw [h1] at hA
  simpa [Current] using hA

theorem Next_false_iff (W : World) (R : Registry) (it : StubManagerIterator) :
    (Next W R it).1 = false ↔ (Next W R it).2.m_state = SMI_State.SMI_END := by
  show ((Next W R it).2.m_state != SMI_State.SMI_END) = false ↔ _
  simp

theorem Next_at_end (W : World) (R : Registry) (it : StubManagerIterator)
    (h : it.m_state = SMI_State.SMI_END) : Next W R it = (false, it) := by
  obtain ⟨st, cur, lh⟩ := it
  simp only at h
  subst h
  simp [Next, NextLoop, NextBody, NextAgain]

/-- A call of `Next()` keeps "in the end state the current manager is null". -/
theorem Next_end_null (W : World) (R : Registry) (it : StubManagerIterator)
    (h : it.m_state = SMI_State.SMI_END → it.m_pCurMgr = 0) :
    (Next W R it).2.m_state = SMI_State.SMI_END → (Next W R it).2.m_pCurMgr = 0 := by
  obtain ⟨st, cur, lh⟩ := it
  cases st <;> simp only [Next, NextLoop, NextBody, NextAgain] at h ⊢ <;>
    split_ifs <;> simp_all

theorem nextTimes_end_null (W : World) (R : Registry) :
    ∀ (n : Nat) (it : StubManagerIterator),
      (it.m_state = SMI_State.SMI_END → it.m_pCurMgr = 0) →
      (nextTimes W R n it).m_state = SMI_State.SMI_END → (nextTimes W R n it).m_pCurMgr = 0 := by
  intro n
  induction n with
  | zero => intro it h; exact h
  | succ k ih =>
      intro it h
      rw [nextTimes_succ]
      exact ih _ (Next_end_null W R it h)

theorem nextTimes_at_end (W : World) (R : Registry) (it : StubManagerIterator)
    (h : it.m_state = SMI_State.SMI_END) : ∀ k : Nat, nextTimes W R k it = it := by
  intro k
  induction k with
  | zero => rfl
  | succ j ih => rw [nextTimes_succ, Next_at_end W R it h]; exact ih

/-- C27: for every registry and every iterator state reached from a fresh iterator by
calls of `Next()`: when `Next()` returns `TRUE` the current manager is not null;
`Next()` returns `FALSE` exactly when the state afterwards is `SMI_END`; and once it has
returned `FALSE`, every later `Next()` returns `FALSE` too and leaves the state
`SMI_END` with a null current manager. -/
theorem Next_safe (W : World) (R : Registry) (n : Nat) :
    ((Next W R (nextTimes W R n StubManagerIterator.new)).1 = true →
      Current (Next W R (nextTimes W R n StubManagerIterator.new)).2 ≠ 0) ∧
    ((Next W R (nextTimes W R n StubManagerIterator.new)).1 = false ↔
      (Next W R (nextTimes W R n StubManagerIterator.new)).2.m_state = SMI_State.SMI_END) ∧
    ((Next W R (nextTimes W R n StubManagerIterator.new)).1 = false →
      ∀ k : Nat,
        (Next W R (nextTimes W R k
          (Next W R (nextTimes W R n StubManagerIterator.new)).2)).1 = false ∧
        (Next W R (nextTimes W R k
          (Next W R (nextTimes W R n StubManagerIterator.new)).2)).2.m_state =
            SMI_State.SMI_END ∧
        (Next W R (nextTimes W R k
          (Next W R (nextTimes W R n StubManagerIterator.new)).2)).2.m_pCurMgr = 0) := by
  refine ⟨Next_true_current W R _, Next_false_iff W R _, ?_⟩
  intro hf k
  have hend := (Next_false_iff W R _).mp hf
  have hnull : (Next W R (nextTimes W R n StubManagerIterator.new)).2.m_pCurMgr = 0 :=
    Next_end_null W R _
      (nextTimes_end_null W R n StubManagerIterator.new
        (fun h => by simp [StubManagerIterator.new, Reset] at h)) hend
  rw [nextTimes_at_end W R _ hend k, Next_at_end W R _ hend]
  exact ⟨rfl, hend, hnull⟩

/-- Witness of C27: on the example registry the first `Next()` returns `TRUE` and stands
on a manager that is not null, and the fourth returns `FALSE`, as does every later
one. -/
theorem Next_safe_witness :
    Current (Next exWorld exRegistry
      (nextTimes exWorld exRegistry 0 StubManagerIterator.new)).2 ≠ 0 ∧
    (Next exWorld exRegistry (nextTimes exWorld exRegistry 3 StubManagerIterator.new)).1 =
      false ∧
    ∀ k : Nat,
      (Next exWorld exRegistry (nextTimes exWorld exRegistry k
        (Next exWorld exRegistry
          (nextTimes exWorld exRegistry 3 StubManagerIterator.new)).2)).1 = false ∧
      (Next exWorld exRegistry (nextTimes exWorld exRegistry k
        (Next exWorld exRegistry
          (nextTimes exWorld exRegistry 3 StubManagerIterator.new)).2)).2.m_state =
            SMI_State.SMI_END ∧
      (Next exWorld exRegistry (nextTimes exWorld exRegistry k
        (Next exWorld exRegistry
          (nextTimes exWorld exRegistry 3 StubManagerIterator.new)).2)).2.m_pCurMgr = 0 :=
  ⟨(Next_safe exWorld exRegistry 0).1 (by decide), by decide,
    (Next_safe exWorld exRegistry 3).2.2 (by decide)⟩

/-! ## FollowTrace without progress -/

theorem TraceStub_of_first (W : World) (R : Registry) (L : List Ptr) (a : PCODE)
    (t : TraceDestination) (fuel : Nat) (pre : List Ptr) (p : Ptr) (post : List Ptr)
    (hL : R.IsList L) (hf : L.length + 2 ≤ fuel)
    (hsplit : L ++ W.distinguished = pre ++ p :: post)
    (hpre : ∀ q ∈ pre, (CheckIsStub_Worker W q a).1 = false)
    (hp : (CheckIsStub_Worker W p a).1 = true) :
    ∃ calls, TraceStub W R fuel a t =
        some ((W.DoTraceStub p a t).1, (W.DoTraceStub p a t).2, calls) ∧
      doTraceCalls calls = [(p, a)] := by
  rw [TraceStub_eq_on W R L a t fuel hL hf, hsplit]
  obtain ⟨calls, h1, h2⟩ := TraceStubOn_first W a t p post hp pre hpre
  exact ⟨calls, by rw [h1], h2⟩

/-- C22: on a registry whose ordinary list is `L`, when the first manager that claims
`a` resolves it with `TRUE` to `Stub(a)`, `FollowTrace` started on `Stub(a)` holds
`Stub(a)` again after every number of rounds of its loop, each with one `TraceStub`
call, and returns for no amount of fuel: the loop has no cap. -/
theorem FollowTrace_no_progress (W : World) (R : Registry) (L : List Ptr) (a : PCODE)
    (fuelT : Nat) (pre : List Ptr) (p : Ptr) (post : List Ptr)
    (hL : R.IsList L) (hfT : L.length + 2 ≤ fuelT)
    (hsplit : L ++ W.distinguished = pre ++ p :: post)
    (hpre : ∀ q ∈ pre, (CheckIsStub_Worker W q a).1 = false)
    (hp : (CheckIsStub_Worker W p a).1 = true)
    (hres : ∀ t : TraceDestination, W.DoTraceStub p a t = (true, InitForStub a)) :
    (∀ n : Nat, FollowTraceRounds W R fuelT n (InitForStub a) = some (InitForStub a)) ∧
    (InitForStub a).type = TraceType.TRACE_STUB ∧
    (∀ fuel : Nat, FollowTrace W R fuelT fuel (InitForStub a) = none) := by
  obtain ⟨calls, hT, _⟩ := TraceStub_of_first W R L a (InitForStub a) fuelT pre p post hL hfT
    hsplit hpre hp
  rw [hres] at hT
  refine ⟨?_, rfl, ?_⟩
  · intro n
    induction n with
    | zero => rfl
    | succ k ih =>
        have hT1 : TraceStub W R fuelT (GetAddress (InitForStub a)) (InitForStub a) =
            some (true, InitForStub a, calls) := hT
        simp only [FollowTraceRounds, GetTraceType, InitForStub, if_true] at ih ⊢
        simp only [InitForStub] at hT1
        rw [hT1]
        simpa using ih
  · intro fuel
    induction fuel with
    | zero => rfl
    | succ k ih =>
        rw [FollowTrace_stub W R fuelT k (InitForStub a) (InitForStub a) true calls rfl hT]
        simp only [Bool.not_true, Bool.false_eq_true, if_false, ih, Option.map_none']

/-- Witness of C22: the manager `10` of the example world without progress claims the
address `100` and resolves it to `Stub(100)`. -/
theorem FollowTrace_no_progress_witness :
    exRegistry.IsList [20, 10] ∧ (CheckIsStub_Worker exLoopWorld 10 100).1 = true ∧
    exLoopWorld.DoTraceStub 10 100 (InitForStub 100) = (true, InitForStub 100) ∧
    (∀ n : Nat, FollowTraceRounds exLoopWorld exRegistry 4 n (InitForStub 100) =
      some (InitForStub 100)) ∧
    (∀ fuel : Nat, FollowTrace exLoopWorld exRegistry 4 fuel (InitForStub 100) = none) :=
  have h := FollowTrace_no_progress exLoopWorld exRegistry [20, 10] 100 4 [20] 10 [30]
    (by decide) (by decide) (by decide) (by decide) (by decide) (fun _ => rfl)
  ⟨by decide, by decide, rfl, h.1, h.2.2⟩

/-! ## TraceDelegateObject -/

theorem TraceDelegateObject_recurse (W : World) (R : Registry) (E : Env) (fuelT fuel : Nat)
    (pbDel : Ptr) (t : TraceDestination) (h : delegateRecurses E pbDel = true) :
    TraceDelegateObject W R E fuelT (fuel + 1) pbDel t =
      TraceDelegateObject W R E fuelT fuel (delegateNext E pbDel) t := by
  simp only [delegateRecurses, Bool.and_eq_true, bne_iff_ne, ne_eq] at h
  obtain ⟨h1, h2⟩ := h
  simp only [TraceDelegateObject, h1, h2, if_false, delegateNext]
  split_ifs <;> rfl

theorem TraceDelegateObject_null_list (W : World) (R : Registry) (E : Env)
    (fuelT fuel : Nat) (pbDel : Ptr) (t : TraceDestination)
    (h : E.InvocationList pbDel = 0) :
    (E.MethodPtrAux pbDel ≠ 0 →
      TraceDelegateObject W R E fuelT (fuel + 1) pbDel t =
        (TraceStub W R fuelT (E.MethodPtrAux pbDel) t).map
          (fun r => (r.1, r.2.1, Call.TraceStub (E.MethodPtrAux pbDel) :: r.2.2))) ∧
    (E.MethodPtrAux pbDel = 0 → E.MethodPtr pbDel ≠ 0 →
      TraceDelegateObject W R E fuelT (fuel + 1) pbDel t =
        (TraceStub W R fuelT (E.MethodPtr pbDel) t).map
          (fun r => (r.1, r.2.1, Call.TraceStub (E.MethodPtr pbDel) :: r.2.2))) ∧
    (E.MethodPtrAux pbDel = 0 → E.MethodPtr pbDel = 0 →
      TraceDelegateObject W R E fuelT (fuel + 1) pbDel t = some (false, t, [])) := by
  refine ⟨?_, ?_, ?_⟩
  · intro h1
    simp [TraceDelegateObject, h, h1]
  · intro h1 h2
    simp [TraceDelegateObject, h, h1, h2]
  · intro h1 h2
    simp [TraceDelegateObject, h, h1, h2]

theorem TraceDelegateObject_zero_count (W : World) (R : Registry) (E : Env)
    (fuelT fuel : Nat) (pbDel : Ptr) (t : TraceDestination)
    (h : E.InvocationList pbDel ≠ 0) (hc : E.InvocationCount pbDel = 0) :
    (E.MethodPtrAux pbDel ≠ 0 →
      TraceDelegateObject W R E fuelT (fuel + 1) pbDel t =
        (TraceStub W R fuelT (E.MethodPtrAux pbDel) t).map
          (fun r => (r.1, r.2.1, Call.TraceStub (E.MethodPtrAux pbDel) :: r.2.2))) ∧
    (E.MethodPtrAux pbDel = 0 →
      TraceDelegateObject W R E fuelT (fuel + 1) pbDel t = some (false, t, [])) := by
  refine ⟨?_, ?_⟩
  · intro h1
    simp [TraceDelegateObject, h, hc, h1]
  · intro h1
    simp [TraceDelegateObject, h, hc, h1]

/-- On a delegate on which `TraceDelegateObject` does not recurse, it returns. -/
theorem TraceDelegateObject_end (W : World) (R : Registry) (E : Env) (L : List Ptr)
    (fuelT fuel : Nat) (pbDel : Ptr) (t : TraceDestination) (hL : R.IsList L)
    (hfT : L.length + 2 ≤ fuelT) (h : delegateRecurses E pbDel = false) :
    (TraceDelegateObject W R E fuelT (fuel + 1) pbDel t).isSome = true := by
  have hT : ∀ a : PCODE, (TraceStub W R fuelT a t).isSome = true := by
    intro a
    rw [TraceStub_eq_on W R L a t fuelT hL hfT]
    rfl
  by_cases h1 : E.InvocationList pbDel = 0
  · obtain ⟨ha, hb, hc⟩ := TraceDelegateObject_null_list W R E fuelT fuel pbDel t h1
    by_cases h2 : E.MethodPtrAux pbDel = 0
    · by_cases h3 : E.MethodPtr pbDel = 0
      · rw [hc h2 h3]; rfl
      · rw [hb h2 h3, Option.isSome_map']; exact hT _
    · rw [ha h2, Option.isSome_map']; exact hT _
  · have h0 : E.InvocationCount pbDel = 0 := by
      simp only [delegateRecurses, Bool.and_eq_false_iff, bne_eq_false_iff_eq] at h
      rcases h with h | h
      · exact absurd h h1
      · exact h
    obtain ⟨ha, hb⟩ := TraceDelegateObject_zero_count W R E fuelT fuel pbDel t h1 h0
    by_cases h2 : E.MethodPtrAux pbDel = 0
    · rw [hb h2]; rfl
    · rw [ha h2, Option.isSome_map']; exact hT _

/-- C23, as the claim states it, fails: the delegate `500` of the example environment
with delegates has a non-zero invocation count and an invocation list that is the
delegate `500` itself, and `TraceDelegateObject` on it returns for no amount of fuel:
nothing guards the recursion. -/
theorem TraceDelegateObject_self_loop :
    exDelegateEnv.InvocationList 500 = 500 ∧ exDelegateEnv.InvocationCount 500 ≠ 0 ∧
    exDelegateEnv.MethodTableIsDelegate (exDelegateEnv.MethodTableOf 500) = true ∧
    ∀ fuel : Nat,
      TraceDelegateObject exWorld exRegistry exDelegateEnv 4 fuel 500 (InitForOther 0) =
        none := by
  refine ⟨rfl, by decide, rfl, ?_⟩
  intro fuel
  induction fuel with
  | zero => rfl
  | succ k ih =>
      rw [TraceDelegateObject_recurse exWorld exRegistry exDelegateEnv 4 k 500 _ (by decide)]
      exact ih

theorem delegateEndsWithin_next (E : Env) (pbDel : Ptr)
    (h : ∀ n : Nat, delegateEndsWithin E n pbDel = false) :
    delegateRecurses E pbDel = true ∧
    ∀ n : Nat, delegateEndsWithin E n (delegateNext E pbDel) = false := by
  have hr : delegateRecurses E pbDel = true := by
    have h0 := h 0
    simpa [delegateEndsWithin] using h0
  refine ⟨hr, ?_⟩
  intro n
  have h1 := h (n + 1)
  simpa [delegateEndsWithin, hr] using h1

/-- On a delegate from which the recursion never comes to a delegate on which it ends,
`TraceDelegateObject` returns for no amount of fuel. -/
theorem TraceDelegateObject_never (W : World) (R : Registry) (E : Env) (fuelT : Nat)
    (t : TraceDestination) :
    ∀ (fuel : Nat) (pbDel : Ptr), (∀ n : Nat, delegateEndsWithin E n pbDel = false) →
      TraceDelegateObject W R E fuelT fuel pbDel t = none := by
  intro fuel
  induction fuel with
  | zero => intro _ _; rfl
  | succ k ih =>
      intro pbDel h
      obtain ⟨hr, hn⟩ := delegateEndsWithin_next E pbDel h
      rw [TraceDelegateObject_recurse W R E fuelT k pbDel t hr]
      exact ih _ hn

/-- When `TraceDelegateObject` recurses on every delegate that the recursion comes to
from `pbDel`, the recursion never comes to a delegate on which it ends. -/
theorem delegateEndsWithin_of_always (E : Env) :
    ∀ (n : Nat) (pbDel : Ptr),
      (∀ j : Nat, delegateRecurses E ((delegateNext E)^[j] pbDel) = true) →
      delegateEndsWithin E n pbDel = false := by
  intro n
  induction n with
  | zero =>
      intro pbDel h
      have h0 := h 0
      simp only [Function.iterate_zero, id_eq] at h0
      simp [delegateEndsWithin, h0]
  | succ k ih =>
      intro pbDel h
      have h0 := h 0
      simp only [Function.iterate_zero, id_eq] at h0
      have hk := ih (delegateNext E pbDel) (fun j => by
        have := h (j + 1)
        rwa [Function.iterate_succ_apply] at this)
      simp [delegateEndsWithin, h0, hk]

/-- On a cycle of delegates on each of which `TraceDelegateObject` recurses, it
recurses on every delegate that the recursion comes to. -/
theorem delegateRecurses_of_cycle (E : Env) (pbDel : Ptr) (k : Nat) (hk : 0 < k)
    (hcyc : (delegateNext E)^[k] pbDel = pbDel)
    (hrec : ∀ j : Nat, j < k → delegateRecurses E ((delegateNext E)^[j] pbDel) = true) :
    ∀ j : Nat, delegateRecurses E ((delegateNext E)^[j] pbDel) = true := by
  intro j
  have hper : Function.IsPeriodicPt (delegateNext E) k pbDel := hcyc
  rw [← hper.iterate_mod_apply j]
  exact hrec _ (Nat.mod_lt _ hk)

/-- C23, amended: `TraceDelegateObject` has no guard on its recursion.  On a registry
whose ordinary list is `L`, it returns on every delegate from which its recursion comes,
after finitely many steps, to a delegate with a null invocation list or a zero
invocation count; on a delegate from which the recursion never comes to such a
delegate it returns for no amount of fuel, and so it does on every delegate of a cycle
of one, two or more delegates with a non-zero invocation count that the recursion
leads around. -/
theorem TraceDelegateObject_terminates (W : World) (R : Registry) (E : Env) (L : List Ptr)
    (fuelT : Nat) (t : TraceDestination) (hL : R.IsList L) (hfT : L.length + 2 ≤ fuelT) :
    (∀ (n : Nat) (pbDel : Ptr) (fuel : Nat), delegateEndsWithin E n pbDel = true →
      n < fuel → (TraceDelegateObject W R E fuelT fuel pbDel t).isSome = true) ∧
    (∀ pbDel : Ptr, (∀ n : Nat, delegateEndsWithin E n pbDel = false) →
      ∀ fuel : Nat, TraceDelegateObject W R E fuelT fuel pbDel t = none) ∧
    (∀ (pbDel : Ptr) (k : Nat), 0 < k → (delegateNext E)^[k] pbDel = pbDel →
      (∀ j : Nat, j < k → delegateRecurses E ((delegateNext E)^[j] pbDel) = true) →
      ∀ fuel : Nat, TraceDelegateObject W R E fuelT fuel pbDel t = none) := by
  refine ⟨?_, ?_, ?_⟩
  · intro n
    induction n with
    | zero =>
        intro pbDel fuel h hf
        obtain ⟨f1, rfl⟩ : ∃ f1, fuel = f1 + 1 := ⟨fuel - 1, by omega⟩
        simp only [delegateEndsWithin, Bool.not_eq_true'] at h
        exact TraceDelegateObject_end W R E L fuelT f1 pbDel t hL hfT h
    | succ k ih =>
        intro pbDel fuel h hf
        obtain ⟨f1, rfl⟩ : ∃ f1, fuel = f1 + 1 := ⟨fuel - 1, by omega⟩
        by_cases hr : delegateRecurses E pbDel = true
        · simp only [delegateEndsWithin, hr, Bool.not_true, Bool.false_or] at h
          rw [TraceDelegateObject_recurse W R E fuelT f1 pbDel t hr]
          exact ih _ f1 h (by omega)
        · rw [Bool.not_eq_true] at hr
          exact TraceDelegateObject_end W R E L fuelT f1 pbDel t hL hfT hr
  · intro pbDel h fuel
    exact TraceDelegateObject_never W R E fuelT t fuel pbDel h
  · intro pbDel k hk hcyc hrec fuel
    exact TraceDelegateObject_never W R E fuelT t fuel pbDel
      (fun n => delegateEndsWithin_of_always E n pbDel
        (delegateRecurses_of_cycle E pbDel k hk hcyc hrec))

/-- Witness of C23, amended: from the delegate `550` of the example environment with
delegates the recursion comes to the delegate `510` in one step, and
`TraceDelegateObject` returns; on the delegate `560` of the example environment with
the cycle of the two delegates `560` and `561` it returns for no amount of fuel. -/
theorem TraceDelegateObject_terminates_witness :
    exRegistry.IsList [20, 10] ∧ delegateEndsWithin exDelegateEnv 1 550 = true ∧
    (TraceDelegateObject exWorld exRegistry exDelegateEnv 4 2 550 (InitForOther 0)).isSome =
      true ∧
    delegateNext exCycleEnv 560 = 561 ∧ delegateNext exCycleEnv 561 = 560 ∧
    ∀ fuel : Nat,
      TraceDelegateObject exWorld exRegistry exCycleEnv 4 fuel 560 (InitForOther 0) =
        none :=
  ⟨by decide, by decide,
    (TraceDelegateObject_terminates exWorld exRegistry exDelegateEnv [20, 10] 4
      (InitForOther 0) (by decide) (by decide)).1 1 550 2 (by decide) (by decide),
    by decide, by decide,
    (TraceDelegateObject_terminates exWorld exRegistry exCycleEnv [20, 10] 4
      (InitForOther 0) (by decide) (by decide)).2.2 560 2 (by decide) (by decide)
      (by decide)⟩

/-- C25: `TraceDelegateObject` on a delegate with a null invocation list returns the
result of `TraceStub` on `_methodPtrAux` when that is not zero, otherwise on
`_methodPtr`, and returns `FALSE` with no call when both are zero; with an invocation
list and a zero invocation count it returns the result of `TraceStub` on
`_methodPtrAux`, and `FALSE` when that is zero; with a non-zero count and an invocation
list that is not a delegate it returns what it returns on element 0 of the list. -/
theorem TraceDelegateObject_cases (W : World) (R : Registry) (E : Env) (fuelT fuel : Nat)
    (pbDel : Ptr) (t : TraceDestination) :
    (E.InvocationList pbDel = 0 →
      (E.MethodPtrAux pbDel ≠ 0 →
        TraceDelegateObject W R E fuelT (fuel + 1) pbDel t =
          (TraceStub W R fuelT (E.MethodPtrAux pbDel) t).map
            (fun r => (r.1, r.2.1, Call.TraceStub (E.MethodPtrAux pbDel) :: r.2.2))) ∧
      (E.MethodPtrAux pbDel = 0 → E.MethodPtr pbDel ≠ 0 →
        TraceDelegateObject W R E fuelT (fuel + 1) pbDel t =
          (TraceStub W R fuelT (E.MethodPtr pbDel) t).map
            (fun r => (r.1, r.2.1, Call.TraceStub (E.MethodPtr pbDel) :: r.2.2))) ∧
      (E.MethodPtrAux pbDel = 0 → E.MethodPtr pbDel = 0 →
        TraceDelegateObject W R E fuelT (fuel + 1) pbDel t = some (false, t, []))) ∧
    (E.InvocationList pbDel ≠ 0 → E.InvocationCount pbDel = 0 →
      (E.MethodPtrAux pbDel ≠ 0 →
        TraceDelegateObject W R E fuelT (fuel + 1) pbDel t =
          (TraceStub W R fuelT (E.MethodPtrAux pbDel) t).map
            (fun r => (r.1, r.2.1, Call.TraceStub (E.MethodPtrAux pbDel) :: r.2.2))) ∧
      (E.MethodPtrAux pbDel = 0 →
        TraceDelegateObject W R E fuelT (fuel + 1) pbDel t = some (false, t, []))) ∧
    (E.InvocationList pbDel ≠ 0 → E.InvocationCount pbDel ≠ 0 →
      E.MethodTableIsDelegate (E.MethodTableOf (E.InvocationList pbDel)) = false →
      TraceDelegateObject W R E fuelT (fuel + 1) pbDel t =
        TraceDelegateObject W R E fuelT fuel
          (E.readWord (E.ArrayGetDataPtr (E.InvocationList pbDel))) t) := by
  refine ⟨TraceDelegateObject_null_list W R E fuelT fuel pbDel t,
    TraceDelegateObject_zero_count W R E fuelT fuel pbDel t, ?_⟩
  intro h1 h2 h3
  simp [TraceDelegateObject, h1, h2, h3]

/-- Witness of C25: the delegates `520`, `510`, `530`, `540` and `550` of the example
environment with delegates. -/
theorem TraceDelegateObject_cases_witness :
    TraceDelegateObject exWorld exRegistry exDelegateEnv 4 1 520 (InitForOther 0) =
      (TraceStub exWorld exRegistry 4 200 (InitForOther 0)).map
        (fun r => (r.1, r.2.1, Call.TraceStub 200 :: r.2.2)) ∧
    TraceDelegateObject exWorld exRegistry exDelegateEnv 4 1 510 (InitForOther 0) =
      (TraceStub exWorld exRegistry 4 100 (InitForOther 0)).map
        (fun r => (r.1, r.2.1, Call.TraceStub 100 :: r.2.2)) ∧
    TraceDelegateObject exWorld exRegistry exDelegateEnv 4 1 530 (InitForOther 0) =
      some (false, InitForOther 0, []) ∧
    TraceDelegateObject exWorld exRegistry exDelegateEnv 4 1 540 (InitForOther 0) =
      (TraceStub exWorld exRegistry 4 100 (InitForOther 0)).map
        (fun r => (r.1, r.2.1, Call.TraceStub 100 :: r.2.2)) ∧
    TraceDelegateObject exWorld exRegistry exDelegateEnv 4 2 550 (InitForOther 0) =
      TraceDelegateObject exWorld exRegistry exDelegateEnv 4 1 510 (InitForOther 0) :=
  ⟨((TraceDelegateObject_cases exWorld exRegistry exDelegateEnv 4 0 520
      (InitForOther 0)).1 rfl).1 (by decide),
   ((TraceDelegateObject_cases exWorld exRegistry exDelegateEnv 4 0 510
      (InitForOther 0)).1 rfl).2.1 rfl (by decide),
   ((TraceDelegateObject_cases exWorld exRegistry exDelegateEnv 4 0 530
      (InitForOther 0)).1 rfl).2.2 rfl rfl,
   ((TraceDelegateObject_cases exWorld exRegistry exDelegateEnv 4 0 540
      (InitForOther 0)).2.1 (by decide) rfl).1 (by decide),
   (TraceDelegateObject_cases exWorld exRegistry exDelegateEnv 4 1 550
      (InitForOther 0)).2.2 (by decide) (by decide) rfl⟩

/-! ## From a precode through the prestub -/

/-- C29: for an address that is not a compact entry point, whose precode is not an
NDirect import precode and has a target that points to the prestub, and whose method is
neither IL nor an IL stub, `PrecodeStubManager::DoTraceStub` returns `TRUE` with `Stub`
of the prestub entry point; and on a registry whose ordinary list is `L`, in which the
manager `p` is `ThePreStubManager` and is the only one that claims the prestub entry
point, `FollowTrace` on that destination returns `TRUE` with
`FramePush(ThePreStubPatchLabel)` after exactly one `TraceStub` call, that on the
prestub entry point. -/
theorem Precode_prestub_FollowTrace (B : Build) (E : Env) (W : World) (R : Registry)
    (L : List Ptr) (fuelT fuel : Nat) (a : PCODE) (t : TraceDestination) (p : Ptr)
    (hc : (B.HAS_COMPACT_ENTRYPOINTS && E.IsCompactEntryPointAtAddress a) = false)
    (hnd : ¬ (B.HAS_NDIRECT_IMPORT_PRECODE = true ∧
      E.PrecodeGetType (PrecodeStubManager.findPrecode B E a) =
        PrecodeType.PRECODE_NDIRECT_IMPORT))
    (hpre : E.PrecodeIsPointingToPrestub (PrecodeStubManager.findPrecode B E a)
      (E.PrecodeGetTarget (PrecodeStubManager.findPrecode B E a)) = true)
    (hil : E.IsIL (E.PrecodeGetMethodDesc (PrecodeStubManager.findPrecode B E a)) = false)
    (hst : E.IsILStub (E.PrecodeGetMethodDesc (PrecodeStubManager.findPrecode B E a)) = false)
    (hL : R.IsList L) (hfT : L.length + 2 ≤ fuelT)
    (hmem : p ∈ L ++ W.distinguished)
    (hcheck : ∀ x : PCODE,
      W.CheckIsStub_Internal p x = some (ThePreStubManager.CheckIsStub_Internal E x))
    (htrace : ∀ (x : PCODE) (d : TraceDestination),
      W.DoTraceStub p x d = ThePreStubManager.DoTraceStub E x d)
    (honly : ∀ q ∈ L ++ W.distinguished, q ≠ p →
      (CheckIsStub_Worker W q E.GetPreStubEntryPoint).1 = false)
    (hne : E.GetPreStubEntryPoint ≠ 0) :
    PrecodeStubManager.DoTraceStub B E a t = (true, InitForStub E.GetPreStubEntryPoint) ∧
    ∃ calls, FollowTrace W R fuelT (fuel + 2) (PrecodeStubManager.DoTraceStub B E a t).2 =
        some (true, InitForFramePush E.ThePreStubPatchLabel, calls) ∧
      traceStubCalls calls = [E.GetPreStubEntryPoint] := by
  have h1 : PrecodeStubManager.DoTraceStub B E a t =
      (true, InitForStub E.GetPreStubEntryPoint) := by
    simp [PrecodeStubManager.DoTraceStub, hc, if_neg hnd, hpre,
      PrecodeStubManager.traceMethodDesc, hil, hst]
  refine ⟨h1, ?_⟩
  rw [h1]
  obtain ⟨pre, post, hsplit, hnot⟩ := List.eq_append_cons_of_mem hmem
  have hp : (CheckIsStub_Worker W p E.GetPreStubEntryPoint).1 = true := by
    simp [CheckIsStub_Worker, hne, hcheck, ThePreStubManager.CheckIsStub_Internal]
  have hq : ∀ q ∈ pre, (CheckIsStub_Worker W q E.GetPreStubEntryPoint).1 = false := by
    intro q hq
    refine honly q ?_ (fun e => hnot (e ▸ hq))
    rw [hsplit]
    exact List.mem_append_left _ hq
  obtain ⟨calls, hT, _⟩ := TraceStub_of_first W R L E.GetPreStubEntryPoint
    (InitForStub E.GetPreStubEntryPoint) fuelT pre p post hL hfT hsplit hq hp
  rw [htrace] at hT
  have hcalls := traceStubCalls_TraceStub W R fuelT _ _ _ hT
  refine ⟨Call.TraceStub E.GetPreStubEntryPoint :: (calls ++ []), ?_, ?_⟩
  · rw [FollowTrace_stub W R fuelT (fuel + 1) (InitForStub E.GetPreStubEntryPoint)
      (InitForFramePush E.ThePreStubPatchLabel) true calls rfl hT]
    simp only [Bool.not_true, Bool.false_eq_true, if_false]
    rw [FollowTrace_not_stub W R fuelT fuel _ (by simp [InitForFramePush])]
    rfl
  · simp only [List.append_nil, traceStubCalls]
    rw [show traceStubCalls calls = [] from hcalls]

/-- Witness of C29: the precode at `4096` of the example environment points to the
prestub and its method is not IL, and the manager `10` of the example world with
`ThePreStubManager` is the only one that claims the prestub entry point `9000`. -/
theorem Precode_prestub_FollowTrace_witness :
    exRegistry.IsList [20, 10] ∧
    PrecodeStubManager.DoTraceStub exBuild exEnv 4096 (InitForOther 0) =
      (true, InitForStub 9000) ∧
    ∃ calls, FollowTrace exPreStubWorld exRegistry 4 2
        (PrecodeStubManager.DoTraceStub exBuild exEnv 4096 (InitForOther 0)).2 =
        some (true, InitForFramePush 9100, calls) ∧
      traceStubCalls calls = [9000] :=
  have h := Precode_prestub_FollowTrace exBuild exEnv exPreStubWorld exRegistry [20, 10]
    4 0 4096 (InitForOther 0) 10 rfl (by decide) (by decide) (by decide) (by decide)
    (by decide) (by decide) (by decide) (fun _ => by simp [exPreStubWorld])
    (fun _ _ => rfl) (by decide) (by decide)
  ⟨by decide, h.1, h.2⟩

/-! ## RangeSectionStubManager -/

/-- C24, as the claim states it, fails in the DAC build: the address `900` of the
example environment with delegates is of the method call thunk kind and is claimed, and
`RangeSectionStubManager::DoTraceStub` of the manager `40` raises the error of
`DacNotImpl` on it, so it does not return `TRUE` with
`ManagerPush(ExternalMethodFixupPatchLabel, this)`. -/
theorem RangeSection_thunk_dac_not_impl :
    exDacBuild.DACCESS_COMPILE = true ∧
    RangeSectionStubManager.GetStubKind exDelegateEnv 900 =
      StubCodeBlockKind.STUB_CODE_BLOCK_METHOD_CALL_THUNK ∧
    RangeSectionStubManager.CheckIsStub_Internal exDelegateEnv 900 = true ∧
    RangeSectionStubManager.DoTraceStub exDacBuild exDelegateEnv 40 900 (InitForOther 0) =
      none ∧
    RangeSectionStubManager.DoTraceStub exDacBuild exDelegateEnv 40 900 (InitForOther 0) ≠
      some (true, InitForManagerPush exDelegateEnv.ExternalMethodFixupPatchLabel 40) := by
  decide

/-- C24, amended: `RangeSectionStubManager` claims an address exactly when
`GetStubKind` gives it one of the kinds precode, jump stub, stub-link, virtual method
thunk, external method thunk or method call thunk; an address in no code range has the
kind unknown and is not claimed; for the kinds precode, jump stub and stub-link its
`DoTraceStub` returns what `DoTraceStub` of `PrecodeStubManager`, `JumpStubStubManager`
or `StubLinkStubManager` (of its manager `g_pManager`) returns; for the kind method
call thunk it returns `TRUE` with `ManagerPush(ExternalMethodFixupPatchLabel, this)` in
a build that is not the DAC build, and raises the error of `DacNotImpl` in the DAC
build. -/
theorem RangeSection_cases (B : Build) (E : Env) (this : Ptr) (a : PCODE)
    (t : TraceDestination) :
    (RangeSectionStubManager.CheckIsStub_Internal E a = true ↔
      RangeSectionStubManager.GetStubKind E a = StubCodeBlockKind.STUB_CODE_BLOCK_PRECODE ∨
      RangeSectionStubManager.GetStubKind E a = StubCodeBlockKind.STUB_CODE_BLOCK_JUMPSTUB ∨
      RangeSectionStubManager.GetStubKind E a = StubCodeBlockKind.STUB_CODE_BLOCK_STUBLINK ∨
      RangeSectionStubManager.GetStubKind E a =
        StubCodeBlockKind.STUB_CODE_BLOCK_VIRTUAL_METHOD_THUNK ∨
      RangeSectionStubManager.GetStubKind E a =
        StubCodeBlockKind.STUB_CODE_BLOCK_EXTERNAL_METHOD_THUNK ∨
      RangeSectionStubManager.GetStubKind E a =
        StubCodeBlockKind.STUB_CODE_BLOCK_METHOD_CALL_THUNK) ∧
    (E.FindCodeRange a = 0 →
      RangeSectionStubManager.GetStubKind E a = StubCodeBlockKind.STUB_CODE_BLOCK_UNKNOWN ∧
      RangeSectionStubManager.CheckIsStub_Internal E a = false) ∧
    (RangeSectionStubManager.GetStubKind E a = StubCodeBlockKind.STUB_CODE_BLOCK_PRECODE →
      RangeSectionStubManager.DoTraceStub B E this a t =
        some (PrecodeStubManager.DoTraceStub B E a t)) ∧
    (RangeSectionStubManager.GetStubKind E a = StubCodeBlockKind.STUB_CODE_BLOCK_JUMPSTUB →
      RangeSectionStubManager.DoTraceStub B E this a t =
        some (JumpStubStubManager.DoTraceStub E a t)) ∧
    (RangeSectionStubManager.GetStubKind E a = StubCodeBlockKind.STUB_CODE_BLOCK_STUBLINK →
      RangeSectionStubManager.DoTraceStub B E this a t =
        some (StubLinkStubManager.DoTraceStub E E.StubLinkStubManager_g_pManager a t)) ∧
    (RangeSectionStubManager.GetStubKind E a =
        StubCodeBlockKind.STUB_CODE_BLOCK_METHOD_CALL_THUNK →
      (B.DACCESS_COMPILE = false →
        RangeSectionStubManager.DoTraceStub B E this a t =
          some (true, InitForManagerPush E.ExternalMethodFixupPatchLabel this)) ∧
      (B.DACCESS_COMPILE = true →
        RangeSectionStubManager.DoTraceStub B E this a t = none)) := by
  refine ⟨?_, ?_, ?_, ?_, ?_, ?_⟩
  · unfold RangeSectionStubManager.CheckIsStub_Internal
    cases RangeSectionStubManager.GetStubKind E a <;> simp
  · intro h
    have hk : RangeSectionStubManager.GetStubKind E a =
        StubCodeBlockKind.STUB_CODE_BLOCK_UNKNOWN := by
      simp [RangeSectionStubManager.GetStubKind, h]
    refine ⟨hk, ?_⟩
    unfold RangeSectionStubManager.CheckIsStub_Internal
    rw [hk]
  · intro h
    unfold RangeSectionStubManager.DoTraceStub
    rw [h]
  · intro h
    unfold RangeSectionStubManager.DoTraceStub
    rw [h]
  · intro h
    unfold RangeSectionStubManager.DoTraceStub
    rw [h]
  · intro h
    unfold RangeSectionStubManager.DoTraceStub
    rw [h]
    refine ⟨?_, ?_⟩
    · intro hb
      simp [hb]
    · intro hb
      simp [hb]

/-- Witness of C24, amended: the addresses `4096` (precode), `700` (jump stub) and
`5` (in no code range) of the example environment and the address `900` (method call
thunk) of the example environment with delegates. -/
theorem RangeSection_cases_witness :
    RangeSectionStubManager.DoTraceStub exBuild exEnv 40 4096 (InitForOther 0) =
      some (PrecodeStubManager.DoTraceStub exBuild exEnv 4096 (InitForOther 0)) ∧
    RangeSectionStubManager.DoTraceStub exBuild exEnv 40 700 (InitForOther 0) =
      some (JumpStubStubManager.DoTraceStub exEnv 700 (InitForOther 0)) ∧
    RangeSectionStubManager.CheckIsStub_Internal exEnv 5 = false ∧
    RangeSectionStubManager.CheckIsStub_Internal exEnv 700 = true ∧
    RangeSectionStubManager.DoTraceStub exBuild exDelegateEnv 40 900 (InitForOther 0) =
      some (true, InitForManagerPush exDelegateEnv.ExternalMethodFixupPatchLabel 40) ∧
    RangeSectionStubManager.DoTraceStub exDacBuild exDelegateEnv 40 900 (InitForOther 0) =
      none :=
  ⟨(RangeSection_cases exBuild exEnv 40 4096 (InitForOther 0)).2.2.1 (by decide),
   (RangeSection_cases exBuild exEnv 40 700 (InitForOther 0)).2.2.2.1 (by decide),
   ((RangeSection_cases exBuild exEnv 40 5 (InitForOther 0)).2.1 (by decide)).2,
   (RangeSection_cases exBuild exEnv 40 700 (InitForOther 0)).1.mpr
     (Or.inr (Or.inl (by decide))),
   ((RangeSection_cases exBuild exDelegateEnv 40 900 (InitForOther 0)).2.2.2.2.2
     (by decide)).1 rfl,
   ((RangeSection_cases exDacBuild exDelegateEnv 40 900 (InitForOther 0)).2.2.2.2.2
     (by decide)).2 rfl⟩

/-! ## Sequences of AddStubManager and UnlinkStubManager -/

theorem UnlinkStubManager_frame (R : Registry) (L : List Ptr) (mgr : Ptr) (fuel : Nat)
    (hL : R.IsList L) (hf : L.length < fuel) (R1 : Registry)
    (h : UnlinkStubManager R fuel mgr = some R1) (q : Ptr) (hq : q ∉ L) :
    R1.m_pNextManager q = R.m_pNextManager q := by
  have hspec := UnlinkLoop_chain R mgr L fuel Slot.first hL hf
  by_cases hm : mgr ∈ L
  · obtain ⟨l1, l2, e, hn1⟩ := List.eq_append_cons_of_mem hm
    have h2 := hspec.2 l1 l2 e hn1
    unfold UnlinkStubManager at h
    rw [h2, Option.some.injEq] at h
    subst h
    unfold slotAfter
    cases hl : l1.getLast? with
    | none => rfl
    | some p =>
        have hp : p ∈ L := by
          rw [e]
          exact List.mem_append_left _ (List.mem_of_getLast?_eq_some hl)
        have hne : q ≠ p := fun e1 => hq (e1 ▸ hp)
        simp [Registry.write, hne]
  · have h2 := hspec.1 hm
    unfold UnlinkStubManager at h
    rw [h2, Option.some.injEq] at h
    subst h
    rfl

theorem erase_eq_filter_ne (L : List Ptr) (mgr : Ptr) (hnd : L.Nodup) :
    L.erase mgr = L.filter (fun q => q ≠ mgr) := by
  rw [hnd.erase_eq_filter]
  apply List.filter_congr
  intro x _
  by_cases h : x = mgr <;> simp [h]

/-- The list after a sequence of calls in which every manager is added at most once,
from a registry in which the managers never added have a null `m_pNextManager`. -/
theorem runCalls_fresh (fuel : Nat) :
    ∀ (cs : List RegistryCall) (R : Registry) (L added : List Ptr), R.IsList L →
      (∀ m ∈ L, m ∈ added) → (∀ m, m ∉ added → R.m_pNextManager m = 0) →
      addsFresh cs added = true → L.length + cs.length < fuel →
      ∃ R1, runCalls fuel cs R = some R1 ∧ R1.IsList (registeredAfter cs L) := by
  intro cs
  induction cs with
  | nil =>
      intro R L added hL _ _ _ _
      exact ⟨R, rfl, hL⟩
  | cons c cs ih =>
      intro R L added hL hsub hnull hfresh hf
      cases c with
      | AddStubManager mgr =>
          simp only [addsFresh, Bool.and_eq_true, bne_iff_ne, ne_eq, Bool.not_eq_true'] at hfresh
          obtain ⟨⟨hm0, hmc⟩, hrest⟩ := hfresh
          have hmn : mgr ∉ added := fun hin => by
            have hc : added.contains mgr = true := List.elem_iff.mpr hin
            rw [hmc] at hc
            exact Bool.false_ne_true hc
          have hL1 : (AddStubManager R mgr).IsList (mgr :: L) :=
            AddStubManager_isList R L mgr hL hm0 (fun h => hmn (hsub mgr h)) (hnull mgr hmn)
          refine ih (AddStubManager R mgr) (mgr :: L) (mgr :: added) hL1 ?_ ?_ hrest ?_
          · intro m hm
            rcases List.mem_cons.mp hm with rfl | h
            · exact List.mem_cons_self _ _
            · exact List.mem_cons_of_mem _ (hsub m h)
          · intro m hm
            have hne : m ≠ mgr := fun e => hm (e ▸ List.mem_cons_self _ _)
            rw [AddStubManager_next R mgr m hne]
            exact hnull m (fun h => hm (List.mem_cons_of_mem _ h))
          · simp only [List.length_cons] at hf ⊢
            omega
      | UnlinkStubManager mgr =>
          have hf1 : L.length < fuel := by
            simp only [List.length_cons] at hf
            omega
          obtain ⟨R1, h1, hL1, _⟩ := UnlinkStubManager_isList R L mgr fuel hL hf1
          have hnd : L.Nodup := Chain_nodup R L _ hL
          have hlen : (L.filter (fun q => q ≠ mgr)).length ≤ L.length :=
            List.length_filter_le _ _
          have hgo := ih R1 (L.filter (fun q => q ≠ mgr)) added hL1
            (fun m hm => hsub m (List.mem_filter.mp hm).1)
            (fun m hm => by
              rw [UnlinkStubManager_frame R L mgr fuel hL hf1 R1 h1 m (fun h => hm (hsub m h))]
              exact hnull m hm)
            hfresh (by simp only [List.length_cons] at hf; omega)
          obtain ⟨R2, h2, hL2⟩ := hgo
          refine ⟨R2, ?_, ?_⟩
          · simp only [runCalls, h1]
            exact h2
          · simp only [registeredAfter]
            rw [erase_eq_filter_ne L mgr hnd]
            exact hL2

theorem addsFresh_unregistered :
    ∀ (cs : List RegistryCall) (reg added : List Ptr), (∀ m ∈ reg, m ∈ added) →
      addsFresh cs added = true → addsUnregistered cs reg = true := by
  intro cs
  induction cs with
  | nil => intro _ _ _ _; rfl
  | cons c cs ih =>
      intro reg added hsub h
      cases c with
      | AddStubManager mgr =>
          simp only [addsFresh, Bool.and_eq_true, bne_iff_ne, ne_eq, Bool.not_eq_true'] at h
          obtain ⟨⟨hm0, hmc⟩, hrest⟩ := h
          have hmn : mgr ∉ added := fun hin => by
            have hc : added.contains mgr = true := List.elem_iff.mpr hin
            rw [hmc] at hc
            exact Bool.false_ne_true hc
          have hreg : reg.contains mgr = false := by
            cases hc : reg.contains mgr with
            | false => rfl
            | true => exact absurd (hsub mgr (List.elem_iff.mp hc)) hmn
          simp only [addsUnregistered, Bool.and_eq_true, bne_iff_ne, ne_eq,
            Bool.not_eq_true']
          refine ⟨⟨hm0, hreg⟩, ih _ _ ?_ hrest⟩
          intro m hm
          rcases List.mem_cons.mp hm with rfl | h1
          · exact List.mem_cons_self _ _
          · exact List.mem_cons_of_mem _ (hsub m h1)
      | UnlinkStubManager mgr =>
          simp only [addsFresh] at h
          simp only [addsUnregistered]
          exact ih _ _ (fun m hm => hsub m (List.mem_of_mem_erase hm)) h

/-- C26, as the claim states it, fails: in the sequence that adds `10` and `20`, unlinks
`20` and `10` and adds `20` again, every manager is added while it is not registered and
only `20` is registered at the end, and the list of the registry afterwards is `20`,
`10`: `UnlinkStubManager` left `m_pNextManager` of `20` pointing to `10`, and
`AddStubManager` on an empty list does not write it. -/
theorem registry_readd_brings_back :
    addsUnregistered
      [RegistryCall.AddStubManager 10, RegistryCall.AddStubManager 20,
        RegistryCall.UnlinkStubManager 20, RegistryCall.UnlinkStubManager 10,
        RegistryCall.AddStubManager 20] [] = true ∧
    registeredAfter
      [RegistryCall.AddStubManager 10, RegistryCall.AddStubManager 20,
        RegistryCall.UnlinkStubManager 20, RegistryCall.UnlinkStubManager 10,
        RegistryCall.AddStubManager 20] [] = [20] ∧
    (runCalls 6
      [RegistryCall.AddStubManager 10, RegistryCall.AddStubManager 20,
        RegistryCall.UnlinkStubManager 20, RegistryCall.UnlinkStubManager 10,
        RegistryCall.AddStubManager 20] emptyRegistry).map
      (fun R => decide (R.IsList [20, 10])) = some true ∧
    (runCalls 6
      [RegistryCall.AddStubManager 10, RegistryCall.AddStubManager 20,
        RegistryCall.UnlinkStubManager 20, RegistryCall.UnlinkStubManager 10,
        RegistryCall.AddStubManager 20] emptyRegistry).map
      (fun R => decide (R.IsList [20])) = some false := by
  decide

/-- C26, amended: for every sequence of `AddStubManager` and `UnlinkStubManager` calls
from the empty registry in which every manager is added at most once (as a newly
constructed manager, whose `m_pNextManager` is null), every manager is added while it
is not registered, and the list of the registry afterwards is exactly the registered
managers, each once, the most recently registered first. -/
theorem registry_after_fresh_adds (cs : List RegistryCall) (fuel : Nat)
    (hfresh : addsFresh cs [] = true) (hf : cs.length < fuel) :
    addsUnregistered cs [] = true ∧
    ∃ R1, runCalls fuel cs emptyRegistry = some R1 ∧ R1.IsList (registeredAfter cs []) ∧
      (registeredAfter cs []).Nodup := by
  refine ⟨addsFresh_unregistered cs [] [] (fun _ h => h) hfresh, ?_⟩
  obtain ⟨R1, h1, h2⟩ := runCalls_fresh fuel cs emptyRegistry [] [] rfl
    (fun _ h => h) (fun _ _ => rfl) hfresh (by simpa using hf)
  exact ⟨R1, h1, h2, Chain_nodup R1 _ _ h2⟩

/-- Witness of C26, amended: adding `10`, `20` and `40`, with `20` unlinked before `40`
is added, leaves the list `40`, `10`. -/
theorem registry_after_fresh_adds_witness :
    registeredAfter
      [RegistryCall.AddStubManager 10, RegistryCall.AddStubManager 20,
        RegistryCall.UnlinkStubManager 20, RegistryCall.AddStubManager 40] [] = [40, 10] ∧
    addsUnregistered
      [RegistryCall.AddStubManager 10, RegistryCall.AddStubManager 20,
        RegistryCall.UnlinkStubManager 20, RegistryCall.AddStubManager 40] [] = true ∧
    ∃ R1, runCalls 5
        [RegistryCall.AddStubManager 10, RegistryCall.AddStubManager 20,
          RegistryCall.UnlinkStubManager 20, RegistryCall.AddStubManager 40]
        emptyRegistry = some R1 ∧
      R1.IsList (registeredAfter
        [RegistryCall.AddStubManager 10, RegistryCall.AddStubManager 20,
          RegistryCall.UnlinkStubManager 20, RegistryCall.AddStubManager 40] []) ∧
      (registeredAfter
        [RegistryCall.AddStubManager 10, RegistryCall.AddStubManager 20,
          RegistryCall.UnlinkStubManager 20, RegistryCall.AddStubManager 40] []).Nodup :=
  have h := registry_after_fresh_adds
    [RegistryCall.AddStubManager 10, RegistryCall.AddStubManager 20,
      RegistryCall.UnlinkStubManager 20, RegistryCall.AddStubManager 40] 5
    (by decide) (by decide)
  ⟨by decide, h.1, h.2⟩

/-! ## The unmanaged CALLI stub -/

theorem calli_mangle_round_trip (target : Nat) (h : target < 2 ^ 63) :
    ((target <<< 1 ||| 1) % 2 ^ 64) >>> 1 = target := by
  have e : target <<< 1 ||| 1 = 2 ^ 1 * target + 1 := by
    rw [Nat.shiftLeft_eq, Nat.mul_comm]
    exact (Nat.mul_add_lt_is_or (by decide : 1 < 2 ^ 1) target).symm
  rw [e, Nat.mod_eq_of_lt (by omega), Nat.shiftRight_eq_div_pow]
  omega

/-- C28: for an unmanaged CALLI stub that is no multicast, reverse or delegate stub,
`ILStubManager::TraceManager` returns `TRUE`; on the AMD64 target with
`Unmanaged(arg >> 1)`, where `arg` is the 64-bit hidden argument, so that the hidden
argument `(target << 1) | 1` of a call target below `2^63` gives `Unmanaged(target)`;
on every other target with `Unmanaged(arg)`. -/
theorem ILStub_TraceManager_calli (B : Build) (E : Env) (W : World) (R : Registry)
    (fuelT fuel : Nat) (t : TraceDestination) (c : T_CONTEXT)
    (hmc : (B.FEATURE_MULTICASTSTUB_AS_IL &&
      E.IsMulticastStub (ILStubManager.stubMethodDesc B E c)) = false)
    (hrev : E.IsReverseStub (ILStubManager.stubMethodDesc B E c) = false)
    (hdel : E.HasFlagIsDelegate (ILStubManager.stubMethodDesc B E c) = false)
    (hcalli : E.HasFlagIsCALLI (ILStubManager.stubMethodDesc B E c) = true) :
    (B.TARGET_AMD64 = true →
      (ILStubManager.TraceManager B E W R fuelT fuel t c).map (fun r => (r.result, r.trace)) =
        some (true, InitForUnmanaged ((c.GetHiddenArg % 2 ^ 64) >>> 1))) ∧
    (B.TARGET_AMD64 = true → ∀ target : Nat, target < 2 ^ 63 →
      c.GetHiddenArg = target <<< 1 ||| 1 →
      (ILStubManager.TraceManager B E W R fuelT fuel t c).map (fun r => (r.result, r.trace)) =
        some (true, InitForUnmanaged target)) ∧
    (B.TARGET_AMD64 = false →
      (ILStubManager.TraceManager B E W R fuelT fuel t c).map (fun r => (r.result, r.trace)) =
        some (true, InitForUnmanaged c.GetHiddenArg)) := by
  unfold ILStubManager.stubMethodDesc at hmc hrev hdel hcalli
  have hamd : B.TARGET_AMD64 = true →
      (ILStubManager.TraceManager B E W R fuelT fuel t c).map (fun r => (r.result, r.trace)) =
        some (true, InitForUnmanaged ((c.GetHiddenArg % 2 ^ 64) >>> 1)) := by
    intro hb
    simp only [ILStubManager.TraceManager, hmc, hrev, hdel, hcalli, hb]
    rfl
  refine ⟨hamd, ?_, ?_⟩
  · intro hb target hlt harg
    rw [hamd hb, harg, calli_mangle_round_trip target hlt]
  · intro hb
    simp only [ILStubManager.TraceManager, hmc, hrev, hdel, hcalli, hb]
    rfl

/-- Witness of C28: in the example environment with the CALLI stub, stopped in the stub
at `5000` with the hidden argument `21`, which is `(10 << 1) | 1`, `TraceManager`
returns `TRUE` with `Unmanaged(10)` on the AMD64 target. -/
theorem ILStub_TraceManager_calli_witness :
    exBuild.TARGET_AMD64 = true ∧ exContext.GetHiddenArg = 10 <<< 1 ||| 1 ∧
    (ILStubManager.TraceManager exBuild exCalliEnv exWorld exRegistry 4 4 (InitForStub 77)
        exContext).map (fun r => (r.result, r.trace)) =
      some (true, InitForUnmanaged 10) :=
  ⟨rfl, by decide,
    (ILStub_TraceManager_calli exBuild exCalliEnv exWorld exRegistry 4 4 (InitForStub 77)
      exContext rfl rfl rfl rfl).2.1 rfl 10 (by decide) (by decide)⟩

/-! ## StubLinkStubManager::TraceManager -/

theorem StubLink_DoTraceStub_push_iff (E : Env) (this : Ptr) (a : PCODE)
    (t : TraceDestination) :
    ((StubLinkStubManager.DoTraceStub E this a t).1 = true ∧
      (StubLinkStubManager.DoTraceStub E this a t).2.type = TraceType.TRACE_MGR_PUSH) ↔
    (E.StubIsMulticastDelegate (E.RecoverStub a) = true ∨
      E.StubIsInstantiatingStub (E.RecoverStub a) = true) := by
  by_cases h1 : E.StubIsMulticastDelegate (E.RecoverStub a) = true
  · simp [StubLinkStubManager.DoTraceStub, h1, InitForManagerPush]
  · by_cases h2 : E.StubIsInstantiatingStub (E.RecoverStub a) = true
    · simp [StubLinkStubManager.DoTraceStub, h1, h2, InitForManagerPush]
    · by_cases h3 : E.StubGetPatchOffset (E.RecoverStub a) = 0
      · simp [StubLinkStubManager.DoTraceStub, h1, h2, h3]
      · simp [StubLinkStubManager.DoTraceStub, h1, h2, h3, InitForFramePush]

/-- C30: `StubLinkStubManager::DoTraceStub` returns `TRUE` with a `ManagerPush`
destination exactly for a multicast delegate stub and for an instantiating stub; and in
a context stopped at an address for which it did, `StubLinkStubManager::TraceManager`
writes `Managed` of the active native code of the instantiated method of an
instantiating stub when there is such code and `UnjittedMethod` of that method when
there is none, returns what `TraceDelegateObject` on the this pointer returns for a
multicast delegate stub that is not an instantiating stub, and never comes to its final
assertion. -/
theorem StubLink_TraceManager_handled (B : Build) (E : Env) (W : World) (R : Registry)
    (fuelT fuel : Nat) (this : Ptr) (t t2 : TraceDestination) (c : T_CONTEXT) :
    (((StubLinkStubManager.DoTraceStub E this c.GetIP t).1 = true ∧
        (StubLinkStubManager.DoTraceStub E this c.GetIP t).2.type =
          TraceType.TRACE_MGR_PUSH) ↔
      (E.StubIsMulticastDelegate (E.RecoverStub c.GetIP) = true ∨
        E.StubIsInstantiatingStub (E.RecoverStub c.GetIP) = true)) ∧
    ((StubLinkStubManager.DoTraceStub E this c.GetIP t).1 = true →
      (StubLinkStubManager.DoTraceStub E this c.GetIP t).2.type = TraceType.TRACE_MGR_PUSH →
      (E.StubIsInstantiatingStub (E.RecoverStub c.GetIP) = true →
        E.NativeCodeVersionIsNull (E.GetInstantiatedMethodDesc (E.RecoverStub c.GetIP)) =
          false →
        E.GetNativeCode (E.GetInstantiatedMethodDesc (E.RecoverStub c.GetIP)) ≠ 0 →
        StubLinkStubManager.TraceManager B E W R fuelT fuel t2 c =
          some { value := { result := true,
                            trace := InitForManaged (E.GetNativeCode
                              (E.GetInstantiatedMethodDesc (E.RecoverStub c.GetIP))),
                            retAddr := c.GetReturnAddress, calls := [] },
                 assertReached := false }) ∧
      (E.StubIsInstantiatingStub (E.RecoverStub c.GetIP) = true →
        GetStubTarget E (E.GetInstantiatedMethodDesc (E.RecoverStub c.GetIP)) = 0 →
        StubLinkStubManager.TraceManager B E W R fuelT fuel t2 c =
          some { value := { result := true,
                            trace := InitForUnjittedMethod B E
                              (E.GetInstantiatedMethodDesc (E.RecoverStub c.GetIP)),
                            retAddr := c.GetReturnAddress, calls := [] },
                 assertReached := false }) ∧
      (E.StubIsInstantiatingStub (E.RecoverStub c.GetIP) = false →
        StubLinkStubManager.TraceManager B E W R fuelT fuel t2 c =
          (TraceDelegateObject W R E fuelT fuel c.GetThisPtr t2).map
            (fun r => { value := { result := r.1, trace := r.2.1,
                                   retAddr := c.GetReturnAddress, calls := r.2.2 },
                        assertReached := false })) ∧
      (∀ r : StubLinkTraceResult,
        StubLinkStubManager.TraceManager B E W R fuelT fuel t2 c = some r →
        r.assertReached = false)) := by
  refine ⟨StubLink_DoTraceStub_push_iff E this c.GetIP t, ?_⟩
  intro hb hty
  have hor := (StubLink_DoTraceStub_push_iff E this c.GetIP t).mp ⟨hb, hty⟩
  refine ⟨?_, ?_, ?_, ?_⟩
  · intro hi hnull hcode
    have hT : GetStubTarget E (E.GetInstantiatedMethodDesc (E.RecoverStub c.GetIP)) =
        E.GetNativeCode (E.GetInstantiatedMethodDesc (E.RecoverStub c.GetIP)) := by
      simp [GetStubTarget, hnull, hcode]
    simp only [StubLinkStubManager.TraceManager, hi, if_true, hT, if_neg hcode]
  · intro hi h0
    simp only [StubLinkStubManager.TraceManager, hi, if_true, h0]
  · intro hi
    have hm : E.StubIsMulticastDelegate (E.RecoverStub c.GetIP) = true := by
      rcases hor with h | h
      · exact h
      · rw [hi] at h
        exact absurd h Bool.false_ne_true
    simp only [StubLinkStubManager.TraceManager, hi, hm, if_true, Bool.false_eq_true,
      if_false]
  · intro r hr
    by_cases hi : E.StubIsInstantiatingStub (E.RecoverStub c.GetIP) = true
    · by_cases h0 : GetStubTarget E (E.GetInstantiatedMethodDesc (E.RecoverStub c.GetIP)) = 0
      · simp only [StubLinkStubManager.TraceManager, hi, if_true, h0] at hr
        rw [Option.some.injEq] at hr
        subst hr
        rfl
      · simp only [StubLinkStubManager.TraceManager, hi, if_true, if_neg h0] at hr
        rw [Option.some.injEq] at hr
        subst hr
        rfl
    · have hi1 : E.StubIsInstantiatingStub (E.RecoverStub c.GetIP) = false :=
        Bool.eq_false_iff.mpr hi
      have hm : E.StubIsMulticastDelegate (E.RecoverStub c.GetIP) = true := by
        rcases hor with h | h
        · exact h
        · exact absurd h hi
      simp only [StubLinkStubManager.TraceManager, hi1, hm, if_true, Bool.false_eq_true,
        if_false] at hr
      obtain ⟨x, _, e⟩ := Option.map_eq_some'.mp hr
      subst e
      rfl

/-- Witness of C30: in the example environment with the instantiating stub `601` of
the method `8`, `TraceManager` stopped at `601` writes `Managed(8800)`, and stopped at
the multicast delegate stub `600` with the delegate `510` it returns what
`TraceDelegateObject` returns. -/
theorem StubLink_TraceManager_handled_witness :
    StubLinkStubManager.DoTraceStub exStubLinkEnv 11 601 (InitForOther 0) =
      (true, InitForManagerPush 601 11) ∧
    StubLinkStubManager.TraceManager exBuild exStubLinkEnv exWorld exRegistry 4 4
        (InitForOther 0) exInstantiatingContext =
      some { value := { result := true, trace := InitForManaged 8800, retAddr := 5555,
                        calls := [] },
             assertReached := false } ∧
    StubLinkStubManager.TraceManager exBuild exStubLinkEnv exWorld exRegistry 4 4
        (InitForOther 0) exMulticastContext =
      (TraceDelegateObject exWorld exRegistry exStubLinkEnv 4 4 510 (InitForOther 0)).map
        (fun r => { value := { result := r.1, trace := r.2.1, retAddr := 5555,
                               calls := r.2.2 },
                    assertReached := false }) :=
  ⟨by decide,
   ((StubLink_TraceManager_handled exBuild exStubLinkEnv exWorld exRegistry 4 4 11
      (InitForOther 0) (InitForOther 0) exInstantiatingContext).2 (by decide)
      (by decide)).1 (by decide) (by decide) (by decide),
   ((StubLink_TraceManager_handled exBuild exStubLinkEnv exWorld exRegistry 4 4 11
      (InitForOther 0) (InitForOther 0) exMulticastContext).2 (by decide)
      (by decide)).2.2.1 (by decide)⟩

end StubMgr
